import Mathlib

/-!
# Shredder: a shallow embedding of the virtual machine of `shredder.c`

Source: `src/releases/v0.0.1-alpha_stable/shredder.c`.

Conventions of the embedding.

* `uint8_t` cells are `Fin 256`, `uint16_t` cells are `Fin 65536`; every narrowing
  conversion of the C code is written out (`u8`, `u8i`, `u16`, `u32`).
  Scalar variables (`ip`, `stack_pointer`, `instruction_count`, `overflow_flag`)
  are natural numbers and every C update of them carries its explicit modulus.
* The global arrays `memory` and `call_stack` are total functions on `Nat`, but
  every C subscript goes through `mem_read` / `mem_write` / `stack_read` /
  `stack_write`, which return `Except.error` when the index is outside the
  array (the C program would have undefined behaviour there).
* `stderr` is the list of fault messages written so far, abstracted to their
  kind (`Fault`); `stdout` is the list of bytes written by `putchar` / `printf`;
  `stdin` is the list of bytes still to be delivered by `getchar`.
* `debug_mode` and `trace_mode` keep their initial value `0`, so
  `debug_instruction` returns at once and the trace `printf`s are skipped.
* The locals `ip` and `running` of `execute` are fields of the machine state.
* A source file is the list of the bytes `fgetc` returns before `EOF`; the
  file system is a function from file names to such lists. The counters `line`
  and `col` of `load_program`, used in its messages only, are left out.
-/

namespace Shredder

/-! ## Configuration and constants (lines 9-51) -/

def MEMORY_SIZE : Nat := 65536
def STACK_SIZE : Nat := 64
def MAX_INSTRUCTIONS : Nat := 1000000

def OP_NOP : Nat := 0x00
def OP_POKE : Nat := 0x01
def OP_MOVE : Nat := 0x02
def OP_NOT : Nat := 0x03
def OP_NAND : Nat := 0x04
def OP_JMP : Nat := 0x05
def OP_JZ : Nat := 0x06
def OP_RUN : Nat := 0x07
def OP_HALT : Nat := 0x08
def OP_AND : Nat := 0x09
def OP_OR : Nat := 0x0A
def OP_XOR : Nat := 0x0B
def OP_INC : Nat := 0x0C
def OP_DEC : Nat := 0x0D
def OP_CMP : Nat := 0x0E
def OP_COMMENT : Nat := 0x0F
def OP_PUTC : Nat := 0x10
def OP_PUTN : Nat := 0x11
def OP_GETC : Nat := 0x12
def OP_RET : Nat := 0x13
def OP_ADD : Nat := 0x14
def OP_SUB : Nat := 0x15
def OP_MUL : Nat := 0x16
def OP_DIV : Nat := 0x17
def OP_SHL : Nat := 0x18
def OP_SHR : Nat := 0x19
def OP_POKE16 : Nat := 0x1A
def OP_MOVE16 : Nat := 0x1B
def OP_JMP16 : Nat := 0x1C
def OP_JZ16 : Nat := 0x1D
def OP_RUN16 : Nat := 0x1E

/-! ## Machine integers -/

/-- Conversion of a non-negative value to `uint8_t`. -/
def u8 (n : Nat) : Fin 256 := ⟨n % 256, Nat.mod_lt n (by decide)⟩

/-- Conversion of a signed (`int`) value to `uint8_t`. -/
def u8i (z : Int) : Fin 256 :=
  ⟨(z % 256).toNat, by
    have h1 : 0 ≤ z % 256 := Int.emod_nonneg z (by decide)
    have h2 : z % 256 < 256 := Int.emod_lt_of_pos z (by decide)
    omega⟩

/-- Conversion of a non-negative value to `uint16_t`. -/
def u16 (n : Nat) : Fin 65536 := ⟨n % 65536, Nat.mod_lt n (by decide)⟩

/-- Conversion of a non-negative value to `uint32_t`. -/
def u32 (n : Nat) : Nat := n % 4294967296

/-! ## Global VM state (lines 54-60) -/

/-- The kinds of message the program writes to `stderr`. -/
inductive Fault where
  | start_out_of_bounds      -- "Error: Start address ... out of bounds"
  | instruction_limit        -- "CPU Fault: Instruction limit exceeded"
  | ip_out_of_bounds         -- "CPU Fault: IP ... out of bounds"
  | truncated                -- "CPU Fault: <MNEMONIC> truncated at ..."
  | stack_overflow           -- "CPU Fault: Stack overflow"
  | stack_underflow          -- "CPU Fault: Stack underflow"
  | ret_empty_stack          -- "CPU Fault: RET with empty stack"
  | comment_overflow         -- "CPU Fault: COMMENT overflows memory"
  | division_by_zero         -- "CPU Fault: Division by zero"
  | invalid_address          -- "CPU Fault: <MNEMONIC> ... out of bounds"
  | unknown_opcode           -- "CPU Fault: Unknown opcode"
  | invalid_filename         -- "Error: Invalid filename"
  | cannot_open              -- "Error: Cannot open file ..."
  | invalid_hex              -- "Error: Invalid hex ..."
  | memory_full              -- "Warning: Memory full at ... bytes, truncating"
  | invalid_character        -- "Error: Invalid character ..."
  | incomplete_hex           -- "Error: Incomplete hex byte at end of file"
  deriving DecidableEq, Repr

/-- An array subscript outside its array: undefined behaviour of the C program. -/
inductive Undefined where
  | memory_index (i : Nat)
  | stack_index (i : Nat)
  deriving DecidableEq, Repr

structure VM where
  memory : Nat → Fin 256
  call_stack : Nat → Fin 65536
  stack_pointer : Nat
  overflow_flag : Nat
  instruction_count : Nat
  ip : Nat
  running : Bool
  stdin : List Nat
  stdout : List Nat
  stderr : List Fault

/-- The subscript `memory[i]` used as a value. -/
def mem_read (s : VM) (i : Nat) : Except Undefined (Fin 256) :=
  if i < MEMORY_SIZE then Except.ok (s.memory i) else Except.error (Undefined.memory_index i)

/-- The assignment `memory[i] = v`. -/
def mem_write (s : VM) (i : Nat) (v : Fin 256) : Except Undefined VM :=
  if i < MEMORY_SIZE then Except.ok { s with memory := Function.update s.memory i v }
  else Except.error (Undefined.memory_index i)

/-- The subscript `call_stack[i]` used as a value. -/
def stack_read (s : VM) (i : Nat) : Except Undefined (Fin 65536) :=
  if i < STACK_SIZE then Except.ok (s.call_stack i) else Except.error (Undefined.stack_index i)

/-- The assignment `call_stack[i] = v`. -/
def stack_write (s : VM) (i : Nat) (v : Fin 65536) : Except Undefined VM :=
  if i < STACK_SIZE then Except.ok { s with call_stack := Function.update s.call_stack i v }
  else Except.error (Undefined.stack_index i)

/-- A message on `stderr`. -/
def report (s : VM) (f : Fault) : VM := { s with stderr := s.stderr ++ [f] }

/-- The statement pair `fprintf(stderr, ...); running = 0;`. -/
def fault (s : VM) (f : Fault) : VM := { report s f with running := false }

/-! ## Helpers (lines 64-73) -/

def ensure_operands (ip needed : Nat) : Bool :=
  if ip ≥ MEMORY_SIZE then false
  else if needed > MEMORY_SIZE then false
  else decide (u32 (ip + needed) ≤ MEMORY_SIZE)

def is_valid_address (addr : Nat) : Bool := decide (addr < MEMORY_SIZE)

/-! ## Stack operations (lines 76-100) -/

/-- Function `push_stack`: the returned Boolean is the C return value. -/
def push_stack (s : VM) (return_addr : Fin 65536) : Except Undefined (Bool × VM) :=
  if s.stack_pointer ≥ STACK_SIZE then
    Except.ok (false, report s Fault.stack_overflow)
  else do
    let s1 ← stack_write s s.stack_pointer return_addr
    pure (true, { s1 with stack_pointer := (s.stack_pointer + 1) % 65536 })

/-- Function `pop_stack`: `none` is the C return value 0, `some a` is return
value 1 with `*out_addr = a`. -/
def pop_stack (s : VM) : Except Undefined (Option (Fin 65536) × VM) :=
  if s.stack_pointer = 0 then
    Except.ok (none, report s Fault.stack_underflow)
  else do
    let sp := (s.stack_pointer + 65535) % 65536
    let a ← stack_read s sp
    pure (some a, { s with stack_pointer := sp })

/-! ## The engine: the cases of the opcode switch (lines 364-793) -/

/-- Decoding `((uint16_t)hi << 8) | lo` into a `uint16_t`. -/
def addr16 (hi lo : Fin 256) : Fin 65536 := u16 ((hi.val <<< 8) ||| lo.val)

def op_NOP (s : VM) : Except Undefined VM :=
  pure { s with ip := u32 (s.ip + 1) }

def op_POKE (s : VM) : Except Undefined VM :=
  if !ensure_operands s.ip 3 then pure (fault s Fault.truncated)
  else do
    let addr ← mem_read s (s.ip + 1)
    let value ← mem_read s (s.ip + 2)
    let s1 ← mem_write s addr.val value
    pure { s1 with ip := u32 (s.ip + 3) }

def op_MOVE (s : VM) : Except Undefined VM :=
  if !ensure_operands s.ip 3 then pure (fault s Fault.truncated)
  else do
    let src ← mem_read s (s.ip + 1)
    let dest ← mem_read s (s.ip + 2)
    let v ← mem_read s src.val
    let s1 ← mem_write s dest.val v
    pure { s1 with ip := u32 (s.ip + 3) }

def op_NOT (s : VM) : Except Undefined VM :=
  if !ensure_operands s.ip 2 then pure (fault s Fault.truncated)
  else do
    let addr ← mem_read s (s.ip + 1)
    let x ← mem_read s addr.val
    let s1 ← mem_write s addr.val (u8i (-(x.val : Int) - 1))
    pure { s1 with ip := u32 (s.ip + 2) }

def op_NAND (s : VM) : Except Undefined VM :=
  if !ensure_operands s.ip 4 then pure (fault s Fault.truncated)
  else do
    let a ← mem_read s (s.ip + 1)
    let b ← mem_read s (s.ip + 2)
    let dest ← mem_read s (s.ip + 3)
    let x ← mem_read s a.val
    let y ← mem_read s b.val
    let s1 ← mem_write s dest.val (u8i (-((x.val &&& y.val : Nat) : Int) - 1))
    pure { s1 with ip := u32 (s.ip + 4) }

def op_JMP (s : VM) : Except Undefined VM :=
  if !ensure_operands s.ip 2 then pure (fault s Fault.truncated)
  else do
    let addr ← mem_read s (s.ip + 1)
    pure { s with ip := addr.val }

def op_JZ (s : VM) : Except Undefined VM :=
  if !ensure_operands s.ip 3 then pure (fault s Fault.truncated)
  else do
    let addr ← mem_read s (s.ip + 1)
    let cond ← mem_read s (s.ip + 2)
    let c ← mem_read s cond.val
    if c.val = 0 then pure { s with ip := addr.val }
    else pure { s with ip := u32 (s.ip + 3) }

def op_RUN (s : VM) : Except Undefined VM :=
  if !ensure_operands s.ip 2 then pure (fault s Fault.truncated)
  else do
    let addr ← mem_read s (s.ip + 1)
    let (ok, s1) ← push_stack s (u16 (u32 (s.ip + 2)))
    if !ok then pure { s1 with running := false }
    else pure { s1 with ip := addr.val }

def op_HALT (s : VM) : Except Undefined VM :=
  if s.stack_pointer > 0 then do
    let (r, s1) ← pop_stack s
    match r with
    | none => pure { s1 with running := false }
    | some ret_addr => pure { s1 with ip := ret_addr.val }
  else pure { s with running := false }

def op_AND (s : VM) : Except Undefined VM :=
  if !ensure_operands s.ip 4 then pure (fault s Fault.truncated)
  else do
    let a ← mem_read s (s.ip + 1)
    let b ← mem_read s (s.ip + 2)
    let dest ← mem_read s (s.ip + 3)
    let x ← mem_read s a.val
    let y ← mem_read s b.val
    let s1 ← mem_write s dest.val (u8 (x.val &&& y.val))
    pure { s1 with ip := u32 (s.ip + 4) }

def op_OR (s : VM) : Except Undefined VM :=
  if !ensure_operands s.ip 4 then pure (fault s Fault.truncated)
  else do
    let a ← mem_read s (s.ip + 1)
    let b ← mem_read s (s.ip + 2)
    let dest ← mem_read s (s.ip + 3)
    let x ← mem_read s a.val
    let y ← mem_read s b.val
    let s1 ← mem_write s dest.val (u8 (x.val ||| y.val))
    pure { s1 with ip := u32 (s.ip + 4) }

def op_XOR (s : VM) : Except Undefined VM :=
  if !ensure_operands s.ip 4 then pure (fault s Fault.truncated)
  else do
    let a ← mem_read s (s.ip + 1)
    let b ← mem_read s (s.ip + 2)
    let dest ← mem_read s (s.ip + 3)
    let x ← mem_read s a.val
    let y ← mem_read s b.val
    let s1 ← mem_write s dest.val (u8 (x.val ^^^ y.val))
    pure { s1 with ip := u32 (s.ip + 4) }

def op_INC (s : VM) : Except Undefined VM :=
  if !ensure_operands s.ip 2 then pure (fault s Fault.truncated)
  else do
    let addr ← mem_read s (s.ip + 1)
    let x ← mem_read s addr.val
    let s1 ← mem_write s addr.val (u8 (x.val + 1))
    pure { s1 with ip := u32 (s.ip + 2) }

def op_DEC (s : VM) : Except Undefined VM :=
  if !ensure_operands s.ip 2 then pure (fault s Fault.truncated)
  else do
    let addr ← mem_read s (s.ip + 1)
    let x ← mem_read s addr.val
    let s1 ← mem_write s addr.val (u8i ((x.val : Int) - 1))
    pure { s1 with ip := u32 (s.ip + 2) }

def op_CMP (s : VM) : Except Undefined VM :=
  if !ensure_operands s.ip 4 then pure (fault s Fault.truncated)
  else do
    let a ← mem_read s (s.ip + 1)
    let b ← mem_read s (s.ip + 2)
    let dest ← mem_read s (s.ip + 3)
    let x ← mem_read s a.val
    let y ← mem_read s b.val
    let s1 ← mem_write s dest.val (if x = y then u8 1 else u8 0)
    pure { s1 with ip := u32 (s.ip + 4) }

def op_COMMENT (s : VM) : Except Undefined VM :=
  if !ensure_operands s.ip 2 then pure (fault s Fault.truncated)
  else do
    let len ← mem_read s (s.ip + 1)
    let new_ip := u32 (s.ip + 2 + len.val)
    if new_ip > MEMORY_SIZE then pure (fault s Fault.comment_overflow)
    else pure { s with ip := new_ip }

/-- The characters written by `printf("%d", v)` for a byte `v`. -/
def print_decimal (v : Nat) : List Nat := (Nat.toDigits 10 v).map Char.toNat

def op_PUTC (s : VM) : Except Undefined VM :=
  if !ensure_operands s.ip 2 then pure (fault s Fault.truncated)
  else do
    let addr ← mem_read s (s.ip + 1)
    let x ← mem_read s addr.val
    pure { s with stdout := s.stdout ++ [x.val], ip := u32 (s.ip + 2) }

def op_PUTN (s : VM) : Except Undefined VM :=
  if !ensure_operands s.ip 2 then pure (fault s Fault.truncated)
  else do
    let addr ← mem_read s (s.ip + 1)
    let x ← mem_read s addr.val
    pure { s with stdout := s.stdout ++ print_decimal x.val, ip := u32 (s.ip + 2) }

/-- Function `getchar`: `none` is `EOF`. -/
def getchar (s : VM) : Option Nat × VM :=
  match s.stdin with
  | [] => (none, s)
  | c :: rest => (some c, { s with stdin := rest })

def op_GETC (s : VM) : Except Undefined VM :=
  if !ensure_operands s.ip 2 then pure (fault s Fault.truncated)
  else do
    let addr ← mem_read s (s.ip + 1)
    let (ch, s0) := getchar s
    let s1 ← mem_write s0 addr.val (match ch with | none => u8 0 | some c => u8 c)
    pure { s1 with ip := u32 (s.ip + 2) }

def op_RET (s : VM) : Except Undefined VM :=
  if s.stack_pointer > 0 then do
    let (r, s1) ← pop_stack s
    match r with
    | none => pure { s1 with running := false }
    | some ret_addr => pure { s1 with ip := ret_addr.val }
  else pure (fault s Fault.ret_empty_stack)

def op_ADD (s : VM) : Except Undefined VM :=
  if !ensure_operands s.ip 4 then pure (fault s Fault.truncated)
  else do
    let a ← mem_read s (s.ip + 1)
    let b ← mem_read s (s.ip + 2)
    let dest ← mem_read s (s.ip + 3)
    let x ← mem_read s a.val
    let y ← mem_read s b.val
    let result := u16 (x.val + y.val)
    let s1 ← mem_write s dest.val (u8 result.val)
    pure { s1 with overflow_flag := if result.val > 255 then 1 else 0, ip := u32 (s.ip + 4) }

def op_SUB (s : VM) : Except Undefined VM :=
  if !ensure_operands s.ip 4 then pure (fault s Fault.truncated)
  else do
    let a ← mem_read s (s.ip + 1)
    let b ← mem_read s (s.ip + 2)
    let dest ← mem_read s (s.ip + 3)
    let x ← mem_read s a.val
    let y ← mem_read s b.val
    let result : Int := (x.val : Int) - (y.val : Int)
    let s1 ← mem_write s dest.val (u8i result)
    pure { s1 with overflow_flag := if result < 0 then 1 else 0, ip := u32 (s.ip + 4) }

def op_MUL (s : VM) : Except Undefined VM :=
  if !ensure_operands s.ip 4 then pure (fault s Fault.truncated)
  else do
    let a ← mem_read s (s.ip + 1)
    let b ← mem_read s (s.ip + 2)
    let dest ← mem_read s (s.ip + 3)
    let x ← mem_read s a.val
    let y ← mem_read s b.val
    let result := u16 (x.val * y.val)
    let s1 ← mem_write s dest.val (u8 result.val)
    pure { s1 with overflow_flag := if result.val > 255 then 1 else 0, ip := u32 (s.ip + 4) }

def op_DIV (s : VM) : Except Undefined VM :=
  if !ensure_operands s.ip 4 then pure (fault s Fault.truncated)
  else do
    let a ← mem_read s (s.ip + 1)
    let b ← mem_read s (s.ip + 2)
    let dest ← mem_read s (s.ip + 3)
    let y ← mem_read s b.val
    if y.val = 0 then pure (fault s Fault.division_by_zero)
    else do
      let x ← mem_read s a.val
      let y1 ← mem_read s b.val
      let s1 ← mem_write s dest.val (u8 (x.val / y1.val))
      pure { s1 with ip := u32 (s.ip + 4) }

def op_SHL (s : VM) : Except Undefined VM :=
  if !ensure_operands s.ip 4 then pure (fault s Fault.truncated)
  else do
    let a ← mem_read s (s.ip + 1)
    let b ← mem_read s (s.ip + 2)
    let dest ← mem_read s (s.ip + 3)
    let y ← mem_read s b.val
    let shift := u8 (y.val &&& 0x07)
    let x ← mem_read s a.val
    let s1 ← mem_write s dest.val (u8 (x.val <<< shift.val))
    pure { s1 with ip := u32 (s.ip + 4) }

def op_SHR (s : VM) : Except Undefined VM :=
  if !ensure_operands s.ip 4 then pure (fault s Fault.truncated)
  else do
    let a ← mem_read s (s.ip + 1)
    let b ← mem_read s (s.ip + 2)
    let dest ← mem_read s (s.ip + 3)
    let y ← mem_read s b.val
    let shift := u8 (y.val &&& 0x07)
    let x ← mem_read s a.val
    let s1 ← mem_write s dest.val (u8 (x.val >>> shift.val))
    pure { s1 with ip := u32 (s.ip + 4) }

def op_POKE16 (s : VM) : Except Undefined VM :=
  if !ensure_operands s.ip 4 then pure (fault s Fault.truncated)
  else do
    let hi ← mem_read s (s.ip + 1)
    let lo ← mem_read s (s.ip + 2)
    let addr := addr16 hi lo
    let value ← mem_read s (s.ip + 3)
    if !is_valid_address addr.val then pure (fault s Fault.invalid_address)
    else do
      let s1 ← mem_write s addr.val value
      pure { s1 with ip := u32 (s.ip + 4) }

def op_MOVE16 (s : VM) : Except Undefined VM :=
  if !ensure_operands s.ip 5 then pure (fault s Fault.truncated)
  else do
    let shi ← mem_read s (s.ip + 1)
    let slo ← mem_read s (s.ip + 2)
    let src := addr16 shi slo
    let dhi ← mem_read s (s.ip + 3)
    let dlo ← mem_read s (s.ip + 4)
    let dest := addr16 dhi dlo
    if !is_valid_address src.val || !is_valid_address dest.val then
      pure (fault s Fault.invalid_address)
    else do
      let v ← mem_read s src.val
      let s1 ← mem_write s dest.val v
      pure { s1 with ip := u32 (s.ip + 5) }

def op_JMP16 (s : VM) : Except Undefined VM :=
  if !ensure_operands s.ip 3 then pure (fault s Fault.truncated)
  else do
    let hi ← mem_read s (s.ip + 1)
    let lo ← mem_read s (s.ip + 2)
    let addr := addr16 hi lo
    if !is_valid_address addr.val then pure (fault s Fault.invalid_address)
    else pure { s with ip := addr.val }

def op_JZ16 (s : VM) : Except Undefined VM :=
  if !ensure_operands s.ip 4 then pure (fault s Fault.truncated)
  else do
    let hi ← mem_read s (s.ip + 1)
    let lo ← mem_read s (s.ip + 2)
    let addr := addr16 hi lo
    let cond ← mem_read s (s.ip + 3)
    if !is_valid_address addr.val then pure (fault s Fault.invalid_address)
    else do
      let c ← mem_read s cond.val
      if c.val = 0 then pure { s with ip := addr.val }
      else pure { s with ip := u32 (s.ip + 4) }

def op_RUN16 (s : VM) : Except Undefined VM :=
  if !ensure_operands s.ip 3 then pure (fault s Fault.truncated)
  else do
    let hi ← mem_read s (s.ip + 1)
    let lo ← mem_read s (s.ip + 2)
    let addr := addr16 hi lo
    if !is_valid_address addr.val then pure (fault s Fault.invalid_address)
    else do
      let (ok, s1) ← push_stack s (u16 (u32 (s.ip + 3)))
      if !ok then pure { s1 with running := false }
      else pure { s1 with ip := addr.val }

/-- The `switch (opcode)` statement of `execute`. -/
def exec_opcode (opcode : Nat) (s : VM) : Except Undefined VM :=
  match opcode with
  | 0x00 => op_NOP s
  | 0x01 => op_POKE s
  | 0x02 => op_MOVE s
  | 0x03 => op_NOT s
  | 0x04 => op_NAND s
  | 0x05 => op_JMP s
  | 0x06 => op_JZ s
  | 0x07 => op_RUN s
  | 0x08 => op_HALT s
  | 0x09 => op_AND s
  | 0x0A => op_OR s
  | 0x0B => op_XOR s
  | 0x0C => op_INC s
  | 0x0D => op_DEC s
  | 0x0E => op_CMP s
  | 0x0F => op_COMMENT s
  | 0x10 => op_PUTC s
  | 0x11 => op_PUTN s
  | 0x12 => op_GETC s
  | 0x13 => op_RET s
  | 0x14 => op_ADD s
  | 0x15 => op_SUB s
  | 0x16 => op_MUL s
  | 0x17 => op_DIV s
  | 0x18 => op_SHL s
  | 0x19 => op_SHR s
  | 0x1A => op_POKE16 s
  | 0x1B => op_MOVE16 s
  | 0x1C => op_JMP16 s
  | 0x1D => op_JZ16 s
  | 0x1E => op_RUN16 s
  | _ => pure (fault s Fault.unknown_opcode)

/-! ## The engine: the run loop (lines 338-799) -/

/-- One iteration of the body of `while (running)`. -/
def step (s : VM) : Except Undefined VM :=
  let s0 := { s with instruction_count := u32 (s.instruction_count + 1) }
  if s0.instruction_count > MAX_INSTRUCTIONS then
    pure (fault s0 Fault.instruction_limit)
  else if !is_valid_address s0.ip then
    pure (fault s0 Fault.ip_out_of_bounds)
  else do
    let opcode ← mem_read s0 s0.ip
    exec_opcode opcode.val s0

/-- The loop `while (running)`, for at most `fuel` iterations; `none` when the
fuel is used up with the machine still running. -/
def run_loop : Nat → VM → Option (Except Undefined VM)
  | 0, s => if s.running then none else some (Except.ok s)
  | fuel + 1, s =>
    if s.running then
      match step s with
      | Except.error e => some (Except.error e)
      | Except.ok s1 => run_loop fuel s1
    else some (Except.ok s)

/-- Function `execute`, with the fuel of its loop. -/
def execute (fuel : Nat) (start_addr : Fin 65536) (s : VM) : Option (Except Undefined VM) :=
  if !is_valid_address start_addr.val then
    some (Except.ok (report s Fault.start_out_of_bounds))
  else
    run_loop fuel { s with ip := start_addr.val, running := true }

/-- The machine as `main` initialises it (lines 856-860), with a given input stream. -/
def reset (input : List Nat) : VM :=
  { memory := fun _ => u8 0
    call_stack := fun _ => u16 0
    stack_pointer := 0
    overflow_flag := 0
    instruction_count := 0
    ip := 0
    running := true
    stdin := input
    stdout := []
    stderr := [] }

/-! ## Program loader (lines 104-186) -/

def MAX_FILENAME_LEN : Nat := 256

/-- Function `isspace` in the C locale: space, `\t`, `\n`, `\v`, `\f`, `\r`. -/
def isspace (ch : Nat) : Bool := ch = 32 || (9 ≤ ch && ch ≤ 13)

/-- Function `isxdigit`: `0`-`9`, `A`-`F`, `a`-`f`. -/
def isxdigit (ch : Nat) : Bool :=
  (48 ≤ ch && ch ≤ 57) || (65 ≤ ch && ch ≤ 70) || (97 ≤ ch && ch ≤ 102)

/-- The value of one hexadecimal digit character. -/
def hex_digit (ch : Nat) : Option Nat :=
  if 48 ≤ ch ∧ ch ≤ 57 then some (ch - 48)
  else if 65 ≤ ch ∧ ch ≤ 70 then some (ch - 55)
  else if 97 ≤ ch ∧ ch ≤ 102 then some (ch - 87)
  else none

/-- The call `sscanf(hex_buf, "%x", &byte_val)` on a buffer of two characters
followed by NUL: `none` when no conversion is made, else the converted value
(the digits up to the first character that is not one). -/
def sscanf_hex (c0 c1 : Nat) : Option Nat :=
  match hex_digit c0, hex_digit c1 with
  | none, _ => none
  | some h, none => some h
  | some h, some l => some (16 * h + l)

/-- The locals of `load_program` that outlive one loop iteration. -/
structure LoadState where
  addr : Nat
  in_comment : Bool
  hex_buf : Nat → Nat
  hex_pos : Nat

/-- How one iteration of the `fgetc` loop ends. -/
inductive LoadStep where
  | next (l : LoadState) (s : VM)      -- `continue`, or the end of the body
  | stop (l : LoadState) (s : VM)      -- `break`
  | fail (s : VM)                      -- `return -1`

/-- The body of `while ((ch = fgetc(file)) != EOF)` for the character `ch`. -/
def load_char (ch : Nat) (l : LoadState) (s : VM) : Except Undefined LoadStep :=
  if ch = 59 || ch = 35 then pure (LoadStep.next { l with in_comment := true } s)
  else if ch = 10 then pure (LoadStep.next { l with in_comment := false } s)
  else if l.in_comment then pure (LoadStep.next l s)
  else if isspace ch then pure (LoadStep.next l s)
  else if isxdigit ch then
    let l1 : LoadState :=
      { l with hex_buf := Function.update l.hex_buf l.hex_pos ch, hex_pos := l.hex_pos + 1 }
    if l1.hex_pos = 2 then
      match sscanf_hex (l1.hex_buf 0) (l1.hex_buf 1) with
      | none => pure (LoadStep.fail (report s Fault.invalid_hex))
      | some byte_val =>
        if byte_val > 0xFF then pure (LoadStep.fail (report s Fault.invalid_hex))
        else if l1.addr ≥ MEMORY_SIZE then
          pure (LoadStep.stop l1 (report s Fault.memory_full))
        else do
          let s1 ← mem_write s l1.addr (u8 byte_val)
          pure (LoadStep.next { l1 with addr := u32 (l1.addr + 1), hex_pos := 0 } s1)
    else pure (LoadStep.next l1 s)
  else pure (LoadStep.fail (report s Fault.invalid_character))

/-- The loop `while ((ch = fgetc(file)) != EOF)` over the characters of the
file: the locals when the loop is left by `EOF` or `break`, or `none` when the
function returned -1 from inside the loop. -/
def load_loop : List Nat → LoadState → VM → Except Undefined (Option LoadState × VM)
  | [], l, s => pure (some l, s)
  | ch :: rest, l, s => do
    let r ← load_char ch l s
    match r with
    | LoadStep.next l1 s1 => load_loop rest l1 s1
    | LoadStep.stop l1 s1 => pure (some l1, s1)
    | LoadStep.fail s1 => pure (none, s1)

/-- Function `load_program` for a non-null file name; `fopen` gives the content
of a file, or `none` when it cannot be opened. The integer is the C return
value, 0 or -1. -/
def load_program (filename : List Nat) (fopen : List Nat → Option (List Nat)) (s : VM) :
    Except Undefined (Int × VM) :=
  if filename.length ≥ MAX_FILENAME_LEN then pure (-1, report s Fault.invalid_filename)
  else
    match fopen filename with
    | none => pure (-1, report s Fault.cannot_open)
    | some file => do
      let s0 : VM := { s with memory := fun i => if i < MEMORY_SIZE then u8 0 else s.memory i }
      let (r, s1) ← load_loop file
        { addr := 0, in_comment := false, hex_buf := fun _ => 0, hex_pos := 0 } s0
      match r with
      | none => pure (-1, s1)
      | some l =>
        if l.hex_pos ≠ 0 then pure (-1, report s1 Fault.incomplete_hex)
        else pure (0, s1)

/-! ## Drivers and tables used to state the properties -/

/-- The byte count each case of the switch passes to `ensure_operands`
(opcode byte included); `1` for the cases that make no such call. -/
def operand_width (opcode : Nat) : Nat :=
  match opcode with
  | 0x01 => 3 | 0x02 => 3 | 0x03 => 2 | 0x04 => 4 | 0x05 => 2 | 0x06 => 3 | 0x07 => 2
  | 0x09 => 4 | 0x0A => 4 | 0x0B => 4 | 0x0C => 2 | 0x0D => 2 | 0x0E => 4 | 0x0F => 2
  | 0x10 => 2 | 0x11 => 2 | 0x12 => 2
  | 0x14 => 4 | 0x15 => 4 | 0x16 => 4 | 0x17 => 4 | 0x18 => 4 | 0x19 => 4
  | 0x1A => 4 | 0x1B => 5 | 0x1C => 3 | 0x1D => 4 | 0x1E => 3
  | _ => 1

/-- The opcodes whose case starts with a call of `ensure_operands`. -/
def operand_opcodes : List Nat :=
  [OP_POKE, OP_MOVE, OP_NOT, OP_NAND, OP_JMP, OP_JZ, OP_RUN, OP_AND, OP_OR, OP_XOR,
   OP_INC, OP_DEC, OP_CMP, OP_COMMENT, OP_PUTC, OP_PUTN, OP_GETC, OP_ADD, OP_SUB,
   OP_MUL, OP_DIV, OP_SHL, OP_SHR, OP_POKE16, OP_MOVE16, OP_JMP16, OP_JZ16, OP_RUN16]

/-- Consecutive calls of `push_stack`, one per address, stopping at the first
call that returns 0. -/
def push_seq : List (Fin 65536) → VM → Except Undefined (Bool × VM)
  | [], s => pure (true, s)
  | a :: rest, s => do
    let (ok, s1) ← push_stack s a
    if ok then push_seq rest s1 else pure (false, s1)

/-- The first `n` iterations of `while (running)`: the state after them, or
the state in which the loop stopped earlier. -/
def run_steps : Nat → VM → Except Undefined VM
  | 0, s => pure s
  | n + 1, s => if s.running then step s >>= run_steps n else pure s

/-- A machine state with given memory, otherwise as after reset. -/
def boot (mem : Nat → Fin 256) : VM := { reset [] with memory := mem }

/-- The memory image holding the given bytes from address `base` on, zero elsewhere. -/
def image (base : Nat) (bytes : List Nat) : Nat → Fin 256 :=
  fun i => if base ≤ i then u8 (bytes.getD (i - base) 0) else u8 0

/-- A machine whose instruction pointer is at a `POKE` opcode in the last byte of memory. -/
def poke_at_end : VM := { boot (image 65535 [OP_POKE]) with ip := 65535 }

/-- A machine inside a call: one return address on the stack, `HALT` at address 0. -/
def halt_in_call : VM :=
  { boot (image 0 [OP_HALT]) with
    call_stack := fun _ => u16 0x20
    stack_pointer := 1 }

/-- Memory with `RUN 0x10` in its last two bytes and `RET` at address 0x10. -/
def run_at_end_image : Nat → Fin 256 :=
  fun i => if i = 65534 then u8 OP_RUN else if i = 65535 then u8 0x10
    else if i = 0x10 then u8 OP_RET else u8 0

/-- The reset machine on `run_at_end_image`, about to execute the `RUN`. -/
def run_at_end : VM := { boot run_at_end_image with ip := 65534 }

/-- The reset machine loaded with the endless program `05 00` (`JMP 0x00`). -/
def jmp_forever : VM := boot (image 0 [OP_JMP, 0])

/-- The reset machine with the four-byte instruction `opcode 10 11 12` at
address 0, the byte `x` at address 0x10 and the byte `y` at address 0x11. -/
def alu_machine (opcode x y : Nat) : VM :=
  boot (fun i =>
    if i = 0 then u8 opcode else if i = 1 then u8 0x10 else if i = 2 then u8 0x11
    else if i = 3 then u8 0x12 else if i = 0x10 then u8 x else if i = 0x11 then u8 y
    else u8 0)

/-- The reset machine with the instruction `opcode 10 10 12` at address 0 (both
source operands name address 0x10) and the byte `v` at address 0x10. -/
def alias_machine (opcode v : Nat) : VM :=
  boot (fun i =>
    if i = 0 then u8 opcode else if i = 1 then u8 0x10 else if i = 2 then u8 0x10
    else if i = 3 then u8 0x12 else if i = 0x10 then u8 v else u8 0)

/-- The reset machine with `COMMENT` and the length byte `n` at the last two
addresses of memory, about to execute it. -/
def comment_at_end (n : Nat) : VM := { boot (image 65534 [OP_COMMENT, n]) with ip := 65534 }

/-- The source text `01 00 41 10 00 08` as the bytes of a file. -/
def source_poke_putc_halt : List Nat := "01 00 41 10 00 08".toList.map Char.toNat

/-- The reset machine with the bytes `0C 00 11 00 08` (`INC 0x00; PUTN 0x00;
HALT`) at address 0 of an otherwise zeroed memory, and a given input stream. -/
def inc_putn_halt (input : List Nat) : VM :=
  { reset input with memory := image 0 [OP_INC, 0x00, OP_PUTN, 0x00, OP_HALT] }

/-- The reset machine with `NOP` in the last byte of memory, about to execute it. -/
def nop_at_end : VM := { boot (image 65535 [OP_NOP]) with ip := 65535 }

/-- The 16-bit addressing opcodes. -/
def wide_opcodes : List Nat := [OP_POKE16, OP_MOVE16, OP_JMP16, OP_JZ16, OP_RUN16]

/-- The reset machine with `MOVE16 00 10 01 00` at address 0 and the byte 0x5A
at address 0x0010: a copy from address 0x0010 to address 0x0100. -/
def move16_machine : VM :=
  boot (fun i =>
    if i = 0 then u8 OP_MOVE16 else if i = 2 then u8 0x10 else if i = 3 then u8 0x01
    else if i = 0x10 then u8 0x5A else u8 0)

/-! ### Source texts, as the loader contract describes them -/

/-- Contract side: the characters of a source text that lie outside comments,
a comment running from `;` or `#` to the next newline (which is kept); the flag
tells whether the text starts inside a comment. -/
def outside_comments : Bool → List Nat → List Nat
  | _, [] => []
  | c, ch :: rest =>
    if ch = 59 || ch = 35 then outside_comments true rest
    else if ch = 10 then ch :: outside_comments false rest
    else if c then outside_comments true rest
    else ch :: outside_comments false rest

/-- Contract side: the hex digits outside comments, in order. -/
def digits_from (c : Bool) (text : List Nat) : List Nat :=
  (outside_comments c text).filter isxdigit

/-- Contract side: the hex digits of a whole source text. -/
def source_digits (text : List Nat) : List Nat := digits_from false text

/-- Contract side: every character outside a comment is a hex digit or
whitespace; the flag tells whether the text starts inside a comment. -/
def well_formed_from (c : Bool) (text : List Nat) : Prop :=
  ∀ ch ∈ outside_comments c text, isxdigit ch = true ∨ isspace ch = true

/-- Contract side: a whole source text is well formed. -/
def well_formed (text : List Nat) : Prop := well_formed_from false text

/-- Contract side: the value 0..15 of a hex digit character. -/
def hex_value (ch : Nat) : Nat := (hex_digit ch).getD 0

/-- Contract side: the bytes a digit sequence encodes, two digits per byte, the
first digit being the high nibble; a last digit without partner encodes nothing. -/
def decode_pairs : List Nat → List Nat
  | a :: b :: rest => (16 * hex_value a + hex_value b) :: decode_pairs rest
  | _ => []

/-- Contract side: memory after the bytes encoded by a digit sequence have been
stored at consecutive addresses from `addr` on. -/
def store_pairs : Nat → List Nat → (Nat → Fin 256) → (Nat → Fin 256)
  | addr, a :: b :: rest, m =>
    store_pairs (addr + 1) rest (Function.update m addr (u8 (16 * hex_value a + hex_value b)))
  | _, _, m => m

/-- A source text of 65537 bytes: the digit `0`, 131074 times. -/
def source_too_long : List Nat := List.replicate 131074 48

/-- Contract side: the width column of the opcode table. An opcode with operand
bytes has the fixed byte count that its case checks, except `COMMENT len`,
whose width is `2 + len`, with `len` the byte after the opcode. -/
def table_width (opcode : Nat) (s : VM) : Nat :=
  if opcode = OP_COMMENT then 2 + (s.memory (s.ip + 1)).val else operand_width opcode

/-! ## Theorems -/

/-! ### Operand validator -/

theorem ensure_operands_true {ip needed : Nat} (h : ensure_operands ip needed = true) :
    ip < 65536 ∧ ip + needed ≤ 65536 := by
  unfold ensure_operands MEMORY_SIZE u32 at h
  split at h
  · simp at h
  · split at h
    · simp at h
    · simp at h
      omega

theorem ensure_operands_false {ip needed : Nat} (h : ensure_operands ip needed = false) :
    ¬ (ip < 65536 ∧ ip + needed ≤ 65536) := by
  unfold ensure_operands MEMORY_SIZE u32 at h
  split at h
  · omega
  · split at h
    · omega
    · simp at h
      omega

/-- C1: for all `ip` and `needed` (in particular all 32-bit values),
`ensure_operands ip needed` is true exactly when `ip < 65536` and the unwrapped
sum `ip + needed` is at most 65536; it is false whenever `needed > 65536`; and
whenever the 32-bit addition is reached (both guards passed) it does not wrap. -/
theorem ensure_operands_iff (ip needed : Nat) :
    (ensure_operands ip needed = true ↔ ip < 65536 ∧ ip + needed ≤ 65536)
    ∧ (needed > 65536 → ensure_operands ip needed = false)
    ∧ (ip < MEMORY_SIZE → needed ≤ MEMORY_SIZE → u32 (ip + needed) = ip + needed) := by
  refine ⟨⟨ensure_operands_true, fun h => ?_⟩, fun h => ?_, fun h1 h2 => ?_⟩
  · cases hc : ensure_operands ip needed
    · exact absurd h (ensure_operands_false hc)
    · rfl
  · cases hc : ensure_operands ip needed
    · rfl
    · have := ensure_operands_true hc
      omega
  · unfold MEMORY_SIZE at h1 h2
    unfold u32
    omega

/-! ### Call stack -/

theorem push_stack_full (s : VM) (addr : Fin 65536) (h : 64 ≤ s.stack_pointer) :
    push_stack s addr = Except.ok (false, report s Fault.stack_overflow) := by
  simp [push_stack, STACK_SIZE, h]

theorem push_stack_room (s : VM) (addr : Fin 65536) (h : s.stack_pointer < 64) :
    push_stack s addr = Except.ok (true,
      { s with call_stack := Function.update s.call_stack s.stack_pointer addr,
               stack_pointer := s.stack_pointer + 1 }) := by
  have h1 : ¬ (64 ≤ s.stack_pointer) := by omega
  have h2 : (s.stack_pointer + 1) % 65536 = s.stack_pointer + 1 := by omega
  simp [push_stack, stack_write, STACK_SIZE, h, h1, h2, bind, Except.bind, pure, Except.pure]

theorem pop_stack_empty (s : VM) (h : s.stack_pointer = 0) :
    pop_stack s = Except.ok (none, report s Fault.stack_underflow) := by
  simp [pop_stack, h]

theorem pop_stack_live (s : VM) (h0 : 0 < s.stack_pointer) (h : s.stack_pointer ≤ 64) :
    pop_stack s = Except.ok (some (s.call_stack (s.stack_pointer - 1)),
      { s with stack_pointer := s.stack_pointer - 1 }) := by
  have h1 : s.stack_pointer ≠ 0 := by omega
  have h2 : (s.stack_pointer + 65535) % 65536 = s.stack_pointer - 1 := by omega
  have h3 : s.stack_pointer - 1 < 64 := by omega
  simp [pop_stack, stack_read, STACK_SIZE, h1, h2, h3, bind, Except.bind, pure, Except.pure]

theorem push_seq_room (addrs : List (Fin 65536)) :
    ∀ s : VM, s.stack_pointer + addrs.length ≤ 64 →
      ∃ s', push_seq addrs s = Except.ok (true, s')
        ∧ s'.stack_pointer = s.stack_pointer + addrs.length
        ∧ (∀ i, i < s.stack_pointer → s'.call_stack i = s.call_stack i)
        ∧ (∀ i, i < addrs.length → (s'.call_stack (s.stack_pointer + i)).val = (addrs.getD i 0).val)
        ∧ s'.stderr = s.stderr ∧ s'.memory = s.memory := by
  induction addrs with
  | nil =>
    intro s _
    exact ⟨s, rfl, rfl, fun _ _ => rfl, fun i hi => absurd hi (by simp), rfl, rfl⟩
  | cons a rest ih =>
    intro s hs
    simp only [List.length_cons] at hs
    have hroom : s.stack_pointer < 64 := by omega
    obtain ⟨s', h1, h2, h3, h4, h5, h6⟩ := ih
      { s with call_stack := Function.update s.call_stack s.stack_pointer a,
               stack_pointer := s.stack_pointer + 1 } (by simp; omega)
    refine ⟨s', ?_, ?_, ?_, ?_, ?_, ?_⟩
    · simp [push_seq, push_stack_room s a hroom, bind, Except.bind, h1]
    · simp at h2
      simp [h2]
      omega
    · intro i hi
      rw [h3 i (by simp; omega)]
      simp [Function.update, Nat.ne_of_lt hi]
    · intro i hi
      cases i with
      | zero =>
        rw [Nat.add_zero, h3 _ (by simp)]
        simp [Function.update]
      | succ j =>
        have := h4 j (by simpa using hi)
        simp at this
        rw [show s.stack_pointer + (j + 1) = s.stack_pointer + 1 + j by omega, this]
        simp
    · simpa using h5
    · simpa using h6

/-- C4: `push_stack` returns 1 exactly when the stack holds fewer than 64
entries; on success the depth grows by one, the new top entry is the pushed
address and every other entry is unchanged; on failure the overflow message is
written and the stack contents and the stack pointer are unchanged. From an
empty stack 64 consecutive pushes all succeed (storing the addresses in order)
and a 65th push fails. -/
theorem push_stack_spec (s : VM) (addr : Fin 65536) (e : VM) (addrs : List (Fin 65536))
    (last : Fin 65536) (he : e.stack_pointer = 0) (hlen : addrs.length = 64) :
    (∃ ok s', push_stack s addr = Except.ok (ok, s')
      ∧ (ok = true ↔ s.stack_pointer < 64)
      ∧ (ok = true → s'.stack_pointer = s.stack_pointer + 1
          ∧ s'.call_stack s.stack_pointer = addr
          ∧ (∀ i, i ≠ s.stack_pointer → s'.call_stack i = s.call_stack i)
          ∧ s'.stderr = s.stderr)
      ∧ (ok = false → s'.stack_pointer = s.stack_pointer ∧ s'.call_stack = s.call_stack
          ∧ s'.stderr = s.stderr ++ [Fault.stack_overflow]))
    ∧ (∃ s64, push_seq addrs e = Except.ok (true, s64)
      ∧ s64.stack_pointer = 64
      ∧ (∀ i, i < 64 → (s64.call_stack i).val = (addrs.getD i 0).val)
      ∧ ∃ s65, push_stack s64 last = Except.ok (false, s65)
        ∧ s65.stack_pointer = 64 ∧ s65.call_stack = s64.call_stack
        ∧ s65.stderr = s64.stderr ++ [Fault.stack_overflow]) := by
  constructor
  · by_cases h : s.stack_pointer < 64
    · refine ⟨true, _, push_stack_room s addr h, by simp [h], fun _ => ?_, by simp⟩
      refine ⟨rfl, by simp, fun i hi => by simp [Function.update, hi], rfl⟩
    · refine ⟨false, _, push_stack_full s addr (by omega), by simp [h], by simp, fun _ => ?_⟩
      exact ⟨rfl, rfl, rfl⟩
  · obtain ⟨s64, h1, h2, _, h4, _, _⟩ := push_seq_room addrs e (by omega)
    refine ⟨s64, h1, by omega, fun i hi => ?_, _, push_stack_full s64 last (by omega), ?_, rfl, rfl⟩
    · have := h4 i (by omega)
      rwa [he, Nat.zero_add] at this
    · show s64.stack_pointer = 64
      omega

/-- Witness for C4: the reset machine and 64 copies of address 7. -/
theorem push_stack_spec_witness :
    (reset []).stack_pointer = 0 ∧ (List.replicate 64 (u16 7)).length = 64
    ∧ ∃ s64, push_seq (List.replicate 64 (u16 7)) (reset []) = Except.ok (true, s64)
      ∧ s64.stack_pointer = 64
      ∧ ∃ s65, push_stack s64 (u16 9) = Except.ok (false, s65) ∧ s65.stack_pointer = 64 :=
  ⟨rfl, rfl,
    (push_stack_spec (reset []) (u16 7) (reset []) (List.replicate 64 (u16 7)) (u16 9) rfl rfl).2.imp
      fun _ h => ⟨h.1, h.2.1, h.2.2.2.imp fun _ h5 => ⟨h5.1, h5.2.1⟩⟩⟩

/-- C5: on a stack of depth 0..64, `pop_stack` returns 0 exactly when the stack
is empty, and then writes the underflow message and leaves the stack pointer and
the stack contents unchanged; otherwise it returns the top entry and decrements
the depth by one. For depth below 64, a push followed by a pop returns the
pushed address and restores the stack pointer and every live entry. -/
theorem pop_stack_spec (s : VM) (addr : Fin 65536) (h : s.stack_pointer ≤ 64) :
    (∃ r s', pop_stack s = Except.ok (r, s')
      ∧ (r = none ↔ s.stack_pointer = 0)
      ∧ s'.call_stack = s.call_stack
      ∧ (r = none → s'.stack_pointer = s.stack_pointer
          ∧ s'.stderr = s.stderr ++ [Fault.stack_underflow])
      ∧ (∀ a, r = some a → a = s.call_stack (s.stack_pointer - 1)
          ∧ s'.stack_pointer + 1 = s.stack_pointer ∧ s'.stderr = s.stderr))
    ∧ (s.stack_pointer < 64 → ∃ s1 s2, push_stack s addr = Except.ok (true, s1)
        ∧ pop_stack s1 = Except.ok (some addr, s2)
        ∧ s2.stack_pointer = s.stack_pointer
        ∧ (∀ i, i < s.stack_pointer → s2.call_stack i = s.call_stack i)
        ∧ s2.stderr = s.stderr) := by
  constructor
  · by_cases h0 : s.stack_pointer = 0
    · refine ⟨none, _, pop_stack_empty s h0, by simp [h0], rfl, fun _ => ⟨rfl, rfl⟩, by simp⟩
    · refine ⟨_, _, pop_stack_live s (by omega) h, by simp [h0], rfl, by simp, fun a ha => ?_⟩
      simp only [Option.some.injEq] at ha
      exact ⟨ha.symm, by simp; omega, rfl⟩
  · intro hroom
    have hpop := pop_stack_live
      { s with call_stack := Function.update s.call_stack s.stack_pointer addr,
               stack_pointer := s.stack_pointer + 1 } (by simp) (by simp; omega)
    have htop : Function.update s.call_stack s.stack_pointer addr (s.stack_pointer + 1 - 1) = addr := by
      simp
    simp only [Nat.add_sub_cancel] at hpop
    rw [htop] at hpop
    refine ⟨_, _, push_stack_room s addr hroom, hpop, rfl, fun i hi => ?_, rfl⟩
    simp [Function.update, Nat.ne_of_lt hi]

/-- Witness for C5: the reset machine (empty stack) and address 7. -/
theorem pop_stack_spec_witness :
    (reset []).stack_pointer ≤ 64
    ∧ ∃ s1 s2, push_stack (reset []) (u16 7) = Except.ok (true, s1)
        ∧ pop_stack s1 = Except.ok (some (u16 7), s2)
        ∧ s2.stack_pointer = (reset []).stack_pointer :=
  ⟨by decide,
    ((pop_stack_spec (reset []) (u16 7) (by decide)).2 (by decide)).imp
      fun _ h => h.imp fun _ h2 => ⟨h2.1, h2.2.1, h2.2.2.1⟩⟩

/-! ### Memory access inside the arrays -/

theorem mem_read_eq (s : VM) (i : Nat) (h : i < 65536) :
    mem_read s i = Except.ok (s.memory i) := by
  simp [mem_read, MEMORY_SIZE, h]

theorem mem_read_byte (s : VM) (b : Fin 256) : mem_read s b.val = Except.ok (s.memory b.val) :=
  mem_read_eq s b.val (by omega)

theorem mem_read_addr (s : VM) (a : Fin 65536) : mem_read s a.val = Except.ok (s.memory a.val) :=
  mem_read_eq s a.val a.isLt

theorem mem_write_eq (s : VM) (i : Nat) (v : Fin 256) (h : i < 65536) :
    mem_write s i v = Except.ok { s with memory := Function.update s.memory i v } := by
  simp [mem_write, MEMORY_SIZE, h]

theorem mem_write_byte (s : VM) (b v : Fin 256) :
    mem_write s b.val v = Except.ok { s with memory := Function.update s.memory b.val v } :=
  mem_write_eq s b.val v (by omega)

theorem mem_write_addr (s : VM) (a : Fin 65536) (v : Fin 256) :
    mem_write s a.val v = Except.ok { s with memory := Function.update s.memory a.val v } :=
  mem_write_eq s a.val v a.isLt

theorem is_valid_address_addr (a : Fin 65536) : is_valid_address a.val = true := by
  simp [is_valid_address, MEMORY_SIZE]

/-! ### The cases of the switch in closed form -/

theorem op_NOP_ok (s : VM) : op_NOP s = Except.ok { s with ip := u32 (s.ip + 1) } := rfl

theorem op_POKE_ok (s : VM) (hg : ensure_operands s.ip 3 = true) :
    op_POKE s = Except.ok
      { s with
        memory := Function.update s.memory (s.memory (s.ip + 1)).val
                    ((s.memory (s.ip + 2))),
        ip := u32 (s.ip + 3) } := by
  have hb := ensure_operands_true hg
  unfold op_POKE
  simp (disch := omega) [hg, mem_read_eq, mem_read_byte, mem_write_byte, mem_read_addr,
    mem_write_addr, is_valid_address_addr, bind, Except.bind, pure, Except.pure]

theorem op_MOVE_ok (s : VM) (hg : ensure_operands s.ip 3 = true) :
    op_MOVE s = Except.ok
      { s with
        memory := Function.update s.memory (s.memory (s.ip + 2)).val
                    ((s.memory (s.memory (s.ip + 1)).val)),
        ip := u32 (s.ip + 3) } := by
  have hb := ensure_operands_true hg
  unfold op_MOVE
  simp (disch := omega) [hg, mem_read_eq, mem_read_byte, mem_write_byte, mem_read_addr,
    mem_write_addr, is_valid_address_addr, bind, Except.bind, pure, Except.pure]

theorem op_NOT_ok (s : VM) (hg : ensure_operands s.ip 2 = true) :
    op_NOT s = Except.ok
      { s with
        memory := Function.update s.memory (s.memory (s.ip + 1)).val
                    (u8i (-((s.memory (s.memory (s.ip + 1)).val).val : Int) - 1)),
        ip := u32 (s.ip + 2) } := by
  have hb := ensure_operands_true hg
  unfold op_NOT
  simp (disch := omega) [hg, mem_read_eq, mem_read_byte, mem_write_byte, mem_read_addr,
    mem_write_addr, is_valid_address_addr, bind, Except.bind, pure, Except.pure]

theorem op_NAND_ok (s : VM) (hg : ensure_operands s.ip 4 = true) :
    op_NAND s = Except.ok
      { s with
        memory := Function.update s.memory (s.memory (s.ip + 3)).val
                    (u8i (-(((s.memory (s.memory (s.ip + 1)).val).val
                      &&& (s.memory (s.memory (s.ip + 2)).val).val : Nat) : Int) - 1)),
        ip := u32 (s.ip + 4) } := by
  have hb := ensure_operands_true hg
  unfold op_NAND
  simp (disch := omega) [hg, mem_read_eq, mem_read_byte, mem_write_byte, mem_read_addr,
    mem_write_addr, is_valid_address_addr, bind, Except.bind, pure, Except.pure]

theorem op_JMP_ok (s : VM) (hg : ensure_operands s.ip 2 = true) :
    op_JMP s = Except.ok
      { s with ip := (s.memory (s.ip + 1)).val } := by
  have hb := ensure_operands_true hg
  unfold op_JMP
  simp (disch := omega) [hg, mem_read_eq, mem_read_byte, mem_write_byte, mem_read_addr,
    mem_write_addr, is_valid_address_addr, bind, Except.bind, pure, Except.pure]

theorem op_JZ_ok (s : VM) (hg : ensure_operands s.ip 3 = true) :
    op_JZ s = Except.ok
      { s with
        ip := if (s.memory (s.memory (s.ip + 2)).val).val = 0 then (s.memory (s.ip + 1)).val
              else u32 (s.ip + 3) } := by
  have hb := ensure_operands_true hg
  unfold op_JZ
  simp (disch := omega) [hg, mem_read_eq, mem_read_byte, mem_write_byte, mem_read_addr,
    mem_write_addr, is_valid_address_addr, bind, Except.bind, pure, Except.pure]
  split <;> rfl

theorem op_AND_ok (s : VM) (hg : ensure_operands s.ip 4 = true) :
    op_AND s = Except.ok
      { s with
        memory := Function.update s.memory (s.memory (s.ip + 3)).val
                    (u8 ((s.memory (s.memory (s.ip + 1)).val).val
                      &&& (s.memory (s.memory (s.ip + 2)).val).val)),
        ip := u32 (s.ip + 4) } := by
  have hb := ensure_operands_true hg
  unfold op_AND
  simp (disch := omega) [hg, mem_read_eq, mem_read_byte, mem_write_byte, mem_read_addr,
    mem_write_addr, is_valid_address_addr, bind, Except.bind, pure, Except.pure]

theorem op_OR_ok (s : VM) (hg : ensure_operands s.ip 4 = true) :
    op_OR s = Except.ok
      { s with
        memory := Function.update s.memory (s.memory (s.ip + 3)).val
                    (u8 ((s.memory (s.memory (s.ip + 1)).val).val
                      ||| (s.memory (s.memory (s.ip + 2)).val).val)),
        ip := u32 (s.ip + 4) } := by
  have hb := ensure_operands_true hg
  unfold op_OR
  simp (disch := omega) [hg, mem_read_eq, mem_read_byte, mem_write_byte, mem_read_addr,
    mem_write_addr, is_valid_address_addr, bind, Except.bind, pure, Except.pure]

theorem op_XOR_ok (s : VM) (hg : ensure_operands s.ip 4 = true) :
    op_XOR s = Except.ok
      { s with
        memory := Function.update s.memory (s.memory (s.ip + 3)).val
                    (u8 ((s.memory (s.memory (s.ip + 1)).val).val
                      ^^^ (s.memory (s.memory (s.ip + 2)).val).val)),
        ip := u32 (s.ip + 4) } := by
  have hb := ensure_operands_true hg
  unfold op_XOR
  simp (disch := omega) [hg, mem_read_eq, mem_read_byte, mem_write_byte, mem_read_addr,
    mem_write_addr, is_valid_address_addr, bind, Except.bind, pure, Except.pure]

theorem op_INC_ok (s : VM) (hg : ensure_operands s.ip 2 = true) :
    op_INC s = Except.ok
      { s with
        memory := Function.update s.memory (s.memory (s.ip + 1)).val
                    (u8 ((s.memory (s.memory (s.ip + 1)).val).val + 1)),
        ip := u32 (s.ip + 2) } := by
  have hb := ensure_operands_true hg
  unfold op_INC
  simp (disch := omega) [hg, mem_read_eq, mem_read_byte, mem_write_byte, mem_read_addr,
    mem_write_addr, is_valid_address_addr, bind, Except.bind, pure, Except.pure]

theorem op_DEC_ok (s : VM) (hg : ensure_operands s.ip 2 = true) :
    op_DEC s = Except.ok
      { s with
        memory := Function.update s.memory (s.memory (s.ip + 1)).val
                    (u8i (((s.memory (s.memory (s.ip + 1)).val).val : Int) - 1)),
        ip := u32 (s.ip + 2) } := by
  have hb := ensure_operands_true hg
  unfold op_DEC
  simp (disch := omega) [hg, mem_read_eq, mem_read_byte, mem_write_byte, mem_read_addr,
    mem_write_addr, is_valid_address_addr, bind, Except.bind, pure, Except.pure]

theorem op_CMP_ok (s : VM) (hg : ensure_operands s.ip 4 = true) :
    op_CMP s = Except.ok
      { s with
        memory := Function.update s.memory (s.memory (s.ip + 3)).val
                    (if (s.memory (s.memory (s.ip + 1)).val) = (s.memory (s.memory (s.ip + 2)).val) then u8 1
                      else u8 0),
        ip := u32 (s.ip + 4) } := by
  have hb := ensure_operands_true hg
  unfold op_CMP
  simp (disch := omega) [hg, mem_read_eq, mem_read_byte, mem_write_byte, mem_read_addr,
    mem_write_addr, is_valid_address_addr, bind, Except.bind, pure, Except.pure]

theorem op_PUTC_ok (s : VM) (hg : ensure_operands s.ip 2 = true) :
    op_PUTC s = Except.ok
      { s with
        stdout := s.stdout ++ [(s.memory (s.memory (s.ip + 1)).val).val],
        ip := u32 (s.ip + 2) } := by
  have hb := ensure_operands_true hg
  unfold op_PUTC
  simp (disch := omega) [hg, mem_read_eq, mem_read_byte, mem_write_byte, mem_read_addr,
    mem_write_addr, is_valid_address_addr, bind, Except.bind, pure, Except.pure]

theorem op_PUTN_ok (s : VM) (hg : ensure_operands s.ip 2 = true) :
    op_PUTN s = Except.ok
      { s with
        stdout := s.stdout ++ print_decimal (s.memory (s.memory (s.ip + 1)).val).val,
        ip := u32 (s.ip + 2) } := by
  have hb := ensure_operands_true hg
  unfold op_PUTN
  simp (disch := omega) [hg, mem_read_eq, mem_read_byte, mem_write_byte, mem_read_addr,
    mem_write_addr, is_valid_address_addr, bind, Except.bind, pure, Except.pure]

theorem op_ADD_ok (s : VM) (hg : ensure_operands s.ip 4 = true) :
    op_ADD s = Except.ok
      { s with
        overflow_flag := if (u16 ((s.memory (s.memory (s.ip + 1)).val).val
                      + (s.memory (s.memory (s.ip + 2)).val).val)).val > 255 then 1 else 0,
        memory := Function.update s.memory (s.memory (s.ip + 3)).val
                    (u8 (u16 ((s.memory (s.memory (s.ip + 1)).val).val
                      + (s.memory (s.memory (s.ip + 2)).val).val)).val),
        ip := u32 (s.ip + 4) } := by
  have hb := ensure_operands_true hg
  unfold op_ADD
  simp (disch := omega) [hg, mem_read_eq, mem_read_byte, mem_write_byte, mem_read_addr,
    mem_write_addr, is_valid_address_addr, bind, Except.bind, pure, Except.pure]

theorem op_SUB_ok (s : VM) (hg : ensure_operands s.ip 4 = true) :
    op_SUB s = Except.ok
      { s with
        overflow_flag := if ((s.memory (s.memory (s.ip + 1)).val).val : Int)
                      - ((s.memory (s.memory (s.ip + 2)).val).val : Int) < 0 then 1 else 0,
        memory := Function.update s.memory (s.memory (s.ip + 3)).val
                    (u8i (((s.memory (s.memory (s.ip + 1)).val).val : Int)
                      - ((s.memory (s.memory (s.ip + 2)).val).val : Int))),
        ip := u32 (s.ip + 4) } := by
  have hb := ensure_operands_true hg
  unfold op_SUB
  simp (disch := omega) [hg, mem_read_eq, mem_read_byte, mem_write_byte, mem_read_addr,
    mem_write_addr, is_valid_address_addr, bind, Except.bind, pure, Except.pure]

theorem op_MUL_ok (s : VM) (hg : ensure_operands s.ip 4 = true) :
    op_MUL s = Except.ok
      { s with
        overflow_flag := if (u16 ((s.memory (s.memory (s.ip + 1)).val).val
                      * (s.memory (s.memory (s.ip + 2)).val).val)).val > 255 then 1 else 0,
        memory := Function.update s.memory (s.memory (s.ip + 3)).val
                    (u8 (u16 ((s.memory (s.memory (s.ip + 1)).val).val
                      * (s.memory (s.memory (s.ip + 2)).val).val)).val),
        ip := u32 (s.ip + 4) } := by
  have hb := ensure_operands_true hg
  unfold op_MUL
  simp (disch := omega) [hg, mem_read_eq, mem_read_byte, mem_write_byte, mem_read_addr,
    mem_write_addr, is_valid_address_addr, bind, Except.bind, pure, Except.pure]

theorem op_SHL_ok (s : VM) (hg : ensure_operands s.ip 4 = true) :
    op_SHL s = Except.ok
      { s with
        memory := Function.update s.memory (s.memory (s.ip + 3)).val
                    (u8 ((s.memory (s.memory (s.ip + 1)).val).val
                      <<< (u8 ((s.memory (s.memory (s.ip + 2)).val).val &&& 0x07)).val)),
        ip := u32 (s.ip + 4) } := by
  have hb := ensure_operands_true hg
  unfold op_SHL
  simp (disch := omega) [hg, mem_read_eq, mem_read_byte, mem_write_byte, mem_read_addr,
    mem_write_addr, is_valid_address_addr, bind, Except.bind, pure, Except.pure]

theorem op_SHR_ok (s : VM) (hg : ensure_operands s.ip 4 = true) :
    op_SHR s = Except.ok
      { s with
        memory := Function.update s.memory (s.memory (s.ip + 3)).val
                    (u8 ((s.memory (s.memory (s.ip + 1)).val).val
                      >>> (u8 ((s.memory (s.memory (s.ip + 2)).val).val &&& 0x07)).val)),
        ip := u32 (s.ip + 4) } := by
  have hb := ensure_operands_true hg
  unfold op_SHR
  simp (disch := omega) [hg, mem_read_eq, mem_read_byte, mem_write_byte, mem_read_addr,
    mem_write_addr, is_valid_address_addr, bind, Except.bind, pure, Except.pure]

theorem op_POKE16_ok (s : VM) (hg : ensure_operands s.ip 4 = true) :
    op_POKE16 s = Except.ok
      { s with
        memory := Function.update s.memory (addr16 (s.memory (s.ip + 1)) (s.memory (s.ip + 2))).val
                    ((s.memory (s.ip + 3))),
        ip := u32 (s.ip + 4) } := by
  have hb := ensure_operands_true hg
  unfold op_POKE16
  simp (disch := omega) [hg, mem_read_eq, mem_read_byte, mem_write_byte, mem_read_addr,
    mem_write_addr, is_valid_address_addr, bind, Except.bind, pure, Except.pure]

theorem op_MOVE16_ok (s : VM) (hg : ensure_operands s.ip 5 = true) :
    op_MOVE16 s = Except.ok
      { s with
        memory := Function.update s.memory (addr16 (s.memory (s.ip + 3)) (s.memory (s.ip + 4))).val
                    (s.memory (addr16 (s.memory (s.ip + 1)) (s.memory (s.ip + 2))).val),
        ip := u32 (s.ip + 5) } := by
  have hb := ensure_operands_true hg
  unfold op_MOVE16
  simp (disch := omega) [hg, mem_read_eq, mem_read_byte, mem_write_byte, mem_read_addr,
    mem_write_addr, is_valid_address_addr, bind, Except.bind, pure, Except.pure]

theorem op_JMP16_ok (s : VM) (hg : ensure_operands s.ip 3 = true) :
    op_JMP16 s = Except.ok
      { s with ip := (addr16 (s.memory (s.ip + 1)) (s.memory (s.ip + 2))).val } := by
  have hb := ensure_operands_true hg
  unfold op_JMP16
  simp (disch := omega) [hg, mem_read_eq, mem_read_byte, mem_write_byte, mem_read_addr,
    mem_write_addr, is_valid_address_addr, bind, Except.bind, pure, Except.pure]

theorem op_JZ16_ok (s : VM) (hg : ensure_operands s.ip 4 = true) :
    op_JZ16 s = Except.ok
      { s with
        ip := if (s.memory (s.memory (s.ip + 3)).val).val = 0 then
                (addr16 (s.memory (s.ip + 1)) (s.memory (s.ip + 2))).val
              else u32 (s.ip + 4) } := by
  have hb := ensure_operands_true hg
  unfold op_JZ16
  simp (disch := omega) [hg, mem_read_eq, mem_read_byte, mem_write_byte, mem_read_addr,
    mem_write_addr, is_valid_address_addr, bind, Except.bind, pure, Except.pure]
  split <;> rfl

theorem op_POKE_truncated (s : VM) (hg : ensure_operands s.ip 3 = false) :
    op_POKE s = Except.ok (fault s Fault.truncated) := by
  simp [op_POKE, hg, pure, Except.pure]

theorem op_MOVE_truncated (s : VM) (hg : ensure_operands s.ip 3 = false) :
    op_MOVE s = Except.ok (fault s Fault.truncated) := by
  simp [op_MOVE, hg, pure, Except.pure]

theorem op_NOT_truncated (s : VM) (hg : ensure_operands s.ip 2 = false) :
    op_NOT s = Except.ok (fault s Fault.truncated) := by
  simp [op_NOT, hg, pure, Except.pure]

theorem op_NAND_truncated (s : VM) (hg : ensure_operands s.ip 4 = false) :
    op_NAND s = Except.ok (fault s Fault.truncated) := by
  simp [op_NAND, hg, pure, Except.pure]

theorem op_JMP_truncated (s : VM) (hg : ensure_operands s.ip 2 = false) :
    op_JMP s = Except.ok (fault s Fault.truncated) := by
  simp [op_JMP, hg, pure, Except.pure]

theorem op_JZ_truncated (s : VM) (hg : ensure_operands s.ip 3 = false) :
    op_JZ s = Except.ok (fault s Fault.truncated) := by
  simp [op_JZ, hg, pure, Except.pure]

theorem op_RUN_truncated (s : VM) (hg : ensure_operands s.ip 2 = false) :
    op_RUN s = Except.ok (fault s Fault.truncated) := by
  simp [op_RUN, hg, pure, Except.pure]

theorem op_AND_truncated (s : VM) (hg : ensure_operands s.ip 4 = false) :
    op_AND s = Except.ok (fault s Fault.truncated) := by
  simp [op_AND, hg, pure, Except.pure]

theorem op_OR_truncated (s : VM) (hg : ensure_operands s.ip 4 = false) :
    op_OR s = Except.ok (fault s Fault.truncated) := by
  simp [op_OR, hg, pure, Except.pure]

theorem op_XOR_truncated (s : VM) (hg : ensure_operands s.ip 4 = false) :
    op_XOR s = Except.ok (fault s Fault.truncated) := by
  simp [op_XOR, hg, pure, Except.pure]

theorem op_INC_truncated (s : VM) (hg : ensure_operands s.ip 2 = false) :
    op_INC s = Except.ok (fault s Fault.truncated) := by
  simp [op_INC, hg, pure, Except.pure]

theorem op_DEC_truncated (s : VM) (hg : ensure_operands s.ip 2 = false) :
    op_DEC s = Except.ok (fault s Fault.truncated) := by
  simp [op_DEC, hg, pure, Except.pure]

theorem op_CMP_truncated (s : VM) (hg : ensure_operands s.ip 4 = false) :
    op_CMP s = Except.ok (fault s Fault.truncated) := by
  simp [op_CMP, hg, pure, Except.pure]

theorem op_COMMENT_truncated (s : VM) (hg : ensure_operands s.ip 2 = false) :
    op_COMMENT s = Except.ok (fault s Fault.truncated) := by
  simp [op_COMMENT, hg, pure, Except.pure]

theorem op_PUTC_truncated (s : VM) (hg : ensure_operands s.ip 2 = false) :
    op_PUTC s = Except.ok (fault s Fault.truncated) := by
  simp [op_PUTC, hg, pure, Except.pure]

theorem op_PUTN_truncated (s : VM) (hg : ensure_operands s.ip 2 = false) :
    op_PUTN s = Except.ok (fault s Fault.truncated) := by
  simp [op_PUTN, hg, pure, Except.pure]

theorem op_GETC_truncated (s : VM) (hg : ensure_operands s.ip 2 = false) :
    op_GETC s = Except.ok (fault s Fault.truncated) := by
  simp [op_GETC, hg, pure, Except.pure]

theorem op_ADD_truncated (s : VM) (hg : ensure_operands s.ip 4 = false) :
    op_ADD s = Except.ok (fault s Fault.truncated) := by
  simp [op_ADD, hg, pure, Except.pure]

theorem op_SUB_truncated (s : VM) (hg : ensure_operands s.ip 4 = false) :
    op_SUB s = Except.ok (fault s Fault.truncated) := by
  simp [op_SUB, hg, pure, Except.pure]

theorem op_MUL_truncated (s : VM) (hg : ensure_operands s.ip 4 = false) :
    op_MUL s = Except.ok (fault s Fault.truncated) := by
  simp [op_MUL, hg, pure, Except.pure]

theorem op_DIV_truncated (s : VM) (hg : ensure_operands s.ip 4 = false) :
    op_DIV s = Except.ok (fault s Fault.truncated) := by
  simp [op_DIV, hg, pure, Except.pure]

theorem op_SHL_truncated (s : VM) (hg : ensure_operands s.ip 4 = false) :
    op_SHL s = Except.ok (fault s Fault.truncated) := by
  simp [op_SHL, hg, pure, Except.pure]

theorem op_SHR_truncated (s : VM) (hg : ensure_operands s.ip 4 = false) :
    op_SHR s = Except.ok (fault s Fault.truncated) := by
  simp [op_SHR, hg, pure, Except.pure]

theorem op_POKE16_truncated (s : VM) (hg : ensure_operands s.ip 4 = false) :
    op_POKE16 s = Except.ok (fault s Fault.truncated) := by
  simp [op_POKE16, hg, pure, Except.pure]

theorem op_MOVE16_truncated (s : VM) (hg : ensure_operands s.ip 5 = false) :
    op_MOVE16 s = Except.ok (fault s Fault.truncated) := by
  simp [op_MOVE16, hg, pure, Except.pure]

theorem op_JMP16_truncated (s : VM) (hg : ensure_operands s.ip 3 = false) :
    op_JMP16 s = Except.ok (fault s Fault.truncated) := by
  simp [op_JMP16, hg, pure, Except.pure]

theorem op_JZ16_truncated (s : VM) (hg : ensure_operands s.ip 4 = false) :
    op_JZ16 s = Except.ok (fault s Fault.truncated) := by
  simp [op_JZ16, hg, pure, Except.pure]

theorem op_RUN16_truncated (s : VM) (hg : ensure_operands s.ip 3 = false) :
    op_RUN16 s = Except.ok (fault s Fault.truncated) := by
  simp [op_RUN16, hg, pure, Except.pure]

theorem op_COMMENT_ok (s : VM) (hg : ensure_operands s.ip 2 = true) :
    op_COMMENT s = Except.ok
      (if u32 (s.ip + 2 + (s.memory (s.ip + 1)).val) > MEMORY_SIZE then
        fault s Fault.comment_overflow
       else { s with ip := u32 (s.ip + 2 + (s.memory (s.ip + 1)).val) }) := by
  have hb := ensure_operands_true hg
  unfold op_COMMENT
  simp (disch := omega) [hg, mem_read_eq, bind, Except.bind, pure, Except.pure]
  split <;> rfl

theorem op_GETC_ok (s : VM) (hg : ensure_operands s.ip 2 = true) :
    op_GETC s = Except.ok
      { s with
        memory := Function.update s.memory (s.memory (s.ip + 1)).val
                    (match s.stdin with | [] => u8 0 | c :: _ => u8 c),
        stdin := s.stdin.tail,
        ip := u32 (s.ip + 2) } := by
  have hb := ensure_operands_true hg
  unfold op_GETC getchar
  cases hin : s.stdin <;>
    simp (disch := omega) [hg, mem_read_eq, mem_write_byte, bind, Except.bind, pure,
      Except.pure, hin]

theorem op_DIV_ok (s : VM) (hg : ensure_operands s.ip 4 = true) :
    op_DIV s = Except.ok
      (if (s.memory (s.memory (s.ip + 2)).val).val = 0 then fault s Fault.division_by_zero
       else
        { s with
          memory := Function.update s.memory (s.memory (s.ip + 3)).val
                      (u8 ((s.memory (s.memory (s.ip + 1)).val).val
                            / (s.memory (s.memory (s.ip + 2)).val).val)),
          ip := u32 (s.ip + 4) }) := by
  have hb := ensure_operands_true hg
  unfold op_DIV
  simp (disch := omega) [hg, mem_read_eq, mem_read_byte, mem_write_byte, bind, Except.bind,
    pure, Except.pure]
  split <;> rfl

theorem op_RUN_ok (s : VM) (hg : ensure_operands s.ip 2 = true) :
    op_RUN s = Except.ok
      (if s.stack_pointer < 64 then
        { s with call_stack := Function.update s.call_stack s.stack_pointer (u16 (u32 (s.ip + 2))),
                 stack_pointer := s.stack_pointer + 1,
                 ip := (s.memory (s.ip + 1)).val }
       else fault s Fault.stack_overflow) := by
  have hb := ensure_operands_true hg
  unfold op_RUN
  by_cases hsp : s.stack_pointer < 64
  · simp (disch := omega) [hg, hsp, mem_read_eq, push_stack_room, bind, Except.bind, pure,
      Except.pure]
  · simp (disch := omega) [hg, hsp, mem_read_eq, push_stack_full, bind, Except.bind, pure,
      Except.pure]
    rfl

theorem op_RUN16_ok (s : VM) (hg : ensure_operands s.ip 3 = true) :
    op_RUN16 s = Except.ok
      (if s.stack_pointer < 64 then
        { s with call_stack := Function.update s.call_stack s.stack_pointer (u16 (u32 (s.ip + 3))),
                 stack_pointer := s.stack_pointer + 1,
                 ip := (addr16 (s.memory (s.ip + 1)) (s.memory (s.ip + 2))).val }
       else fault s Fault.stack_overflow) := by
  have hb := ensure_operands_true hg
  unfold op_RUN16
  by_cases hsp : s.stack_pointer < 64
  · simp (disch := omega) [hg, hsp, mem_read_eq, is_valid_address_addr, push_stack_room, bind,
      Except.bind, pure, Except.pure]
  · simp (disch := omega) [hg, hsp, mem_read_eq, is_valid_address_addr, push_stack_full, bind,
      Except.bind, pure, Except.pure]
    rfl

theorem op_HALT_empty (s : VM) (h : s.stack_pointer = 0) :
    op_HALT s = Except.ok { s with running := false } := by
  simp [op_HALT, h, pure, Except.pure]

theorem op_HALT_live (s : VM) (h0 : 0 < s.stack_pointer) (h : s.stack_pointer ≤ 64) :
    op_HALT s = Except.ok
      { s with stack_pointer := s.stack_pointer - 1,
               ip := (s.call_stack (s.stack_pointer - 1)).val } := by
  simp [op_HALT, h0, pop_stack_live s h0 h, bind, Except.bind, pure, Except.pure]

theorem op_RET_empty (s : VM) (h : s.stack_pointer = 0) :
    op_RET s = Except.ok (fault s Fault.ret_empty_stack) := by
  simp [op_RET, h, pure, Except.pure]

theorem op_RET_live (s : VM) (h0 : 0 < s.stack_pointer) (h : s.stack_pointer ≤ 64) :
    op_RET s = Except.ok
      { s with stack_pointer := s.stack_pointer - 1,
               ip := (s.call_stack (s.stack_pointer - 1)).val } := by
  simp [op_RET, h0, pop_stack_live s h0 h, bind, Except.bind, pure, Except.pure]

theorem op_HALT_eq_RET (s : VM) (h0 : 0 < s.stack_pointer) : op_HALT s = op_RET s := by
  simp [op_HALT, op_RET, h0]


/-! ### Every case returns a state and leaves the instruction counter alone -/

theorem op_POKE_total (s : VM) :
    ∃ s', op_POKE s = Except.ok s' ∧ s'.instruction_count = s.instruction_count := by
  cases hg : ensure_operands s.ip 3
  · exact ⟨_, op_POKE_truncated s hg, rfl⟩
  · refine ⟨_, op_POKE_ok s hg, ?_⟩
    rfl

theorem op_MOVE_total (s : VM) :
    ∃ s', op_MOVE s = Except.ok s' ∧ s'.instruction_count = s.instruction_count := by
  cases hg : ensure_operands s.ip 3
  · exact ⟨_, op_MOVE_truncated s hg, rfl⟩
  · refine ⟨_, op_MOVE_ok s hg, ?_⟩
    rfl

theorem op_NOT_total (s : VM) :
    ∃ s', op_NOT s = Except.ok s' ∧ s'.instruction_count = s.instruction_count := by
  cases hg : ensure_operands s.ip 2
  · exact ⟨_, op_NOT_truncated s hg, rfl⟩
  · refine ⟨_, op_NOT_ok s hg, ?_⟩
    rfl

theorem op_NAND_total (s : VM) :
    ∃ s', op_NAND s = Except.ok s' ∧ s'.instruction_count = s.instruction_count := by
  cases hg : ensure_operands s.ip 4
  · exact ⟨_, op_NAND_truncated s hg, rfl⟩
  · refine ⟨_, op_NAND_ok s hg, ?_⟩
    rfl

theorem op_JMP_total (s : VM) :
    ∃ s', op_JMP s = Except.ok s' ∧ s'.instruction_count = s.instruction_count := by
  cases hg : ensure_operands s.ip 2
  · exact ⟨_, op_JMP_truncated s hg, rfl⟩
  · refine ⟨_, op_JMP_ok s hg, ?_⟩
    rfl

theorem op_JZ_total (s : VM) :
    ∃ s', op_JZ s = Except.ok s' ∧ s'.instruction_count = s.instruction_count := by
  cases hg : ensure_operands s.ip 3
  · exact ⟨_, op_JZ_truncated s hg, rfl⟩
  · refine ⟨_, op_JZ_ok s hg, ?_⟩
    rfl

theorem op_RUN_total (s : VM) :
    ∃ s', op_RUN s = Except.ok s' ∧ s'.instruction_count = s.instruction_count := by
  cases hg : ensure_operands s.ip 2
  · exact ⟨_, op_RUN_truncated s hg, rfl⟩
  · refine ⟨_, op_RUN_ok s hg, ?_⟩
    split <;> rfl

theorem op_AND_total (s : VM) :
    ∃ s', op_AND s = Except.ok s' ∧ s'.instruction_count = s.instruction_count := by
  cases hg : ensure_operands s.ip 4
  · exact ⟨_, op_AND_truncated s hg, rfl⟩
  · refine ⟨_, op_AND_ok s hg, ?_⟩
    rfl

theorem op_OR_total (s : VM) :
    ∃ s', op_OR s = Except.ok s' ∧ s'.instruction_count = s.instruction_count := by
  cases hg : ensure_operands s.ip 4
  · exact ⟨_, op_OR_truncated s hg, rfl⟩
  · refine ⟨_, op_OR_ok s hg, ?_⟩
    rfl

theorem op_XOR_total (s : VM) :
    ∃ s', op_XOR s = Except.ok s' ∧ s'.instruction_count = s.instruction_count := by
  cases hg : ensure_operands s.ip 4
  · exact ⟨_, op_XOR_truncated s hg, rfl⟩
  · refine ⟨_, op_XOR_ok s hg, ?_⟩
    rfl

theorem op_INC_total (s : VM) :
    ∃ s', op_INC s = Except.ok s' ∧ s'.instruction_count = s.instruction_count := by
  cases hg : ensure_operands s.ip 2
  · exact ⟨_, op_INC_truncated s hg, rfl⟩
  · refine ⟨_, op_INC_ok s hg, ?_⟩
    rfl

theorem op_DEC_total (s : VM) :
    ∃ s', op_DEC s = Except.ok s' ∧ s'.instruction_count = s.instruction_count := by
  cases hg : ensure_operands s.ip 2
  · exact ⟨_, op_DEC_truncated s hg, rfl⟩
  · refine ⟨_, op_DEC_ok s hg, ?_⟩
    rfl

theorem op_CMP_total (s : VM) :
    ∃ s', op_CMP s = Except.ok s' ∧ s'.instruction_count = s.instruction_count := by
  cases hg : ensure_operands s.ip 4
  · exact ⟨_, op_CMP_truncated s hg, rfl⟩
  · refine ⟨_, op_CMP_ok s hg, ?_⟩
    rfl

theorem op_COMMENT_total (s : VM) :
    ∃ s', op_COMMENT s = Except.ok s' ∧ s'.instruction_count = s.instruction_count := by
  cases hg : ensure_operands s.ip 2
  · exact ⟨_, op_COMMENT_truncated s hg, rfl⟩
  · refine ⟨_, op_COMMENT_ok s hg, ?_⟩
    split <;> rfl

theorem op_PUTC_total (s : VM) :
    ∃ s', op_PUTC s = Except.ok s' ∧ s'.instruction_count = s.instruction_count := by
  cases hg : ensure_operands s.ip 2
  · exact ⟨_, op_PUTC_truncated s hg, rfl⟩
  · refine ⟨_, op_PUTC_ok s hg, ?_⟩
    rfl

theorem op_PUTN_total (s : VM) :
    ∃ s', op_PUTN s = Except.ok s' ∧ s'.instruction_count = s.instruction_count := by
  cases hg : ensure_operands s.ip 2
  · exact ⟨_, op_PUTN_truncated s hg, rfl⟩
  · refine ⟨_, op_PUTN_ok s hg, ?_⟩
    rfl

theorem op_GETC_total (s : VM) :
    ∃ s', op_GETC s = Except.ok s' ∧ s'.instruction_count = s.instruction_count := by
  cases hg : ensure_operands s.ip 2
  · exact ⟨_, op_GETC_truncated s hg, rfl⟩
  · refine ⟨_, op_GETC_ok s hg, ?_⟩
    rfl

theorem op_ADD_total (s : VM) :
    ∃ s', op_ADD s = Except.ok s' ∧ s'.instruction_count = s.instruction_count := by
  cases hg : ensure_operands s.ip 4
  · exact ⟨_, op_ADD_truncated s hg, rfl⟩
  · refine ⟨_, op_ADD_ok s hg, ?_⟩
    rfl

theorem op_SUB_total (s : VM) :
    ∃ s', op_SUB s = Except.ok s' ∧ s'.instruction_count = s.instruction_count := by
  cases hg : ensure_operands s.ip 4
  · exact ⟨_, op_SUB_truncated s hg, rfl⟩
  · refine ⟨_, op_SUB_ok s hg, ?_⟩
    rfl

theorem op_MUL_total (s : VM) :
    ∃ s', op_MUL s = Except.ok s' ∧ s'.instruction_count = s.instruction_count := by
  cases hg : ensure_operands s.ip 4
  · exact ⟨_, op_MUL_truncated s hg, rfl⟩
  · refine ⟨_, op_MUL_ok s hg, ?_⟩
    rfl

theorem op_DIV_total (s : VM) :
    ∃ s', op_DIV s = Except.ok s' ∧ s'.instruction_count = s.instruction_count := by
  cases hg : ensure_operands s.ip 4
  · exact ⟨_, op_DIV_truncated s hg, rfl⟩
  · refine ⟨_, op_DIV_ok s hg, ?_⟩
    split <;> rfl

theorem op_SHL_total (s : VM) :
    ∃ s', op_SHL s = Except.ok s' ∧ s'.instruction_count = s.instruction_count := by
  cases hg : ensure_operands s.ip 4
  · exact ⟨_, op_SHL_truncated s hg, rfl⟩
  · refine ⟨_, op_SHL_ok s hg, ?_⟩
    rfl

theorem op_SHR_total (s : VM) :
    ∃ s', op_SHR s = Except.ok s' ∧ s'.instruction_count = s.instruction_count := by
  cases hg : ensure_operands s.ip 4
  · exact ⟨_, op_SHR_truncated s hg, rfl⟩
  · refine ⟨_, op_SHR_ok s hg, ?_⟩
    rfl

theorem op_POKE16_total (s : VM) :
    ∃ s', op_POKE16 s = Except.ok s' ∧ s'.instruction_count = s.instruction_count := by
  cases hg : ensure_operands s.ip 4
  · exact ⟨_, op_POKE16_truncated s hg, rfl⟩
  · refine ⟨_, op_POKE16_ok s hg, ?_⟩
    rfl

theorem op_MOVE16_total (s : VM) :
    ∃ s', op_MOVE16 s = Except.ok s' ∧ s'.instruction_count = s.instruction_count := by
  cases hg : ensure_operands s.ip 5
  · exact ⟨_, op_MOVE16_truncated s hg, rfl⟩
  · refine ⟨_, op_MOVE16_ok s hg, ?_⟩
    rfl

theorem op_JMP16_total (s : VM) :
    ∃ s', op_JMP16 s = Except.ok s' ∧ s'.instruction_count = s.instruction_count := by
  cases hg : ensure_operands s.ip 3
  · exact ⟨_, op_JMP16_truncated s hg, rfl⟩
  · refine ⟨_, op_JMP16_ok s hg, ?_⟩
    rfl

theorem op_JZ16_total (s : VM) :
    ∃ s', op_JZ16 s = Except.ok s' ∧ s'.instruction_count = s.instruction_count := by
  cases hg : ensure_operands s.ip 4
  · exact ⟨_, op_JZ16_truncated s hg, rfl⟩
  · refine ⟨_, op_JZ16_ok s hg, ?_⟩
    rfl

theorem op_RUN16_total (s : VM) :
    ∃ s', op_RUN16 s = Except.ok s' ∧ s'.instruction_count = s.instruction_count := by
  cases hg : ensure_operands s.ip 3
  · exact ⟨_, op_RUN16_truncated s hg, rfl⟩
  · refine ⟨_, op_RUN16_ok s hg, ?_⟩
    split <;> rfl

theorem op_HALT_total (s : VM) :
    (∃ s', op_HALT s = Except.ok s' ∧ s'.instruction_count = s.instruction_count)
    ∨ ∃ i, op_HALT s = Except.error (Undefined.stack_index i) ∧ 64 < s.stack_pointer := by
  unfold op_HALT pop_stack stack_read
  by_cases h0 : s.stack_pointer = 0
  · left
    simp [h0, pure, Except.pure, fault, report]
  · by_cases h1 : (s.stack_pointer + 65535) % 65536 < STACK_SIZE
    · left
      simp [h0, h1, Nat.pos_of_ne_zero h0, bind, Except.bind, pure, Except.pure]
    · right
      simp [h0, h1, Nat.pos_of_ne_zero h0, bind, Except.bind]
      unfold STACK_SIZE at h1
      omega

theorem op_RET_total (s : VM) :
    (∃ s', op_RET s = Except.ok s' ∧ s'.instruction_count = s.instruction_count)
    ∨ ∃ i, op_RET s = Except.error (Undefined.stack_index i) ∧ 64 < s.stack_pointer := by
  unfold op_RET pop_stack stack_read
  by_cases h0 : s.stack_pointer = 0
  · left
    simp [h0, pure, Except.pure, fault, report]
  · by_cases h1 : (s.stack_pointer + 65535) % 65536 < STACK_SIZE
    · left
      simp [h0, h1, Nat.pos_of_ne_zero h0, bind, Except.bind, pure, Except.pure]
    · right
      simp [h0, h1, Nat.pos_of_ne_zero h0, bind, Except.bind]
      unfold STACK_SIZE at h1
      omega

theorem exec_opcode_total (opcode : Nat) (s : VM) :
    (∃ s', exec_opcode opcode s = Except.ok s' ∧ s'.instruction_count = s.instruction_count)
    ∨ ∃ i, exec_opcode opcode s = Except.error (Undefined.stack_index i) ∧ 64 < s.stack_pointer := by
  unfold exec_opcode
  split

  · exact Or.inl ⟨_, op_NOP_ok s, rfl⟩
  · exact Or.inl (op_POKE_total s)
  · exact Or.inl (op_MOVE_total s)
  · exact Or.inl (op_NOT_total s)
  · exact Or.inl (op_NAND_total s)
  · exact Or.inl (op_JMP_total s)
  · exact Or.inl (op_JZ_total s)
  · exact Or.inl (op_RUN_total s)
  · exact op_HALT_total s
  · exact Or.inl (op_AND_total s)
  · exact Or.inl (op_OR_total s)
  · exact Or.inl (op_XOR_total s)
  · exact Or.inl (op_INC_total s)
  · exact Or.inl (op_DEC_total s)
  · exact Or.inl (op_CMP_total s)
  · exact Or.inl (op_COMMENT_total s)
  · exact Or.inl (op_PUTC_total s)
  · exact Or.inl (op_PUTN_total s)
  · exact Or.inl (op_GETC_total s)
  · exact op_RET_total s
  · exact Or.inl (op_ADD_total s)
  · exact Or.inl (op_SUB_total s)
  · exact Or.inl (op_MUL_total s)
  · exact Or.inl (op_DIV_total s)
  · exact Or.inl (op_SHL_total s)
  · exact Or.inl (op_SHR_total s)
  · exact Or.inl (op_POKE16_total s)
  · exact Or.inl (op_MOVE16_total s)
  · exact Or.inl (op_JMP16_total s)
  · exact Or.inl (op_JZ16_total s)
  · exact Or.inl (op_RUN16_total s)
  · exact Or.inl ⟨_, rfl, rfl⟩

/-! ### One iteration of the loop -/

theorem ensure_operands_short {ip needed : Nat} (h : ip + needed > 65536) :
    ensure_operands ip needed = false := by
  cases hc : ensure_operands ip needed
  · rfl
  · have := ensure_operands_true hc
    omega

theorem step_dispatch (s : VM) (hc : s.instruction_count < 1000000) (hip : s.ip < 65536) :
    step s = exec_opcode (s.memory s.ip).val
      { s with instruction_count := s.instruction_count + 1 } := by
  have h1 : u32 (s.instruction_count + 1) = s.instruction_count + 1 := by
    unfold u32
    omega
  have h2 : ¬ (MAX_INSTRUCTIONS < s.instruction_count + 1) := by
    unfold MAX_INSTRUCTIONS
    omega
  simp [step, h1, h2, is_valid_address, MEMORY_SIZE, hip, mem_read, bind, Except.bind]

theorem step_limit (s : VM) (hc : s.instruction_count = 1000000) :
    step s = Except.ok
      (fault { s with instruction_count := 1000001 } Fault.instruction_limit) := by
  simp [step, hc, u32, MAX_INSTRUCTIONS, pure, Except.pure]

theorem step_ip_out_of_bounds (s : VM) (hc : s.instruction_count < 1000000) (hip : 65536 ≤ s.ip) :
    step s = Except.ok
      (fault { s with instruction_count := s.instruction_count + 1 } Fault.ip_out_of_bounds) := by
  have h1 : u32 (s.instruction_count + 1) = s.instruction_count + 1 := by
    unfold u32
    omega
  have h2 : ¬ (MAX_INSTRUCTIONS < s.instruction_count + 1) := by
    unfold MAX_INSTRUCTIONS
    omega
  have h3 : ¬ (s.ip < 65536) := by omega
  simp [step, h1, h2, is_valid_address, MEMORY_SIZE, h3, pure, Except.pure]

theorem exec_opcode_truncated (opcode : Nat) (s : VM) (hop : opcode ∈ operand_opcodes)
    (hw : s.ip + operand_width opcode > 65536) :
    exec_opcode opcode s = Except.ok (fault s Fault.truncated) := by
  simp only [operand_opcodes, List.mem_cons, List.mem_singleton, List.not_mem_nil, or_false,
    OP_POKE, OP_MOVE, OP_NOT, OP_NAND, OP_JMP, OP_JZ, OP_RUN, OP_AND, OP_OR, OP_XOR, OP_INC,
    OP_DEC, OP_CMP, OP_COMMENT, OP_PUTC, OP_PUTN, OP_GETC, OP_ADD, OP_SUB, OP_MUL, OP_DIV,
    OP_SHL, OP_SHR, OP_POKE16, OP_MOVE16, OP_JMP16, OP_JZ16, OP_RUN16] at hop
  rcases hop with
    rfl | rfl | rfl | rfl | rfl | rfl | rfl | rfl | rfl | rfl | rfl | rfl | rfl | rfl
    | rfl | rfl | rfl | rfl | rfl | rfl | rfl | rfl | rfl | rfl | rfl | rfl | rfl | rfl
  · exact op_POKE_truncated s (ensure_operands_short (by simpa [operand_width] using hw))
  · exact op_MOVE_truncated s (ensure_operands_short (by simpa [operand_width] using hw))
  · exact op_NOT_truncated s (ensure_operands_short (by simpa [operand_width] using hw))
  · exact op_NAND_truncated s (ensure_operands_short (by simpa [operand_width] using hw))
  · exact op_JMP_truncated s (ensure_operands_short (by simpa [operand_width] using hw))
  · exact op_JZ_truncated s (ensure_operands_short (by simpa [operand_width] using hw))
  · exact op_RUN_truncated s (ensure_operands_short (by simpa [operand_width] using hw))
  · exact op_AND_truncated s (ensure_operands_short (by simpa [operand_width] using hw))
  · exact op_OR_truncated s (ensure_operands_short (by simpa [operand_width] using hw))
  · exact op_XOR_truncated s (ensure_operands_short (by simpa [operand_width] using hw))
  · exact op_INC_truncated s (ensure_operands_short (by simpa [operand_width] using hw))
  · exact op_DEC_truncated s (ensure_operands_short (by simpa [operand_width] using hw))
  · exact op_CMP_truncated s (ensure_operands_short (by simpa [operand_width] using hw))
  · exact op_COMMENT_truncated s (ensure_operands_short (by simpa [operand_width] using hw))
  · exact op_PUTC_truncated s (ensure_operands_short (by simpa [operand_width] using hw))
  · exact op_PUTN_truncated s (ensure_operands_short (by simpa [operand_width] using hw))
  · exact op_GETC_truncated s (ensure_operands_short (by simpa [operand_width] using hw))
  · exact op_ADD_truncated s (ensure_operands_short (by simpa [operand_width] using hw))
  · exact op_SUB_truncated s (ensure_operands_short (by simpa [operand_width] using hw))
  · exact op_MUL_truncated s (ensure_operands_short (by simpa [operand_width] using hw))
  · exact op_DIV_truncated s (ensure_operands_short (by simpa [operand_width] using hw))
  · exact op_SHL_truncated s (ensure_operands_short (by simpa [operand_width] using hw))
  · exact op_SHR_truncated s (ensure_operands_short (by simpa [operand_width] using hw))
  · exact op_POKE16_truncated s (ensure_operands_short (by simpa [operand_width] using hw))
  · exact op_MOVE16_truncated s (ensure_operands_short (by simpa [operand_width] using hw))
  · exact op_JMP16_truncated s (ensure_operands_short (by simpa [operand_width] using hw))
  · exact op_JZ16_truncated s (ensure_operands_short (by simpa [operand_width] using hw))
  · exact op_RUN16_truncated s (ensure_operands_short (by simpa [operand_width] using hw))

/-- C3: no loop iteration and no case of the switch, from any state and for any
opcode byte, subscripts `memory` outside `[0, 65535]`: the out-of-range branch
of `mem_read` / `mem_write` is never taken. The only array subscript that can
leave its array is `call_stack[--stack_pointer]`, and only when the stack
pointer is above 64; with a stack pointer in 0..64 every iteration returns a
state. -/
theorem memory_access_in_bounds (s : VM) (opcode : Nat) (i : Nat) :
    step s ≠ Except.error (Undefined.memory_index i)
    ∧ exec_opcode opcode s ≠ Except.error (Undefined.memory_index i)
    ∧ ((∃ s', step s = Except.ok s')
        ∨ ∃ j, step s = Except.error (Undefined.stack_index j) ∧ 64 < s.stack_pointer) := by
  have hstep : (∃ s', step s = Except.ok s')
      ∨ ∃ j, step s = Except.error (Undefined.stack_index j) ∧ 64 < s.stack_pointer := by
    unfold step
    simp only []
    split
    · exact Or.inl ⟨_, rfl⟩
    · split
      · exact Or.inl ⟨_, rfl⟩
      · rename_i _ hv
        have hip : s.ip < 65536 := by
          simpa [is_valid_address, MEMORY_SIZE] using hv
        simp only [mem_read, MEMORY_SIZE, hip, if_true, bind, Except.bind]
        rcases exec_opcode_total (s.memory s.ip).val
            { s with instruction_count := u32 (s.instruction_count + 1) } with ⟨s', h, _⟩ | ⟨j, h, hsp⟩
        · exact Or.inl ⟨s', h⟩
        · exact Or.inr ⟨j, h, hsp⟩
  refine ⟨?_, ?_, hstep⟩
  · rcases hstep with ⟨s', h⟩ | ⟨j, h, _⟩ <;> simp [h]
  · rcases exec_opcode_total opcode s with ⟨s', h, _⟩ | ⟨j, h, _⟩ <;> simp [h]

/-! ### Unrolling the loop -/

theorem run_steps_succ (n : Nat) {s s1 : VM} (hs : step s = Except.ok s1) (hr : s.running = true) :
    run_steps (n + 1) s = run_steps n s1 := by
  simp [run_steps, hr, hs, bind, Except.bind]

theorem run_steps_stopped (n : Nat) (s : VM) (hr : s.running = false) :
    run_steps n s = Except.ok s := by
  cases n <;> simp [run_steps, hr, pure, Except.pure]

/-! ### Calls and returns -/

/-- C7: with a non-empty call stack the `HALT` case and the `RET` case of the
switch return the same result from the same state; for a depth in 1..64 that
result pops the top return address and resumes there, every other field
unchanged; and a loop iteration that fetches a `HALT` byte does exactly what
the `RET` case does. -/
theorem halt_behaves_as_ret (s : VM) (h0 : 0 < s.stack_pointer) :
    exec_opcode OP_HALT s = exec_opcode OP_RET s
    ∧ (s.stack_pointer ≤ 64 →
        exec_opcode OP_HALT s = Except.ok
          { s with stack_pointer := s.stack_pointer - 1,
                   ip := (s.call_stack (s.stack_pointer - 1)).val })
    ∧ ((s.memory s.ip).val = OP_HALT → s.instruction_count < 1000000 → s.ip < 65536 →
        step s = exec_opcode OP_RET { s with instruction_count := s.instruction_count + 1 }) := by
  refine ⟨op_HALT_eq_RET s h0, fun h => op_HALT_live s h0 h, fun hfetch hc hip => ?_⟩
  rw [step_dispatch s hc hip, hfetch]
  exact op_HALT_eq_RET _ h0

/-- Witness for C7: a machine with one return address on its stack and a
`HALT` byte at address 0. -/
theorem halt_behaves_as_ret_witness :
    0 < halt_in_call.stack_pointer
    ∧ exec_opcode OP_HALT halt_in_call = exec_opcode OP_RET halt_in_call
    ∧ step halt_in_call
        = exec_opcode OP_RET { halt_in_call with instruction_count := 1 } :=
  ⟨by decide, (halt_behaves_as_ret halt_in_call (by decide)).1,
    (halt_behaves_as_ret halt_in_call (by decide)).2.2 (by decide) (by decide) (by decide)⟩

/-- C8: with an empty call stack the `RET` case stops the run with the
"RET with empty stack" message and leaves memory, call stack, stack pointer,
overflow flag, instruction pointer and standard output unchanged. It is not a
no-op (the run stops and a message is written) and not the normal halt (the
`HALT` case from the same state writes no message). The same holds for a loop
iteration that fetches a `RET` byte. -/
theorem ret_empty_stack_fault (s : VM) (h0 : s.stack_pointer = 0) :
    (∃ s', exec_opcode OP_RET s = Except.ok s'
      ∧ s'.running = false ∧ s'.stderr = s.stderr ++ [Fault.ret_empty_stack]
      ∧ s'.stderr ≠ s.stderr
      ∧ s'.memory = s.memory ∧ s'.call_stack = s.call_stack
      ∧ s'.stack_pointer = s.stack_pointer ∧ s'.overflow_flag = s.overflow_flag
      ∧ s'.ip = s.ip ∧ s'.stdout = s.stdout)
    ∧ (∃ t, exec_opcode OP_HALT s = Except.ok t ∧ t.running = false ∧ t.stderr = s.stderr)
    ∧ ((s.memory s.ip).val = OP_RET → s.instruction_count < 1000000 → s.ip < 65536 →
        ∃ s', step s = Except.ok s'
          ∧ s'.running = false ∧ s'.stderr = s.stderr ++ [Fault.ret_empty_stack]
          ∧ s'.memory = s.memory ∧ s'.call_stack = s.call_stack
          ∧ s'.stack_pointer = s.stack_pointer ∧ s'.overflow_flag = s.overflow_flag
          ∧ s'.ip = s.ip ∧ s'.stdout = s.stdout) := by
  refine ⟨⟨_, op_RET_empty s h0, rfl, rfl, ?_, rfl, rfl, rfl, rfl, rfl, rfl⟩,
    ⟨_, op_HALT_empty s h0, rfl, rfl⟩, fun hfetch hc hip => ?_⟩
  · intro h
    have := congrArg List.length h
    simp [fault, report] at this
  · rw [step_dispatch s hc hip, hfetch]
    exact ⟨_, op_RET_empty _ h0, rfl, rfl, rfl, rfl, rfl, rfl, rfl, rfl⟩

/-- Witness for C8: the reset machine with a `RET` byte at address 0. -/
theorem ret_empty_stack_fault_witness :
    (boot (image 0 [OP_RET])).stack_pointer = 0
    ∧ ((boot (image 0 [OP_RET])).memory (boot (image 0 [OP_RET])).ip).val = OP_RET
    ∧ ∃ s', step (boot (image 0 [OP_RET])) = Except.ok s' ∧ s'.running = false
        ∧ s'.stderr = [Fault.ret_empty_stack] :=
  ⟨rfl, by decide,
    ((ret_empty_stack_fault (boot (image 0 [OP_RET])) rfl).2.2 (by decide) (by decide)
      (by decide)).imp fun _ h => ⟨h.1, h.2.1, h.2.2.1⟩⟩

/-- The call/return round trip away from the end of memory: when `RUN a` lies
at `ip` with `ip + 2 < 65536`, the stack depth is below 64 and the byte at `a`
is `RET`, two loop iterations leave the instruction pointer at `ip + 2` and the
stack depth as before. -/
theorem run_then_ret (s : VM) (hc : s.instruction_count + 1 < 1000000) (hip : s.ip + 2 < 65536)
    (hrun : (s.memory s.ip).val = OP_RUN) (hsp : s.stack_pointer < 64)
    (hret : (s.memory (s.memory (s.ip + 1)).val).val = OP_RET) (hr : s.running = true) :
    ∃ s', run_steps 2 s = Except.ok s' ∧ s'.ip = s.ip + 2
      ∧ s'.stack_pointer = s.stack_pointer ∧ s'.running = true := by
  have hg : ensure_operands s.ip 2 = true := by
    simp [ensure_operands, MEMORY_SIZE, u32]
    omega
  have h1 : step s = Except.ok
      { s with instruction_count := s.instruction_count + 1,
               call_stack := Function.update s.call_stack s.stack_pointer (u16 (u32 (s.ip + 2))),
               stack_pointer := s.stack_pointer + 1,
               ip := (s.memory (s.ip + 1)).val } := by
    rw [step_dispatch s (by omega) (by omega), hrun]
    show op_RUN _ = _
    rw [op_RUN_ok { s with instruction_count := s.instruction_count + 1 } hg]
    simp [hsp]
  have hb : (s.memory (s.ip + 1)).val < 65536 := by omega
  have hv : (u16 (u32 (s.ip + 2))).val = s.ip + 2 := by
    simp only [u16, u32]
    omega
  have h2 : step
      { s with instruction_count := s.instruction_count + 1,
               call_stack := Function.update s.call_stack s.stack_pointer (u16 (u32 (s.ip + 2))),
               stack_pointer := s.stack_pointer + 1,
               ip := (s.memory (s.ip + 1)).val } = Except.ok
      { s with instruction_count := s.instruction_count + 1 + 1,
               call_stack := Function.update s.call_stack s.stack_pointer (u16 (u32 (s.ip + 2))),
               stack_pointer := s.stack_pointer,
               ip := s.ip + 2 } := by
    rw [step_dispatch _ (by simpa using hc) (by simpa using hb)]
    simp only [hret]
    show op_RET _ = _
    rw [op_RET_live _ (by simp) (by simp; omega)]
    simp [hv]
  rw [run_steps_succ 1 h1 hr, run_steps_succ 0 h2 hr]
  exact ⟨_, rfl, rfl, rfl, hr⟩

/-- C6 (code defect): with `RUN 0x10` in the last two bytes of memory (address
65534) and `RET` at address 0x10, the two loop iterations run normally but leave
the instruction pointer at 0, not at `ip + 2 = 65536`: the return address is
pushed through the cast `(uint16_t)(ip + 2)`. The stack depth is restored. -/
theorem run_at_end_returns_to_zero :
    (run_at_end.memory run_at_end.ip).val = OP_RUN
    ∧ run_at_end.ip + 2 ≤ MEMORY_SIZE
    ∧ run_at_end.stack_pointer < 64
    ∧ (run_at_end.memory (run_at_end.memory (run_at_end.ip + 1)).val).val = OP_RET
    ∧ ∃ s', run_steps 2 run_at_end = Except.ok s' ∧ s'.running = true
        ∧ s'.ip = 0 ∧ s'.ip ≠ run_at_end.ip + 2
        ∧ s'.stack_pointer = run_at_end.stack_pointer := by
  refine ⟨by decide, by decide, by decide, by decide, ?_⟩
  exact ⟨{ run_at_end with instruction_count := 2,
                           call_stack := Function.update run_at_end.call_stack 0 (u16 0),
                           ip := 0 }, rfl, rfl, rfl, by decide, rfl⟩

/-! ### The instruction counter and the watchdog -/

theorem step_count (s s' : VM) (hc : s.instruction_count ≤ 1000000) (h : step s = Except.ok s') :
    s'.instruction_count = s.instruction_count + 1
    ∧ (s.instruction_count = 1000000 →
        s' = fault { s with instruction_count := 1000001 } Fault.instruction_limit) := by
  by_cases hlim : s.instruction_count = 1000000
  · rw [step_limit s hlim] at h
    injection h with h
    subst h
    exact ⟨by simp [fault, report, hlim], fun _ => rfl⟩
  · have hlt : s.instruction_count < 1000000 := by omega
    refine ⟨?_, fun h' => absurd h' hlim⟩
    by_cases hip : s.ip < 65536
    · rw [step_dispatch s hlt hip] at h
      rcases exec_opcode_total (s.memory s.ip).val
          { s with instruction_count := s.instruction_count + 1 } with ⟨t, ht, hcount⟩ | ⟨j, hj, _⟩
      · rw [ht] at h
        injection h with h
        subst h
        exact hcount
      · rw [hj] at h
        cases h
    · rw [step_ip_out_of_bounds s hlt (by omega)] at h
      injection h with h
      subst h
      rfl

theorem run_steps_count (n : Nat) :
    ∀ s s1 : VM, run_steps n s = Except.ok s1 → s1.running = true →
      s.instruction_count + n ≤ 1000000 → s1.instruction_count = s.instruction_count + n := by
  induction n with
  | zero =>
    intro s s1 h _ _
    simp only [run_steps, pure, Except.pure] at h
    injection h with h
    subst h
    rfl
  | succ n ih =>
    intro s s1 h hr hle
    by_cases hs : s.running = true
    · cases hstep : step s with
      | error e => simp [run_steps, hs, hstep, bind, Except.bind] at h
      | ok t =>
        rw [run_steps_succ n hstep hs] at h
        have hc := (step_count s t (by omega) hstep).1
        rw [ih t s1 h hr (by omega), hc]
        omega
    · have hs' : s.running = false := by simpa using hs
      rw [run_steps_stopped _ s hs'] at h
      injection h with h
      subst h
      rw [hs'] at hr
      cases hr

theorem run_loop_stopped (fuel : Nat) (s : VM) (hr : s.running = false) :
    run_loop fuel s = some (Except.ok s) := by
  cases fuel <;> simp [run_loop, hr]

theorem run_loop_succ (fuel : Nat) {s s1 : VM} (hs : step s = Except.ok s1)
    (hr : s.running = true) : run_loop (fuel + 1) s = run_loop fuel s1 := by
  simp [run_loop, hr, hs]

theorem run_loop_after (n : Nat) :
    ∀ (m : Nat) (s s1 : VM), run_steps n s = Except.ok s1 → s1.running = true →
      run_loop (n + m) s = run_loop m s1 := by
  induction n with
  | zero =>
    intro m s s1 h _
    simp only [run_steps, pure, Except.pure] at h
    injection h with h
    subst h
    rw [Nat.zero_add]
  | succ n ih =>
    intro m s s1 h hr
    by_cases hs : s.running = true
    · cases hstep : step s with
      | error e => simp [run_steps, hs, hstep, bind, Except.bind] at h
      | ok t =>
        rw [run_steps_succ n hstep hs] at h
        rw [show n + 1 + m = (n + m) + 1 by omega, run_loop_succ _ hstep hs]
        exact ih m t s1 h hr
    · have hs' : s.running = false := by simpa using hs
      rw [run_steps_stopped _ s hs'] at h
      injection h with h
      subst h
      rw [hs'] at hr
      cases hr

theorem run_loop_run_steps (fuel : Nat) :
    ∀ s s' : VM, run_loop fuel s = some (Except.ok s') →
      run_steps fuel s = Except.ok s' ∧ s'.running = false := by
  induction fuel with
  | zero =>
    intro s s' h
    by_cases hs : s.running = true
    · simp [run_loop, hs] at h
    · have hs' : s.running = false := by simpa using hs
      rw [run_loop_stopped _ s hs'] at h
      simp only [Option.some.injEq, Except.ok.injEq] at h
      subst h
      exact ⟨rfl, hs'⟩
  | succ n ih =>
    intro s s' h
    by_cases hs : s.running = true
    · cases hstep : step s with
      | error e => simp [run_loop, hs, hstep] at h
      | ok t =>
        rw [run_loop_succ n hstep hs] at h
        rw [run_steps_succ n hstep hs]
        exact ih t s' h
    · have hs' : s.running = false := by simpa using hs
      rw [run_loop_stopped _ s hs'] at h
      simp only [Option.some.injEq, Except.ok.injEq] at h
      subst h
      exact ⟨run_steps_stopped _ s hs', hs'⟩

/-- The endless program `JMP 0x00`: while the counter stays within its ceiling
the loop only counts. -/
theorem jmp_loop_steps (n : Nat) :
    ∀ s : VM, s.memory 0 = u8 OP_JMP → s.memory 1 = u8 0 → s.ip = 0 → s.running = true →
      s.instruction_count + n ≤ 1000000 →
      run_steps n s = Except.ok { s with instruction_count := s.instruction_count + n } := by
  induction n with
  | zero => intro s _ _ _ _ _; rfl
  | succ n ih =>
    intro s h0 h1 hip hr hle
    have hg : ensure_operands s.ip 2 = true := by rw [hip]; decide
    have hf : (s.memory s.ip).val = OP_JMP := by rw [hip, h0]; decide
    have ht : (s.memory (s.ip + 1)).val = s.ip := by rw [hip, h1]; decide
    have hstep : step s = Except.ok { s with instruction_count := s.instruction_count + 1 } := by
      rw [step_dispatch s (by omega) (by omega), hf]
      show op_JMP _ = _
      rw [op_JMP_ok { s with instruction_count := s.instruction_count + 1 } hg]
      simp only [ht]
    rw [run_steps_succ n hstep hr,
      ih { s with instruction_count := s.instruction_count + 1 } h0 h1 hip hr (by simp; omega)]
    simp [Nat.add_assoc, Nat.add_comm 1 n]

theorem execute_eq_run_loop (fuel : Nat) (start : Fin 65536) (s : VM) :
    execute fuel start s = run_loop fuel { s with ip := start.val, running := true } := by
  simp [execute, is_valid_address_addr]

/-- C9: when the run starts with the instruction counter at 0 and the first
1,000,000 loop iterations leave the machine running (no halt, no fault, state
`s1` after them), `execute` ends with the instruction-limit message as its last
action: the counter then reads 1,000,001, the run has stopped, and memory, call
stack, stack pointer, overflow flag, instruction pointer and both streams are
those of `s1`, the state left by the 1,000,000th instruction. -/
theorem instruction_limit_fault (s s1 : VM) (start : Fin 65536) (fuel : Nat)
    (h0 : s.instruction_count = 0)
    (h1 : run_steps 1000000 { s with ip := start.val, running := true } = Except.ok s1)
    (h2 : s1.running = true) (hf : 1000000 < fuel) :
    s1.instruction_count = 1000000
    ∧ ∃ s', execute fuel start s = some (Except.ok s')
      ∧ s'.running = false ∧ s'.stderr = s1.stderr ++ [Fault.instruction_limit]
      ∧ s'.instruction_count = 1000001
      ∧ s'.memory = s1.memory ∧ s'.call_stack = s1.call_stack
      ∧ s'.stack_pointer = s1.stack_pointer ∧ s'.overflow_flag = s1.overflow_flag
      ∧ s'.ip = s1.ip ∧ s'.stdout = s1.stdout ∧ s'.stdin = s1.stdin := by
  have hc : s1.instruction_count = 1000000 := by
    have := run_steps_count 1000000 _ s1 h1 h2 (by simp [h0])
    simpa [h0] using this
  obtain ⟨m, rfl⟩ : ∃ m, fuel = 1000000 + (m + 1) := ⟨fuel - 1000001, by omega⟩
  refine ⟨hc, fault { s1 with instruction_count := 1000001 } Fault.instruction_limit, ?_,
    rfl, rfl, rfl, rfl, rfl, rfl, rfl, rfl, rfl, rfl⟩
  rw [execute_eq_run_loop, run_loop_after 1000000 (m + 1) _ s1 h1 h2,
    run_loop_succ m (step_limit s1 hc) h2]
  exact run_loop_stopped m _ rfl

/-- Witness for C9: the program `05 00` (`JMP 0x00`) at address 0. -/
theorem instruction_limit_fault_witness :
    jmp_forever.instruction_count = 0
    ∧ run_steps 1000000 { jmp_forever with ip := (0 : Fin 65536).val, running := true }
        = Except.ok { jmp_forever with instruction_count := 1000000 }
    ∧ ∃ s', execute 1000001 0 jmp_forever = some (Except.ok s')
        ∧ s'.running = false ∧ s'.stderr = [Fault.instruction_limit]
        ∧ s'.instruction_count = 1000001 :=
  ⟨rfl, jmp_loop_steps 1000000 jmp_forever (by decide) (by decide) rfl rfl (by decide),
    (instruction_limit_fault jmp_forever { jmp_forever with instruction_count := 1000000 } 0
      1000001 rfl
      (jmp_loop_steps 1000000 jmp_forever (by decide) (by decide) rfl rfl (by decide))
      rfl (by decide)).2.imp fun _ h => ⟨h.1, h.2.1, h.2.2.1, h.2.2.2.1⟩⟩

/-- Counterexample to C10 as stated: on the program `JMP 0x00`, started with
the counter at 0, `execute` ends in a state whose instruction counter is
1,000,001, which is above 1,000,000. -/
theorem instruction_count_exceeds_ceiling :
    jmp_forever.instruction_count = 0
    ∧ ∃ s', execute 1000001 0 jmp_forever = some (Except.ok s')
        ∧ s'.instruction_count = 1000001 ∧ ¬ (s'.instruction_count ≤ 1000000) := by
  have hsteps := jmp_loop_steps 1000000 jmp_forever (by decide) (by decide) rfl rfl (by decide)
  refine ⟨rfl, fault { jmp_forever with instruction_count := 1000001 } Fault.instruction_limit,
    ?_, rfl, by decide⟩
  have e1 : execute 1000001 0 jmp_forever = run_loop (1000000 + 1) jmp_forever :=
    execute_eq_run_loop 1000001 0 jmp_forever
  have e2 := run_loop_after 1000000 1 jmp_forever _ hsteps rfl
  have e3 := run_loop_succ 0
    (step_limit { jmp_forever with instruction_count := jmp_forever.instruction_count + 1000000 }
      rfl) rfl
  exact e1.trans (e2.trans e3)

theorem run_steps_bound (n : Nat) :
    ∀ s s' : VM, run_steps n s = Except.ok s' →
      (s.running = true → s.instruction_count ≤ 1000000) →
      (s.running = false → s.instruction_count ≤ 1000000
        ∨ (s.instruction_count = 1000001
            ∧ s.stderr.getLast? = some Fault.instruction_limit)) →
      (s'.running = true → s'.instruction_count ≤ 1000000)
      ∧ (s'.running = false → s'.instruction_count ≤ 1000000
          ∨ (s'.instruction_count = 1000001
              ∧ s'.stderr.getLast? = some Fault.instruction_limit)) := by
  induction n with
  | zero =>
    intro s s' h hrun hstop
    simp only [run_steps, pure, Except.pure] at h
    injection h with h
    subst h
    exact ⟨hrun, hstop⟩
  | succ n ih =>
    intro s s' h hrun hstop
    by_cases hs : s.running = true
    · cases hstep : step s with
      | error e => simp [run_steps, hs, hstep, bind, Except.bind] at h
      | ok t =>
        rw [run_steps_succ n hstep hs] at h
        have hc := step_count s t (hrun hs) hstep
        by_cases hlim : s.instruction_count = 1000000
        · have ht := hc.2 hlim
          refine ih t s' h (fun hr => ?_) (fun _ => Or.inr ⟨?_, ?_⟩)
          · rw [ht] at hr
            cases hr
          · rw [hc.1, hlim]
          · rw [ht]
            simp [fault, report]
        · have hle : t.instruction_count ≤ 1000000 := by
            have := hrun hs
            omega
          exact ih t s' h (fun _ => hle) (fun _ => Or.inl hle)
    · have hs' : s.running = false := by simpa using hs
      rw [run_steps_stopped _ s hs'] at h
      injection h with h
      subst h
      exact ⟨hrun, hstop⟩

/-- C10 (amended): in every state reached by the loop of `execute` when the run
starts with the instruction counter at 0, and in the state `execute` returns,
the counter is at most 1,000,001; it is at most 1,000,000 while the machine is
running, and it reads 1,000,001 only in a stopped state whose last message is
the instruction-limit fault. -/
theorem instruction_count_bound (s s' : VM) (start : Fin 65536) (n : Nat)
    (h0 : s.instruction_count = 0)
    (h : run_steps n { s with ip := start.val, running := true } = Except.ok s') :
    s'.instruction_count ≤ 1000001
    ∧ (s'.running = true → s'.instruction_count ≤ 1000000)
    ∧ (s'.instruction_count = 1000001 →
        s'.running = false ∧ s'.stderr.getLast? = some Fault.instruction_limit)
    ∧ (∀ fuel t, execute fuel start s = some (Except.ok t) →
        t.instruction_count ≤ 1000001
        ∧ (t.instruction_count = 1000001 →
            t.stderr.getLast? = some Fault.instruction_limit)) := by
  have key : ∀ (k : Nat) (t : VM),
      run_steps k { s with ip := start.val, running := true } = Except.ok t →
      (t.running = true → t.instruction_count ≤ 1000000)
      ∧ (t.running = false → t.instruction_count ≤ 1000000
          ∨ (t.instruction_count = 1000001
              ∧ t.stderr.getLast? = some Fault.instruction_limit)) := by
    intro k t hk
    refine run_steps_bound k _ t hk (fun _ => ?_) (fun hr => ?_)
    · show s.instruction_count ≤ 1000000
      omega
    · cases hr
  obtain ⟨hrun, hstop⟩ := key n s' h
  refine ⟨?_, hrun, fun h1 => ?_, fun fuel t ht => ?_⟩
  · cases hr : s'.running with
    | true =>
      have := hrun hr
      omega
    | false =>
      rcases hstop hr with h1 | ⟨h1, _⟩ <;> omega
  · cases hr : s'.running with
    | true =>
      have := hrun hr
      omega
    | false =>
      rcases hstop hr with h2 | ⟨_, h2⟩
      · omega
      · exact ⟨rfl, h2⟩
  · rw [execute_eq_run_loop] at ht
    obtain ⟨hsteps, hr⟩ := run_loop_run_steps fuel _ t ht
    rcases (key fuel t hsteps).2 hr with h1 | ⟨h1, h2⟩
    · exact ⟨by omega, fun h3 => by omega⟩
    · exact ⟨by omega, fun _ => h2⟩

/-- Witness for C10 (amended): five iterations of the program `JMP 0x00`. -/
theorem instruction_count_bound_witness :
    jmp_forever.instruction_count = 0
    ∧ run_steps 5 { jmp_forever with ip := (0 : Fin 65536).val, running := true }
        = Except.ok { jmp_forever with instruction_count := 5 }
    ∧ ({ jmp_forever with instruction_count := 5 } : VM).instruction_count ≤ 1000001 :=
  ⟨rfl, rfl,
    (instruction_count_bound jmp_forever { jmp_forever with instruction_count := 5 } 0 5 rfl rfl).1⟩

/-! ### Arithmetic -/

theorem ensure_operands_fits {ip needed : Nat} (h : ip + needed ≤ 65536) (hn : 0 < needed) :
    ensure_operands ip needed = true := by
  cases hc : ensure_operands ip needed
  · exact absurd ⟨by omega, h⟩ (ensure_operands_false hc)
  · rfl

/-- C11: for an `ADD a,b,d` lying inside memory, with `x = [a]` and `y = [b]`
read before the write, the case returns a state in which `[d] = (x + y) mod 256`,
the overflow flag is 1 exactly when `x + y > 255` and 0 otherwise, and the
instruction pointer is `ip + 4`; a loop iteration fetching `ADD` returns that
state with the instruction counter incremented. -/
theorem add_wraps_and_flags (s : VM) (hfit : s.ip + 4 ≤ 65536) :
    ∃ s', exec_opcode OP_ADD s = Except.ok s'
      ∧ (s'.memory (s.memory (s.ip + 3)).val).val
          = ((s.memory (s.memory (s.ip + 1)).val).val
              + (s.memory (s.memory (s.ip + 2)).val).val) % 256
      ∧ (s'.overflow_flag = 1 ↔
          (s.memory (s.memory (s.ip + 1)).val).val
            + (s.memory (s.memory (s.ip + 2)).val).val > 255)
      ∧ (s'.overflow_flag = 0 ↔
          (s.memory (s.memory (s.ip + 1)).val).val
            + (s.memory (s.memory (s.ip + 2)).val).val ≤ 255)
      ∧ s'.ip = s.ip + 4
      ∧ ((s.memory s.ip).val = OP_ADD → s.instruction_count < 1000000 →
          step s = Except.ok { s' with instruction_count := s.instruction_count + 1 }) := by
  have hg : ensure_operands s.ip 4 = true := ensure_operands_fits hfit (by decide)
  have hx := (s.memory (s.memory (s.ip + 1)).val).isLt
  have hy := (s.memory (s.memory (s.ip + 2)).val).isLt
  refine ⟨_, op_ADD_ok s hg, ?_, ?_, ?_, ?_, fun hfetch hc => ?_⟩
  · simp only [Function.update_same, u8, u16]
    omega
  · simp only [u16]
    split <;> omega
  · simp only [u16]
    split <;> omega
  · simp only [u32]
    omega
  · rw [step_dispatch s hc (by omega), hfetch]
    exact op_ADD_ok { s with instruction_count := s.instruction_count + 1 } hg

/-- Witness for C11: `200 + 100` stores 44 and sets the flag. -/
theorem add_wraps_and_flags_witness :
    (alu_machine OP_ADD 200 100).ip + 4 ≤ 65536
    ∧ ∃ s', exec_opcode OP_ADD (alu_machine OP_ADD 200 100) = Except.ok s'
        ∧ (s'.memory 0x12).val = (200 + 100) % 256 ∧ s'.ip = 4 :=
  ⟨by decide,
    (add_wraps_and_flags (alu_machine OP_ADD 200 100) (by decide)).imp
      fun _ h => ⟨h.1, h.2.1, h.2.2.2.2.1⟩⟩

/-- C12: for a `SUB a,b,d` lying inside memory, with `x = [a]` and `y = [b]`
read before the write, the case returns a state in which `[d]` is the
non-negative residue of `x - y` modulo 256, the overflow flag is 1 exactly when
`x < y` and 0 otherwise, and the instruction pointer is `ip + 4`; a loop
iteration fetching `SUB` returns that state with the counter incremented. -/
theorem sub_wraps_and_flags (s : VM) (hfit : s.ip + 4 ≤ 65536) :
    ∃ s', exec_opcode OP_SUB s = Except.ok s'
      ∧ ((s'.memory (s.memory (s.ip + 3)).val).val : Int)
          = (((s.memory (s.memory (s.ip + 1)).val).val : Int)
              - ((s.memory (s.memory (s.ip + 2)).val).val : Int)) % 256
      ∧ (s'.overflow_flag = 1 ↔
          (s.memory (s.memory (s.ip + 1)).val).val < (s.memory (s.memory (s.ip + 2)).val).val)
      ∧ (s'.overflow_flag = 0 ↔
          (s.memory (s.memory (s.ip + 2)).val).val ≤ (s.memory (s.memory (s.ip + 1)).val).val)
      ∧ s'.ip = s.ip + 4
      ∧ ((s.memory s.ip).val = OP_SUB → s.instruction_count < 1000000 →
          step s = Except.ok { s' with instruction_count := s.instruction_count + 1 }) := by
  have hg : ensure_operands s.ip 4 = true := ensure_operands_fits hfit (by decide)
  have hx := (s.memory (s.memory (s.ip + 1)).val).isLt
  have hy := (s.memory (s.memory (s.ip + 2)).val).isLt
  refine ⟨_, op_SUB_ok s hg, ?_, ?_, ?_, ?_, fun hfetch hc => ?_⟩
  · simp only [Function.update_same, u8i]
    omega
  · show (if _ then 1 else 0) = 1 ↔ _
    split <;> omega
  · show (if _ then 1 else 0) = 0 ↔ _
    split <;> omega
  · simp only [u32]
    omega
  · rw [step_dispatch s hc (by omega), hfetch]
    exact op_SUB_ok { s with instruction_count := s.instruction_count + 1 } hg

/-- Witness for C12: `3 - 5` stores 254 and sets the flag. -/
theorem sub_wraps_and_flags_witness :
    (alu_machine OP_SUB 3 5).ip + 4 ≤ 65536
    ∧ ∃ s', exec_opcode OP_SUB (alu_machine OP_SUB 3 5) = Except.ok s'
        ∧ ((s'.memory 0x12).val : Int) = ((3 : Int) - 5) % 256 ∧ s'.ip = 4 :=
  ⟨by decide,
    (sub_wraps_and_flags (alu_machine OP_SUB 3 5) (by decide)).imp
      fun _ h => ⟨h.1, h.2.1, h.2.2.2.2.1⟩⟩

/-- C13: for a `MUL a,b,d` lying inside memory, with `x = [a]` and `y = [b]`
read before the write, the case returns a state in which `[d] = (x * y) mod 256`
and the overflow flag is 1 exactly when `x * y > 255` and 0 otherwise; the
16-bit intermediate equals the true product. The instruction pointer is
`ip + 4`, and a loop iteration fetching `MUL` returns that state with the
counter incremented. -/
theorem mul_wraps_and_flags (s : VM) (hfit : s.ip + 4 ≤ 65536) :
    ∃ s', exec_opcode OP_MUL s = Except.ok s'
      ∧ (s'.memory (s.memory (s.ip + 3)).val).val
          = ((s.memory (s.memory (s.ip + 1)).val).val
              * (s.memory (s.memory (s.ip + 2)).val).val) % 256
      ∧ (s'.overflow_flag = 1 ↔
          (s.memory (s.memory (s.ip + 1)).val).val
            * (s.memory (s.memory (s.ip + 2)).val).val > 255)
      ∧ (s'.overflow_flag = 0 ↔
          (s.memory (s.memory (s.ip + 1)).val).val
            * (s.memory (s.memory (s.ip + 2)).val).val ≤ 255)
      ∧ (u16 ((s.memory (s.memory (s.ip + 1)).val).val
              * (s.memory (s.memory (s.ip + 2)).val).val)).val
          = (s.memory (s.memory (s.ip + 1)).val).val * (s.memory (s.memory (s.ip + 2)).val).val
      ∧ s'.ip = s.ip + 4
      ∧ ((s.memory s.ip).val = OP_MUL → s.instruction_count < 1000000 →
          step s = Except.ok { s' with instruction_count := s.instruction_count + 1 }) := by
  have hg : ensure_operands s.ip 4 = true := ensure_operands_fits hfit (by decide)
  have hx := (s.memory (s.memory (s.ip + 1)).val).isLt
  have hy := (s.memory (s.memory (s.ip + 2)).val).isLt
  have hxy : (s.memory (s.memory (s.ip + 1)).val).val * (s.memory (s.memory (s.ip + 2)).val).val
      ≤ 255 * 255 := Nat.mul_le_mul (by omega) (by omega)
  refine ⟨_, op_MUL_ok s hg, ?_, ?_, ?_, ?_, ?_, fun hfetch hc => ?_⟩
  · simp only [Function.update_same, u8, u16]
    omega
  · simp only [u16]
    split <;> omega
  · simp only [u16]
    split <;> omega
  · simp only [u16]
    omega
  · simp only [u32]
    omega
  · rw [step_dispatch s hc (by omega), hfetch]
    exact op_MUL_ok { s with instruction_count := s.instruction_count + 1 } hg

/-- Witness for C13: `16 * 17 = 272` stores 16 and sets the flag. -/
theorem mul_wraps_and_flags_witness :
    (alu_machine OP_MUL 16 17).ip + 4 ≤ 65536
    ∧ ∃ s', exec_opcode OP_MUL (alu_machine OP_MUL 16 17) = Except.ok s'
        ∧ (s'.memory 0x12).val = (16 * 17) % 256 ∧ s'.ip = 4 :=
  ⟨by decide,
    (mul_wraps_and_flags (alu_machine OP_MUL 16 17) (by decide)).imp
      fun _ h => ⟨h.1, h.2.1, h.2.2.2.2.2.1⟩⟩

/-- C14: for a `DIV a,b,d` lying inside memory: when `[b] = 0` the case stops
the run with the division-by-zero message and changes nothing else (memory,
overflow flag, call stack, stack pointer, instruction pointer, output); when
`[b] != 0` it writes no message, keeps running, stores the quotient
`[a] / [b]` at `[d]` and moves the instruction pointer to `ip + 4`. A loop
iteration fetching `DIV` returns the same state with the counter incremented. -/
theorem div_by_zero_faults (s : VM) (hfit : s.ip + 4 ≤ 65536) :
    ((s.memory (s.memory (s.ip + 2)).val).val = 0 →
      ∃ s', exec_opcode OP_DIV s = Except.ok s'
        ∧ s'.running = false ∧ s'.stderr = s.stderr ++ [Fault.division_by_zero]
        ∧ s'.memory = s.memory ∧ s'.overflow_flag = s.overflow_flag
        ∧ s'.call_stack = s.call_stack ∧ s'.stack_pointer = s.stack_pointer
        ∧ s'.ip = s.ip ∧ s'.stdout = s.stdout
        ∧ ((s.memory s.ip).val = OP_DIV → s.instruction_count < 1000000 →
            step s = Except.ok { s' with instruction_count := s.instruction_count + 1 }))
    ∧ ((s.memory (s.memory (s.ip + 2)).val).val ≠ 0 →
      ∃ s', exec_opcode OP_DIV s = Except.ok s'
        ∧ s'.running = s.running ∧ s'.stderr = s.stderr
        ∧ (s'.memory (s.memory (s.ip + 3)).val).val
            = (s.memory (s.memory (s.ip + 1)).val).val / (s.memory (s.memory (s.ip + 2)).val).val
        ∧ s'.ip = s.ip + 4
        ∧ ((s.memory s.ip).val = OP_DIV → s.instruction_count < 1000000 →
            step s = Except.ok { s' with instruction_count := s.instruction_count + 1 })) := by
  have hg : ensure_operands s.ip 4 = true := ensure_operands_fits hfit (by decide)
  constructor
  · intro hz
    have hcase : ∀ t : VM, t.memory = s.memory → t.ip = s.ip →
        op_DIV t = Except.ok (fault t Fault.division_by_zero) := by
      intro t hm hi
      rw [op_DIV_ok t (by rw [hi]; exact hg), hm, hi, if_pos hz]
    refine ⟨_, hcase s rfl rfl, rfl, rfl, rfl, rfl, rfl, rfl, rfl, rfl, fun hfetch hc => ?_⟩
    rw [step_dispatch s hc (by omega), hfetch]
    exact hcase _ rfl rfl
  · intro hnz
    have hcase : ∀ t : VM, t.memory = s.memory → t.ip = s.ip →
        op_DIV t = Except.ok
          { t with
            memory := Function.update s.memory (s.memory (s.ip + 3)).val
                        (u8 ((s.memory (s.memory (s.ip + 1)).val).val
                              / (s.memory (s.memory (s.ip + 2)).val).val)),
            ip := u32 (s.ip + 4) } := by
      intro t hm hi
      rw [op_DIV_ok t (by rw [hi]; exact hg), hm, hi, if_neg hnz]
    have hx := (s.memory (s.memory (s.ip + 1)).val).isLt
    have hq := Nat.div_le_self (s.memory (s.memory (s.ip + 1)).val).val
      (s.memory (s.memory (s.ip + 2)).val).val
    refine ⟨_, hcase s rfl rfl, rfl, rfl, ?_, ?_, fun hfetch hc => ?_⟩
    · simp only [Function.update_same, u8]
      exact Nat.mod_eq_of_lt (Nat.lt_of_le_of_lt hq hx)
    · simp only [u32]
      omega
    · rw [step_dispatch s hc (by omega), hfetch]
      exact hcase _ rfl rfl

/-- Witness for C14: `7 / 0` faults and leaves the destination byte alone. -/
theorem div_by_zero_faults_witness :
    (alu_machine OP_DIV 7 0).ip + 4 ≤ 65536
    ∧ ((alu_machine OP_DIV 7 0).memory ((alu_machine OP_DIV 7 0).memory 2).val).val = 0
    ∧ ∃ s', exec_opcode OP_DIV (alu_machine OP_DIV 7 0) = Except.ok s'
        ∧ s'.running = false
        ∧ s'.stderr = [Fault.division_by_zero]
        ∧ s'.memory = (alu_machine OP_DIV 7 0).memory :=
  ⟨by decide, by decide,
    ((div_by_zero_faults (alu_machine OP_DIV 7 0) (by decide)).1 (by decide)).imp
      fun _ h => ⟨h.1, h.2.1, h.2.2.1, h.2.2.2.1⟩⟩

/-! ### Shifts -/

theorem and_seven (n : Nat) : n &&& 7 = n % 8 :=
  Nat.and_pow_two_sub_one_eq_mod n 3

theorem shift_amount (y : Fin 256) : (u8 (y.val &&& 0x07)).val = y.val % 8 := by
  have h := and_seven y.val
  simp only [u8]
  omega

theorem op_SHL_value (s : VM) (hg : ensure_operands s.ip 4 = true) :
    ∃ s', op_SHL s = Except.ok s'
      ∧ (s'.memory (s.memory (s.ip + 3)).val).val
          = ((s.memory (s.memory (s.ip + 1)).val).val
              * 2 ^ ((s.memory (s.memory (s.ip + 2)).val).val % 8)) % 256
      ∧ s'.ip = u32 (s.ip + 4) := by
  refine ⟨_, op_SHL_ok s hg, ?_, rfl⟩
  simp only [Function.update_same, shift_amount, Nat.shiftLeft_eq]
  rfl

theorem op_SHR_value (s : VM) (hg : ensure_operands s.ip 4 = true) :
    ∃ s', op_SHR s = Except.ok s'
      ∧ (s'.memory (s.memory (s.ip + 3)).val).val
          = (s.memory (s.memory (s.ip + 1)).val).val
              / 2 ^ ((s.memory (s.memory (s.ip + 2)).val).val % 8)
      ∧ s'.ip = u32 (s.ip + 4) := by
  refine ⟨_, op_SHR_ok s hg, ?_, rfl⟩
  have hx := (s.memory (s.memory (s.ip + 1)).val).isLt
  have hq := Nat.div_le_self (s.memory (s.memory (s.ip + 1)).val).val
    (2 ^ ((s.memory (s.memory (s.ip + 2)).val).val % 8))
  simp only [Function.update_same, shift_amount, Nat.shiftRight_eq_div_pow]
  simp only [u8]
  exact Nat.mod_eq_of_lt (Nat.lt_of_le_of_lt hq hx)

/-- Counterexample to C15 as stated: in `SHL 10 10 12` the shift byte is also
the value byte. The two machines differ only in that byte, which holds 8 in one
and `8 & 7 = 0` in the other, yet the first stores 8 at `[d]` and the second
stores 0. -/
theorem shift_alias_differs :
    (∀ i, i ≠ 0x10 → (alias_machine OP_SHL 8).memory i = (alias_machine OP_SHL (8 &&& 7)).memory i)
    ∧ ((alias_machine OP_SHL 8).memory ((alias_machine OP_SHL 8).memory 2).val).val = 8
    ∧ ((alias_machine OP_SHL (8 &&& 7)).memory
        ((alias_machine OP_SHL (8 &&& 7)).memory 2).val).val = 8 &&& 7
    ∧ ∃ s' t', step (alias_machine OP_SHL 8) = Except.ok s'
        ∧ step (alias_machine OP_SHL (8 &&& 7)) = Except.ok t'
        ∧ (s'.memory 0x12).val = 8 ∧ (t'.memory 0x12).val = 0
        ∧ s'.memory 0x12 ≠ t'.memory 0x12 := by
  refine ⟨fun i hi => ?_, by decide, by decide, ?_⟩
  · simp only [alias_machine, boot, hi, if_false]
  · have h1 := step_dispatch (alias_machine OP_SHL 8) (by decide) (by decide)
    have h2 := step_dispatch (alias_machine OP_SHL (8 &&& 7)) (by decide) (by decide)
    have g1 : ensure_operands (alias_machine OP_SHL 8).ip 4 = true := by decide
    have g2 : ensure_operands (alias_machine OP_SHL (8 &&& 7)).ip 4 = true := by decide
    refine ⟨_, _, h1.trans (op_SHL_ok _ g1), h2.trans (op_SHL_ok _ g2), by decide, by decide,
      by decide⟩

theorem shift_value_congr (s t : VM) (hg : ensure_operands s.ip 4 = true) (hip : t.ip = s.ip)
    (h1 : t.memory (s.ip + 1) = s.memory (s.ip + 1))
    (h2 : t.memory (s.ip + 2) = s.memory (s.ip + 2))
    (h3 : t.memory (s.ip + 3) = s.memory (s.ip + 3))
    (hx : t.memory (s.memory (s.ip + 1)).val = s.memory (s.memory (s.ip + 1)).val)
    (hy : (t.memory (s.memory (s.ip + 2)).val).val % 8
        = (s.memory (s.memory (s.ip + 2)).val).val % 8) :
    (∃ s' t', op_SHL s = Except.ok s' ∧ op_SHL t = Except.ok t'
      ∧ s'.memory (s.memory (s.ip + 3)).val = t'.memory (s.memory (s.ip + 3)).val)
    ∧ (∃ s' t', op_SHR s = Except.ok s' ∧ op_SHR t = Except.ok t'
      ∧ s'.memory (s.memory (s.ip + 3)).val = t'.memory (s.memory (s.ip + 3)).val) := by
  have hgt : ensure_operands t.ip 4 = true := by rw [hip]; exact hg
  constructor
  · obtain ⟨s', hs, vs, _⟩ := op_SHL_value s hg
    obtain ⟨t', ht, vt, _⟩ := op_SHL_value t hgt
    refine ⟨s', t', hs, ht, Fin.ext ?_⟩
    rw [hip, h1, h2, h3, hx, hy] at vt
    rw [vs, vt]
  · obtain ⟨s', hs, vs, _⟩ := op_SHR_value s hg
    obtain ⟨t', ht, vt, _⟩ := op_SHR_value t hgt
    refine ⟨s', t', hs, ht, Fin.ext ?_⟩
    rw [hip, h1, h2, h3, hx, hy] at vt
    rw [vs, vt]

/-- C15 (amended): for a `SHL` or `SHR a,b,d` lying inside memory, with
`x = [a]` and `s = [b]`, the byte stored at `[d]` is `(x * 2^(s mod 8)) mod 256`
for `SHL` and `x / 2^(s mod 8)` for `SHR`, so it depends on `s` only through
`s mod 8`. When the shift byte is neither the value byte (`b != a`) nor one of
the four bytes of the instruction, replacing it by `s & 7` and changing nothing
else gives the same `[d]`. -/
theorem shift_masks_amount (s : VM) (hfit : s.ip + 4 ≤ 65536) :
    (∃ s', exec_opcode OP_SHL s = Except.ok s'
      ∧ (s'.memory (s.memory (s.ip + 3)).val).val
          = ((s.memory (s.memory (s.ip + 1)).val).val
              * 2 ^ ((s.memory (s.memory (s.ip + 2)).val).val % 8)) % 256
      ∧ ((s.memory s.ip).val = OP_SHL → s.instruction_count < 1000000 →
          step s = Except.ok { s' with instruction_count := s.instruction_count + 1 }))
    ∧ (∃ s', exec_opcode OP_SHR s = Except.ok s'
      ∧ (s'.memory (s.memory (s.ip + 3)).val).val
          = (s.memory (s.memory (s.ip + 1)).val).val
              / 2 ^ ((s.memory (s.memory (s.ip + 2)).val).val % 8)
      ∧ ((s.memory s.ip).val = OP_SHR → s.instruction_count < 1000000 →
          step s = Except.ok { s' with instruction_count := s.instruction_count + 1 }))
    ∧ ((s.memory (s.ip + 2)).val ≠ (s.memory (s.ip + 1)).val →
        ((s.memory (s.ip + 2)).val < s.ip ∨ s.ip + 3 < (s.memory (s.ip + 2)).val) →
        ∀ opcode, opcode = OP_SHL ∨ opcode = OP_SHR →
          ∃ s' t', exec_opcode opcode s = Except.ok s'
            ∧ exec_opcode opcode
                { s with
                  memory := Function.update s.memory (s.memory (s.ip + 2)).val
                              (u8 ((s.memory (s.memory (s.ip + 2)).val).val &&& 7)) }
                = Except.ok t'
            ∧ s'.memory (s.memory (s.ip + 3)).val = t'.memory (s.memory (s.ip + 3)).val) := by
  have hg : ensure_operands s.ip 4 = true := ensure_operands_fits hfit (by decide)
  refine ⟨?_, ?_, fun ha hb opcode hop => ?_⟩
  · obtain ⟨s', hs, vs, _⟩ := op_SHL_value s hg
    refine ⟨s', hs, vs, fun hfetch hc => ?_⟩
    rw [step_dispatch s hc (by omega), hfetch]
    rw [op_SHL_ok s hg] at hs
    injection hs with hs
    subst hs
    exact op_SHL_ok { s with instruction_count := s.instruction_count + 1 } hg
  · obtain ⟨s', hs, vs, _⟩ := op_SHR_value s hg
    refine ⟨s', hs, vs, fun hfetch hc => ?_⟩
    rw [step_dispatch s hc (by omega), hfetch]
    rw [op_SHR_ok s hg] at hs
    injection hs with hs
    subst hs
    exact op_SHR_ok { s with instruction_count := s.instruction_count + 1 } hg
  · have hcong := shift_value_congr s
      { s with
        memory := Function.update s.memory (s.memory (s.ip + 2)).val
                    (u8 ((s.memory (s.memory (s.ip + 2)).val).val &&& 7)) }
      hg rfl
      (Function.update_noteq (by omega) _ _)
      (Function.update_noteq (by omega) _ _)
      (Function.update_noteq (by omega) _ _)
      (Function.update_noteq (fun h => ha h.symm) _ _)
      (by
        show (Function.update s.memory _ _ _).val % 8 = _
        rw [Function.update_same, shift_amount]
        omega)
    rcases hop with rfl | rfl
    · exact hcong.1
    · exact hcong.2

/-- Witness for C15 (amended): `SHL` of 3 by a stored shift byte 9. -/
theorem shift_masks_amount_witness :
    (alu_machine OP_SHL 3 9).ip + 4 ≤ 65536
    ∧ ((alu_machine OP_SHL 3 9).memory 2).val ≠ ((alu_machine OP_SHL 3 9).memory 1).val
    ∧ (alu_machine OP_SHL 3 9).ip + 3 < ((alu_machine OP_SHL 3 9).memory 2).val
    ∧ (∃ s', exec_opcode OP_SHL (alu_machine OP_SHL 3 9) = Except.ok s'
        ∧ (s'.memory 0x12).val = (3 * 2 ^ (9 % 8)) % 256)
    ∧ ∃ s' t', exec_opcode OP_SHL (alu_machine OP_SHL 3 9) = Except.ok s'
        ∧ exec_opcode OP_SHL
            { alu_machine OP_SHL 3 9 with
              memory := Function.update (alu_machine OP_SHL 3 9).memory 0x11 (u8 (9 &&& 7)) }
            = Except.ok t'
        ∧ s'.memory 0x12 = t'.memory 0x12 :=
  ⟨by decide, by decide, by decide,
    (shift_masks_amount (alu_machine OP_SHL 3 9) (by decide)).1.imp fun _ h => ⟨h.1, h.2.1⟩,
    (shift_masks_amount (alu_machine OP_SHL 3 9) (by decide)).2.2 (by decide)
      (Or.inr (by decide)) OP_SHL (Or.inl rfl)⟩

/-! ### The overflow flag is written by ADD, SUB and MUL only -/

theorem op_POKE_flag (s s' : VM) (h : op_POKE s = Except.ok s') :
    s'.overflow_flag = s.overflow_flag := by
  cases hg : ensure_operands s.ip 3
  · rw [op_POKE_truncated s hg] at h
    injection h with h
    subst h
    rfl
  · rw [op_POKE_ok s hg] at h
    injection h with h
    subst h
    rfl

theorem op_MOVE_flag (s s' : VM) (h : op_MOVE s = Except.ok s') :
    s'.overflow_flag = s.overflow_flag := by
  cases hg : ensure_operands s.ip 3
  · rw [op_MOVE_truncated s hg] at h
    injection h with h
    subst h
    rfl
  · rw [op_MOVE_ok s hg] at h
    injection h with h
    subst h
    rfl

theorem op_NOT_flag (s s' : VM) (h : op_NOT s = Except.ok s') :
    s'.overflow_flag = s.overflow_flag := by
  cases hg : ensure_operands s.ip 2
  · rw [op_NOT_truncated s hg] at h
    injection h with h
    subst h
    rfl
  · rw [op_NOT_ok s hg] at h
    injection h with h
    subst h
    rfl

theorem op_NAND_flag (s s' : VM) (h : op_NAND s = Except.ok s') :
    s'.overflow_flag = s.overflow_flag := by
  cases hg : ensure_operands s.ip 4
  · rw [op_NAND_truncated s hg] at h
    injection h with h
    subst h
    rfl
  · rw [op_NAND_ok s hg] at h
    injection h with h
    subst h
    rfl

theorem op_JMP_flag (s s' : VM) (h : op_JMP s = Except.ok s') :
    s'.overflow_flag = s.overflow_flag := by
  cases hg : ensure_operands s.ip 2
  · rw [op_JMP_truncated s hg] at h
    injection h with h
    subst h
    rfl
  · rw [op_JMP_ok s hg] at h
    injection h with h
    subst h
    rfl

theorem op_JZ_flag (s s' : VM) (h : op_JZ s = Except.ok s') :
    s'.overflow_flag = s.overflow_flag := by
  cases hg : ensure_operands s.ip 3
  · rw [op_JZ_truncated s hg] at h
    injection h with h
    subst h
    rfl
  · rw [op_JZ_ok s hg] at h
    injection h with h
    subst h
    rfl

theorem op_RUN_flag (s s' : VM) (h : op_RUN s = Except.ok s') :
    s'.overflow_flag = s.overflow_flag := by
  cases hg : ensure_operands s.ip 2
  · rw [op_RUN_truncated s hg] at h
    injection h with h
    subst h
    rfl
  · rw [op_RUN_ok s hg] at h
    injection h with h
    subst h
    split <;> rfl

theorem op_AND_flag (s s' : VM) (h : op_AND s = Except.ok s') :
    s'.overflow_flag = s.overflow_flag := by
  cases hg : ensure_operands s.ip 4
  · rw [op_AND_truncated s hg] at h
    injection h with h
    subst h
    rfl
  · rw [op_AND_ok s hg] at h
    injection h with h
    subst h
    rfl

theorem op_OR_flag (s s' : VM) (h : op_OR s = Except.ok s') :
    s'.overflow_flag = s.overflow_flag := by
  cases hg : ensure_operands s.ip 4
  · rw [op_OR_truncated s hg] at h
    injection h with h
    subst h
    rfl
  · rw [op_OR_ok s hg] at h
    injection h with h
    subst h
    rfl

theorem op_XOR_flag (s s' : VM) (h : op_XOR s = Except.ok s') :
    s'.overflow_flag = s.overflow_flag := by
  cases hg : ensure_operands s.ip 4
  · rw [op_XOR_truncated s hg] at h
    injection h with h
    subst h
    rfl
  · rw [op_XOR_ok s hg] at h
    injection h with h
    subst h
    rfl

theorem op_INC_flag (s s' : VM) (h : op_INC s = Except.ok s') :
    s'.overflow_flag = s.overflow_flag := by
  cases hg : ensure_operands s.ip 2
  · rw [op_INC_truncated s hg] at h
    injection h with h
    subst h
    rfl
  · rw [op_INC_ok s hg] at h
    injection h with h
    subst h
    rfl

theorem op_DEC_flag (s s' : VM) (h : op_DEC s = Except.ok s') :
    s'.overflow_flag = s.overflow_flag := by
  cases hg : ensure_operands s.ip 2
  · rw [op_DEC_truncated s hg] at h
    injection h with h
    subst h
    rfl
  · rw [op_DEC_ok s hg] at h
    injection h with h
    subst h
    rfl

theorem op_CMP_flag (s s' : VM) (h : op_CMP s = Except.ok s') :
    s'.overflow_flag = s.overflow_flag := by
  cases hg : ensure_operands s.ip 4
  · rw [op_CMP_truncated s hg] at h
    injection h with h
    subst h
    rfl
  · rw [op_CMP_ok s hg] at h
    injection h with h
    subst h
    rfl

theorem op_COMMENT_flag (s s' : VM) (h : op_COMMENT s = Except.ok s') :
    s'.overflow_flag = s.overflow_flag := by
  cases hg : ensure_operands s.ip 2
  · rw [op_COMMENT_truncated s hg] at h
    injection h with h
    subst h
    rfl
  · rw [op_COMMENT_ok s hg] at h
    injection h with h
    subst h
    split <;> rfl

theorem op_PUTC_flag (s s' : VM) (h : op_PUTC s = Except.ok s') :
    s'.overflow_flag = s.overflow_flag := by
  cases hg : ensure_operands s.ip 2
  · rw [op_PUTC_truncated s hg] at h
    injection h with h
    subst h
    rfl
  · rw [op_PUTC_ok s hg] at h
    injection h with h
    subst h
    rfl

theorem op_PUTN_flag (s s' : VM) (h : op_PUTN s = Except.ok s') :
    s'.overflow_flag = s.overflow_flag := by
  cases hg : ensure_operands s.ip 2
  · rw [op_PUTN_truncated s hg] at h
    injection h with h
    subst h
    rfl
  · rw [op_PUTN_ok s hg] at h
    injection h with h
    subst h
    rfl

theorem op_GETC_flag (s s' : VM) (h : op_GETC s = Except.ok s') :
    s'.overflow_flag = s.overflow_flag := by
  cases hg : ensure_operands s.ip 2
  · rw [op_GETC_truncated s hg] at h
    injection h with h
    subst h
    rfl
  · rw [op_GETC_ok s hg] at h
    injection h with h
    subst h
    rfl

theorem op_ADD_flag_fault (s s' : VM) (h : op_ADD s = Except.ok s') (hf : s'.stderr ≠ s.stderr) :
    s'.overflow_flag = s.overflow_flag := by
  cases hg : ensure_operands s.ip 4
  · rw [op_ADD_truncated s hg] at h
    injection h with h
    subst h
    rfl
  · rw [op_ADD_ok s hg] at h
    injection h with h
    subst h
    exact absurd rfl hf

theorem op_SUB_flag_fault (s s' : VM) (h : op_SUB s = Except.ok s') (hf : s'.stderr ≠ s.stderr) :
    s'.overflow_flag = s.overflow_flag := by
  cases hg : ensure_operands s.ip 4
  · rw [op_SUB_truncated s hg] at h
    injection h with h
    subst h
    rfl
  · rw [op_SUB_ok s hg] at h
    injection h with h
    subst h
    exact absurd rfl hf

theorem op_MUL_flag_fault (s s' : VM) (h : op_MUL s = Except.ok s') (hf : s'.stderr ≠ s.stderr) :
    s'.overflow_flag = s.overflow_flag := by
  cases hg : ensure_operands s.ip 4
  · rw [op_MUL_truncated s hg] at h
    injection h with h
    subst h
    rfl
  · rw [op_MUL_ok s hg] at h
    injection h with h
    subst h
    exact absurd rfl hf

theorem op_DIV_flag (s s' : VM) (h : op_DIV s = Except.ok s') :
    s'.overflow_flag = s.overflow_flag := by
  cases hg : ensure_operands s.ip 4
  · rw [op_DIV_truncated s hg] at h
    injection h with h
    subst h
    rfl
  · rw [op_DIV_ok s hg] at h
    injection h with h
    subst h
    split <;> rfl

theorem op_SHL_flag (s s' : VM) (h : op_SHL s = Except.ok s') :
    s'.overflow_flag = s.overflow_flag := by
  cases hg : ensure_operands s.ip 4
  · rw [op_SHL_truncated s hg] at h
    injection h with h
    subst h
    rfl
  · rw [op_SHL_ok s hg] at h
    injection h with h
    subst h
    rfl

theorem op_SHR_flag (s s' : VM) (h : op_SHR s = Except.ok s') :
    s'.overflow_flag = s.overflow_flag := by
  cases hg : ensure_operands s.ip 4
  · rw [op_SHR_truncated s hg] at h
    injection h with h
    subst h
    rfl
  · rw [op_SHR_ok s hg] at h
    injection h with h
    subst h
    rfl

theorem op_POKE16_flag (s s' : VM) (h : op_POKE16 s = Except.ok s') :
    s'.overflow_flag = s.overflow_flag := by
  cases hg : ensure_operands s.ip 4
  · rw [op_POKE16_truncated s hg] at h
    injection h with h
    subst h
    rfl
  · rw [op_POKE16_ok s hg] at h
    injection h with h
    subst h
    rfl

theorem op_MOVE16_flag (s s' : VM) (h : op_MOVE16 s = Except.ok s') :
    s'.overflow_flag = s.overflow_flag := by
  cases hg : ensure_operands s.ip 5
  · rw [op_MOVE16_truncated s hg] at h
    injection h with h
    subst h
    rfl
  · rw [op_MOVE16_ok s hg] at h
    injection h with h
    subst h
    rfl

theorem op_JMP16_flag (s s' : VM) (h : op_JMP16 s = Except.ok s') :
    s'.overflow_flag = s.overflow_flag := by
  cases hg : ensure_operands s.ip 3
  · rw [op_JMP16_truncated s hg] at h
    injection h with h
    subst h
    rfl
  · rw [op_JMP16_ok s hg] at h
    injection h with h
    subst h
    rfl

theorem op_JZ16_flag (s s' : VM) (h : op_JZ16 s = Except.ok s') :
    s'.overflow_flag = s.overflow_flag := by
  cases hg : ensure_operands s.ip 4
  · rw [op_JZ16_truncated s hg] at h
    injection h with h
    subst h
    rfl
  · rw [op_JZ16_ok s hg] at h
    injection h with h
    subst h
    rfl

theorem op_RUN16_flag (s s' : VM) (h : op_RUN16 s = Except.ok s') :
    s'.overflow_flag = s.overflow_flag := by
  cases hg : ensure_operands s.ip 3
  · rw [op_RUN16_truncated s hg] at h
    injection h with h
    subst h
    rfl
  · rw [op_RUN16_ok s hg] at h
    injection h with h
    subst h
    split <;> rfl

theorem op_HALT_flag (s s' : VM) (h : op_HALT s = Except.ok s') :
    s'.overflow_flag = s.overflow_flag := by
  unfold op_HALT pop_stack stack_read at h
  by_cases h0 : s.stack_pointer = 0
  · simp [h0, pure, Except.pure] at h
    subst h
    rfl
  · by_cases h1 : (s.stack_pointer + 65535) % 65536 < STACK_SIZE
    · simp [h0, h1, Nat.pos_of_ne_zero h0, bind, Except.bind, pure, Except.pure] at h
      subst h
      rfl
    · simp [h0, h1, Nat.pos_of_ne_zero h0, bind, Except.bind] at h

theorem op_RET_flag (s s' : VM) (h : op_RET s = Except.ok s') :
    s'.overflow_flag = s.overflow_flag := by
  unfold op_RET pop_stack stack_read at h
  by_cases h0 : s.stack_pointer = 0
  · simp [h0, pure, Except.pure] at h
    subst h
    rfl
  · by_cases h1 : (s.stack_pointer + 65535) % 65536 < STACK_SIZE
    · simp [h0, h1, Nat.pos_of_ne_zero h0, bind, Except.bind, pure, Except.pure] at h
      subst h
      rfl
    · simp [h0, h1, Nat.pos_of_ne_zero h0, bind, Except.bind] at h

theorem exec_opcode_flag (opcode : Nat) (s s' : VM) (h : exec_opcode opcode s = Except.ok s')
    (hop : (opcode ≠ OP_ADD ∧ opcode ≠ OP_SUB ∧ opcode ≠ OP_MUL) ∨ s'.stderr ≠ s.stderr) :
    s'.overflow_flag = s.overflow_flag := by
  unfold exec_opcode at h
  split at h
  · injection h with h
    subst h
    rfl
  · exact op_POKE_flag s s' h
  · exact op_MOVE_flag s s' h
  · exact op_NOT_flag s s' h
  · exact op_NAND_flag s s' h
  · exact op_JMP_flag s s' h
  · exact op_JZ_flag s s' h
  · exact op_RUN_flag s s' h
  · exact op_HALT_flag s s' h
  · exact op_AND_flag s s' h
  · exact op_OR_flag s s' h
  · exact op_XOR_flag s s' h
  · exact op_INC_flag s s' h
  · exact op_DEC_flag s s' h
  · exact op_CMP_flag s s' h
  · exact op_COMMENT_flag s s' h
  · exact op_PUTC_flag s s' h
  · exact op_PUTN_flag s s' h
  · exact op_GETC_flag s s' h
  · exact op_RET_flag s s' h
  · rcases hop with hop | hf
    · exact absurd rfl hop.1
    · exact op_ADD_flag_fault s s' h hf
  · rcases hop with hop | hf
    · exact absurd rfl hop.2.1
    · exact op_SUB_flag_fault s s' h hf
  · rcases hop with hop | hf
    · exact absurd rfl hop.2.2
    · exact op_MUL_flag_fault s s' h hf
  · exact op_DIV_flag s s' h
  · exact op_SHL_flag s s' h
  · exact op_SHR_flag s s' h
  · exact op_POKE16_flag s s' h
  · exact op_MOVE16_flag s s' h
  · exact op_JMP16_flag s s' h
  · exact op_JZ16_flag s s' h
  · exact op_RUN16_flag s s' h
  · injection h with h
    subst h
    rfl

theorem step_returns (s : VM) (hsp : s.stack_pointer ≤ 64) : ∃ t, step s = Except.ok t := by
  unfold step
  simp only []
  split
  · exact ⟨_, rfl⟩
  · split
    · exact ⟨_, rfl⟩
    · rename_i _ hv
      have hip : s.ip < 65536 := by
        simpa [is_valid_address, MEMORY_SIZE] using hv
      simp only [mem_read, MEMORY_SIZE, hip, if_true, bind, Except.bind]
      rcases exec_opcode_total (s.memory s.ip).val
          { s with instruction_count := u32 (s.instruction_count + 1) } with ⟨t, h, _⟩ | ⟨j, _, h⟩
      · exact ⟨t, h⟩
      · exact absurd h (by show ¬ (64 < s.stack_pointer); omega)

/-- C16: whenever a case of the switch returns a state, the overflow flag is
the one it was given if the opcode is not `ADD`, `SUB` or `MUL`, and also if the
case wrote a fault message (a truncated `ADD`, `SUB` or `MUL` included). The
same holds for a whole loop iteration: when the fetched opcode is not `ADD`,
`SUB` or `MUL`, or when the iteration writes a message, the flag is unchanged.
With a stack pointer in 0..64 the case and the iteration do return a state. -/
theorem overflow_flag_untouched (opcode : Nat) (s : VM) :
    (∀ s', exec_opcode opcode s = Except.ok s' →
      (opcode ≠ OP_ADD ∧ opcode ≠ OP_SUB ∧ opcode ≠ OP_MUL) ∨ s'.stderr ≠ s.stderr →
      s'.overflow_flag = s.overflow_flag)
    ∧ (∀ t, step s = Except.ok t →
      ((s.memory s.ip).val ≠ OP_ADD ∧ (s.memory s.ip).val ≠ OP_SUB
          ∧ (s.memory s.ip).val ≠ OP_MUL) ∨ t.stderr ≠ s.stderr →
      t.overflow_flag = s.overflow_flag)
    ∧ (s.stack_pointer ≤ 64 →
      (∃ s', exec_opcode opcode s = Except.ok s') ∧ ∃ t, step s = Except.ok t) := by
  refine ⟨fun s' hcase hop => exec_opcode_flag opcode s s' hcase hop, fun t hstep hop => ?_,
    fun hsp => ⟨?_, step_returns s hsp⟩⟩
  · unfold step at hstep
    simp only [] at hstep
    split at hstep
    · injection hstep with hstep
      subst hstep
      rfl
    · split at hstep
      · injection hstep with hstep
        subst hstep
        rfl
      · rename_i _ hv
        have hip : s.ip < 65536 := by
          simpa [is_valid_address, MEMORY_SIZE] using hv
        simp only [mem_read, MEMORY_SIZE, hip, if_true, bind, Except.bind] at hstep
        exact exec_opcode_flag _
          { s with instruction_count := u32 (s.instruction_count + 1) } t hstep hop
  · rcases exec_opcode_total opcode s with ⟨s', h, _⟩ | ⟨j, _, h⟩
    · exact ⟨s', h⟩
    · omega

/-- Witness for C16: `SHL` on a machine whose overflow flag is set. -/
theorem overflow_flag_untouched_witness :
    (∃ s', exec_opcode OP_SHL { alu_machine OP_SHL 3 9 with overflow_flag := 1 } = Except.ok s'
      ∧ s'.overflow_flag = 1)
    ∧ ∃ t, step { alu_machine OP_SHL 3 9 with overflow_flag := 1 } = Except.ok t
      ∧ t.overflow_flag = 1 :=
  have hg : ensure_operands ({ alu_machine OP_SHL 3 9 with overflow_flag := 1 } : VM).ip 4 = true := by
    decide
  have hcase := op_SHL_ok { alu_machine OP_SHL 3 9 with overflow_flag := 1 } hg
  have hstep := (step_dispatch { alu_machine OP_SHL 3 9 with overflow_flag := 1 }
    (by decide) (by decide)).trans
      (op_SHL_ok { alu_machine OP_SHL 3 9 with overflow_flag := 1, instruction_count := 1 } hg)
  ⟨⟨_, hcase, (overflow_flag_untouched OP_SHL _).1 _ hcase (Or.inl (by decide))⟩,
    ⟨_, hstep, (overflow_flag_untouched OP_SHL _).2.1 _ hstep (Or.inl (by decide))⟩⟩

/-! ### COMMENT, unknown opcodes and 16-bit jumps -/

/-- C17: for a `COMMENT` at `ip` whose length byte `n = memory[ip + 1]` lies
inside memory: when `ip + 2 + n <= 65536` the case sets the instruction pointer
to `ip + n + 2`, which is none of the `n` skipped addresses, writes no message
and leaves memory, call stack, stack pointer, overflow flag and output
unchanged, and the next iteration fetches its opcode at `ip + n + 2`; when
`ip + 2 + n > 65536` the case stops the run with the comment-overflow message
and the instruction pointer stays at `ip`. A loop iteration fetching `COMMENT`
returns the same state with the counter incremented. -/
theorem comment_skips (s : VM) (hfit : s.ip + 2 ≤ 65536) :
    (s.ip + 2 + (s.memory (s.ip + 1)).val ≤ 65536 →
      ∃ s', exec_opcode OP_COMMENT s = Except.ok s'
        ∧ s'.ip = s.ip + (s.memory (s.ip + 1)).val + 2
        ∧ (∀ j, s.ip + 2 ≤ j → j < s.ip + 2 + (s.memory (s.ip + 1)).val → s'.ip ≠ j)
        ∧ s'.memory = s.memory ∧ s'.call_stack = s.call_stack
        ∧ s'.stack_pointer = s.stack_pointer ∧ s'.overflow_flag = s.overflow_flag
        ∧ s'.running = s.running ∧ s'.stderr = s.stderr ∧ s'.stdout = s.stdout
        ∧ ((s.memory s.ip).val = OP_COMMENT → s.instruction_count < 1000000 →
            step s = Except.ok { s' with instruction_count := s.instruction_count + 1 })
        ∧ (s'.ip < 65536 → s'.instruction_count < 1000000 →
            step s' = exec_opcode (s.memory (s.ip + (s.memory (s.ip + 1)).val + 2)).val
              { s' with instruction_count := s'.instruction_count + 1 }))
    ∧ (s.ip + 2 + (s.memory (s.ip + 1)).val > 65536 →
      ∃ s', exec_opcode OP_COMMENT s = Except.ok s'
        ∧ s'.running = false ∧ s'.stderr = s.stderr ++ [Fault.comment_overflow]
        ∧ s'.ip = s.ip ∧ s'.memory = s.memory ∧ s'.call_stack = s.call_stack
        ∧ s'.stack_pointer = s.stack_pointer ∧ s'.overflow_flag = s.overflow_flag
        ∧ s'.stdout = s.stdout
        ∧ ((s.memory s.ip).val = OP_COMMENT → s.instruction_count < 1000000 →
            step s = Except.ok { s' with instruction_count := s.instruction_count + 1 })) := by
  have hg : ensure_operands s.ip 2 = true := ensure_operands_fits hfit (by decide)
  have hn := (s.memory (s.ip + 1)).isLt
  have hu : u32 (s.ip + 2 + (s.memory (s.ip + 1)).val) = s.ip + 2 + (s.memory (s.ip + 1)).val := by
    simp only [u32]
    omega
  constructor
  · intro hin
    have hcase : ∀ t : VM, t.memory = s.memory → t.ip = s.ip →
        op_COMMENT t = Except.ok { t with ip := s.ip + (s.memory (s.ip + 1)).val + 2 } := by
      intro t hm hi
      rw [op_COMMENT_ok t (by rw [hi]; exact hg), hm, hi, hu,
        if_neg (by unfold MEMORY_SIZE; omega)]
      congr 2
      omega
    refine ⟨_, hcase s rfl rfl, rfl, fun j h1 h2 => ?_, rfl, rfl, rfl, rfl, rfl, rfl, rfl,
      fun hfetch hc => ?_, fun hip hc => ?_⟩
    · show s.ip + (s.memory (s.ip + 1)).val + 2 ≠ j
      omega
    · rw [step_dispatch s hc (by omega), hfetch]
      exact hcase _ rfl rfl
    · exact step_dispatch _ hc hip
  · intro hout
    have hcase : ∀ t : VM, t.memory = s.memory → t.ip = s.ip →
        op_COMMENT t = Except.ok (fault t Fault.comment_overflow) := by
      intro t hm hi
      rw [op_COMMENT_ok t (by rw [hi]; exact hg), hm, hi, hu,
        if_pos (by unfold MEMORY_SIZE; omega)]
    refine ⟨_, hcase s rfl rfl, rfl, rfl, rfl, rfl, rfl, rfl, rfl, rfl, fun hfetch hc => ?_⟩
    rw [step_dispatch s hc (by omega), hfetch]
    exact hcase _ rfl rfl

/-- Witness for C17: `COMMENT 3` at address 0 jumps to address 5, and
`COMMENT 1` in the last two bytes of memory faults. -/
theorem comment_skips_witness :
    (boot (image 0 [OP_COMMENT, 3])).ip + 2 ≤ 65536
    ∧ (∃ s', exec_opcode OP_COMMENT (boot (image 0 [OP_COMMENT, 3])) = Except.ok s' ∧ s'.ip = 5)
    ∧ (comment_at_end 1).ip + 2 ≤ 65536
    ∧ ∃ s', exec_opcode OP_COMMENT (comment_at_end 1) = Except.ok s'
        ∧ s'.running = false ∧ s'.stderr = [Fault.comment_overflow] ∧ s'.ip = 65534 :=
  ⟨by decide,
    ((comment_skips (boot (image 0 [OP_COMMENT, 3])) (by decide)).1 (by decide)).imp
      fun _ h => ⟨h.1, h.2.1⟩,
    by decide,
    ((comment_skips (comment_at_end 1) (by decide)).2 (by decide)).imp
      fun _ h => ⟨h.1, h.2.1, h.2.2.1, h.2.2.2.1⟩⟩

theorem exec_opcode_unknown (opcode : Nat) (s : VM) (h : 0x1F ≤ opcode) :
    exec_opcode opcode s = Except.ok (fault s Fault.unknown_opcode) := by
  unfold exec_opcode
  split <;> first | omega | rfl

/-- C18: for every opcode value from 0x1F up, hence for every byte in
0x1F..0xFF, the switch takes its default case: the run stops with the unknown-opcode message and memory, call stack,
stack pointer, overflow flag, instruction pointer and output are unchanged. The
same holds for a loop iteration that fetches such a byte at `ip < 65536`. -/
theorem unknown_opcode_fault (opcode : Nat) (s : VM) (hlo : 0x1F ≤ opcode) :
    (∃ s', exec_opcode opcode s = Except.ok s'
      ∧ s'.running = false ∧ s'.stderr = s.stderr ++ [Fault.unknown_opcode]
      ∧ s'.memory = s.memory ∧ s'.call_stack = s.call_stack
      ∧ s'.stack_pointer = s.stack_pointer ∧ s'.overflow_flag = s.overflow_flag
      ∧ s'.ip = s.ip ∧ s'.stdout = s.stdout)
    ∧ ((s.memory s.ip).val = opcode → s.ip < 65536 → s.instruction_count < 1000000 →
        ∃ s', step s = Except.ok s'
          ∧ s'.running = false ∧ s'.stderr = s.stderr ++ [Fault.unknown_opcode]
          ∧ s'.memory = s.memory ∧ s'.call_stack = s.call_stack
          ∧ s'.stack_pointer = s.stack_pointer ∧ s'.overflow_flag = s.overflow_flag
          ∧ s'.ip = s.ip ∧ s'.stdout = s.stdout) := by
  constructor
  · exact ⟨_, exec_opcode_unknown opcode s hlo, rfl, rfl, rfl, rfl, rfl, rfl, rfl, rfl⟩
  · intro hfetch hip hc
    rw [step_dispatch s hc hip, hfetch]
    exact ⟨_, exec_opcode_unknown opcode _ hlo, rfl, rfl, rfl, rfl, rfl, rfl, rfl, rfl⟩

/-- Witness for C18: the reserved byte 0x1F (`PUSH` in the second revision) at
address 0. -/
theorem unknown_opcode_fault_witness :
    0x1F ≤ 0x1F
    ∧ ((boot (image 0 [0x1F])).memory (boot (image 0 [0x1F])).ip).val = 0x1F
    ∧ ∃ s', step (boot (image 0 [0x1F])) = Except.ok s' ∧ s'.running = false
        ∧ s'.stderr = [Fault.unknown_opcode] :=
  ⟨by decide, by decide,
    ((unknown_opcode_fault 0x1F (boot (image 0 [0x1F])) (by decide)).2 (by decide)
      (by decide) (by decide)).imp fun _ h => ⟨h.1, h.2.1, h.2.2.1⟩⟩

/-- Counterexample to C19 as stated: with `JMP16 FF FF` at address 0 of the
reset machine, one loop iteration writes no message and does not stop the run;
it moves the instruction pointer to 0xFFFF. -/
theorem jmp16_ffff_does_not_fault :
    ((boot (image 0 [OP_JMP16, 0xFF, 0xFF])).memory 0).val = OP_JMP16
    ∧ ((boot (image 0 [OP_JMP16, 0xFF, 0xFF])).memory 1).val = 0xFF
    ∧ ((boot (image 0 [OP_JMP16, 0xFF, 0xFF])).memory 2).val = 0xFF
    ∧ ∃ s', step (boot (image 0 [OP_JMP16, 0xFF, 0xFF])) = Except.ok s'
        ∧ s'.running = true ∧ s'.stderr = [] ∧ s'.ip = 0xFFFF
        ∧ Fault.invalid_address ∉ s'.stderr :=
  ⟨by decide, by decide, by decide,
    _, (step_dispatch (boot (image 0 [OP_JMP16, 0xFF, 0xFF])) (by decide) (by decide)).trans
        (op_JMP16_ok { boot (image 0 [OP_JMP16, 0xFF, 0xFF]) with instruction_count := 1 }
          (by decide)),
    rfl, rfl, by decide, by decide⟩

/-- C19 (amended): a `JMP16` with operand bytes `FF FF` lying inside memory
does not fault: the case writes no message, keeps the machine running, sets the
instruction pointer to 0xFFFF (a valid address of the 65536-byte memory) and
leaves memory unchanged; a loop iteration fetching it does the same. -/
theorem jmp16_ffff_jumps (s : VM) (hfit : s.ip + 3 ≤ 65536)
    (hhi : (s.memory (s.ip + 1)).val = 0xFF) (hlo : (s.memory (s.ip + 2)).val = 0xFF) :
    ∃ s', exec_opcode OP_JMP16 s = Except.ok s'
      ∧ s'.ip = 0xFFFF ∧ s'.running = s.running ∧ s'.stderr = s.stderr
      ∧ s'.memory = s.memory
      ∧ ((s.memory s.ip).val = OP_JMP16 → s.instruction_count < 1000000 →
          step s = Except.ok { s' with instruction_count := s.instruction_count + 1 }) := by
  have hg : ensure_operands s.ip 3 = true := ensure_operands_fits hfit (by decide)
  have h1 : s.memory (s.ip + 1) = u8 0xFF := Fin.ext hhi
  have h2 : s.memory (s.ip + 2) = u8 0xFF := Fin.ext hlo
  have haddr : (addr16 (s.memory (s.ip + 1)) (s.memory (s.ip + 2))).val = 0xFFFF := by
    rw [h1, h2]
    decide
  have hcase : ∀ t : VM, t.memory = s.memory → t.ip = s.ip →
      op_JMP16 t = Except.ok { t with ip := 0xFFFF } := by
    intro t hm hi
    rw [op_JMP16_ok t (by rw [hi]; exact hg), hm, hi, haddr]
  refine ⟨_, hcase s rfl rfl, rfl, rfl, rfl, rfl, fun hfetch hc => ?_⟩
  rw [step_dispatch s hc (by omega), hfetch]
  exact hcase _ rfl rfl

/-- Witness for C19 (amended): `JMP16 FF FF` at address 0 of the reset machine. -/
theorem jmp16_ffff_jumps_witness :
    (boot (image 0 [OP_JMP16, 0xFF, 0xFF])).ip + 3 ≤ 65536
    ∧ ((boot (image 0 [OP_JMP16, 0xFF, 0xFF])).memory 1).val = 0xFF
    ∧ ((boot (image 0 [OP_JMP16, 0xFF, 0xFF])).memory 2).val = 0xFF
    ∧ ∃ s', exec_opcode OP_JMP16 (boot (image 0 [OP_JMP16, 0xFF, 0xFF])) = Except.ok s'
        ∧ s'.ip = 0xFFFF ∧ s'.running = true :=
  ⟨by decide, by decide, by decide,
    (jmp16_ffff_jumps (boot (image 0 [OP_JMP16, 0xFF, 0xFF])) (by decide) (by decide)
      (by decide)).imp fun _ h => ⟨h.1, h.2.1, h.2.2.1⟩⟩

/-! ### Loading and running a program -/

theorem run_loop_of_stopped (k : Nat) :
    ∀ (m : Nat) (s s2 : VM), run_steps k s = Except.ok s2 → s2.running = false →
      run_loop (k + m) s = some (Except.ok s2) := by
  induction k with
  | zero =>
    intro m s s2 h hr
    simp only [run_steps, pure, Except.pure] at h
    injection h with h
    subst h
    exact run_loop_stopped _ s hr
  | succ k ih =>
    intro m s s2 h hr
    by_cases hs : s.running = true
    · cases hstep : step s with
      | error e => simp [run_steps, hs, hstep, bind, Except.bind] at h
      | ok t =>
        rw [run_steps_succ k hstep hs] at h
        rw [show k + 1 + m = (k + m) + 1 by omega, run_loop_succ _ hstep hs]
        exact ih m t s2 h hr
    · have hs' : s.running = false := by simpa using hs
      rw [run_steps_stopped _ s hs'] at h
      injection h with h
      subst h
      exact run_loop_stopped _ s hs'

/-- C20: when the file holds the text `01 00 41 10 00 08`, `load_program` on the
reset machine returns 0 with the six bytes at addresses 0..5, and `execute`
from address 0 (any fuel of at least 3, any input stream) then writes exactly
the byte 0x41 (`A`) to standard output, writes no message, and stops with the
instruction counter at 3 and an empty call stack. -/
theorem load_and_run_prints_A (filename : List Nat) (fopen : List Nat → Option (List Nat))
    (input : List Nat) (fuel : Nat) (hname : filename.length < 256)
    (hopen : fopen filename = some source_poke_putc_halt) (hf : 3 ≤ fuel) :
    ∃ s1 s2, load_program filename fopen (reset input) = Except.ok (0, s1)
      ∧ ((List.range 6).map fun i => (s1.memory i).val) = [0x01, 0x00, 0x41, 0x10, 0x00, 0x08]
      ∧ s1.stderr = []
      ∧ execute fuel 0 s1 = some (Except.ok s2)
      ∧ s2.stdout = [0x41] ∧ s2.stderr = [] ∧ s2.running = false
      ∧ s2.instruction_count = 3 ∧ s2.stack_pointer = 0 := by
  have hlen : ¬ (filename.length ≥ MAX_FILENAME_LEN) := by
    unfold MAX_FILENAME_LEN
    omega
  have hrun : ∃ s1 s2, load_program filename fopen (reset input) = Except.ok (0, s1)
      ∧ ((List.range 6).map fun i => (s1.memory i).val) = [0x01, 0x00, 0x41, 0x10, 0x00, 0x08]
      ∧ s1.stderr = []
      ∧ run_steps 3 { s1 with ip := (0 : Fin 65536).val, running := true } = Except.ok s2
      ∧ s2.stdout = [0x41] ∧ s2.stderr = [] ∧ s2.running = false
      ∧ s2.instruction_count = 3 ∧ s2.stack_pointer = 0 := by
    unfold load_program
    rw [if_neg hlen, hopen]
    exact ⟨_, _, rfl, rfl, rfl, rfl, rfl, rfl, rfl, rfl, rfl⟩
  obtain ⟨s1, s2, h1, h2, h3, h4, h5, h6, h7, h8, h9⟩ := hrun
  obtain ⟨m, rfl⟩ : ∃ m, fuel = 3 + m := ⟨fuel - 3, by omega⟩
  refine ⟨s1, s2, h1, h2, h3, ?_, h5, h6, h7, h8, h9⟩
  rw [execute_eq_run_loop]
  exact run_loop_of_stopped 3 m _ s2 h4 h7

/-- Witness for C20: the file `a` holding the text, no input, fuel 3. -/
theorem load_and_run_prints_A_witness :
    [97].length < 256
    ∧ (fun _ : List Nat => some source_poke_putc_halt) [97] = some source_poke_putc_halt
    ∧ 3 ≤ 3
    ∧ ∃ s1 s2, load_program [97] (fun _ => some source_poke_putc_halt) (reset [])
          = Except.ok (0, s1)
        ∧ execute 3 0 s1 = some (Except.ok s2)
        ∧ s2.stdout = [0x41] ∧ s2.instruction_count = 3 :=
  ⟨by decide, rfl, by decide,
    (load_and_run_prints_A [97] (fun _ => some source_poke_putc_halt) [] 3 (by decide) rfl
      (by decide)).imp fun _ h => h.imp fun _ h2 =>
        ⟨h2.1, h2.2.2.2.1, h2.2.2.2.2.1, h2.2.2.2.2.2.2.2.1⟩⟩

/-! ### A program that increments its own first byte -/

/-- Counterexample to C21 as stated: on the program `0C 00 11 00 08`, run from
address 0, `execute` halts normally after three instructions, but the text
written is `13` (characters 0x31 0x33), not `1`: `INC 0x00` increments the byte
at address 0, which is the opcode byte 0x0C of the `INC` itself. -/
theorem inc_putn_halt_prints_13 :
    ((List.range 5).map fun i => ((inc_putn_halt []).memory i).val) = [0x0C, 0x00, 0x11, 0x00, 0x08]
    ∧ (∀ i, 5 ≤ i → (inc_putn_halt []).memory i = u8 0)
    ∧ ∃ s', execute 3 0 (inc_putn_halt []) = some (Except.ok s')
        ∧ s'.stdout = [0x31, 0x33] ∧ s'.stdout ≠ [0x31]
        ∧ s'.running = false ∧ s'.stderr = [] := by
  refine ⟨by decide, fun i hi => ?_, _, rfl, rfl, by decide, rfl, rfl⟩
  simp only [inc_putn_halt, image, Nat.zero_le, if_true, Nat.sub_zero]
  rw [List.getD_eq_default _ _ (by simpa using hi)]

/-- C21 (amended): on the program `0C 00 11 00 08` at address 0 of an otherwise
zeroed memory, `execute` from address 0 (any input stream, any fuel of at least
3) writes exactly the decimal text `13`, writes no message and halts normally
after three instructions with an empty stack; the byte at address 0 then holds
0x0D. -/
theorem inc_putn_halt_spec (input : List Nat) (fuel : Nat) (hf : 3 ≤ fuel) :
    ∃ s', execute fuel 0 (inc_putn_halt input) = some (Except.ok s')
      ∧ s'.stdout = [0x31, 0x33] ∧ s'.stderr = [] ∧ s'.running = false
      ∧ s'.instruction_count = 3 ∧ s'.stack_pointer = 0 ∧ (s'.memory 0).val = 0x0D := by
  have hrun : ∃ s', run_steps 3
        { inc_putn_halt input with ip := (0 : Fin 65536).val, running := true } = Except.ok s'
      ∧ s'.stdout = [] ++ print_decimal 13 ∧ s'.stderr = [] ∧ s'.running = false
      ∧ s'.instruction_count = 3 ∧ s'.stack_pointer = 0 ∧ (s'.memory 0).val = 0x0D :=
    ⟨_, rfl, rfl, rfl, rfl, rfl, rfl, rfl⟩
  have hprint : ([] : List Nat) ++ print_decimal 13 = [0x31, 0x33] := by decide
  obtain ⟨s', h1, h2, h3, h4, h5, h6, h7⟩ := hrun
  rw [hprint] at h2
  obtain ⟨m, rfl⟩ : ∃ m, fuel = 3 + m := ⟨fuel - 3, by omega⟩
  refine ⟨s', ?_, h2, h3, h4, h5, h6, h7⟩
  rw [execute_eq_run_loop]
  exact run_loop_of_stopped 3 m _ s' h1 h4

/-- Witness for C21 (amended): no input, fuel 3. -/
theorem inc_putn_halt_spec_witness :
    3 ≤ 3 ∧ ∃ s', execute 3 0 (inc_putn_halt []) = some (Except.ok s')
      ∧ s'.stdout = [0x31, 0x33] ∧ s'.running = false :=
  ⟨by decide, (inc_putn_halt_spec [] 3 (by decide)).imp fun _ h => ⟨h.1, h.2.1, h.2.2.2.1⟩⟩

/-! ### The instruction pointer at the end of memory -/

/-- C25: when the instruction pointer is at or beyond 65536 and the
instruction counter is below 1,000,000, a loop iteration stops the run with the
IP-out-of-bounds message without fetching an opcode: the result does not depend
on memory, and memory, call stack, stack pointer, overflow flag, instruction
pointer and output are unchanged. -/
theorem ip_out_of_bounds_fault (s : VM) (hip : 65536 ≤ s.ip) (hc : s.instruction_count < 1000000) :
    (∃ s', step s = Except.ok s'
      ∧ s'.running = false ∧ s'.stderr = s.stderr ++ [Fault.ip_out_of_bounds]
      ∧ s'.instruction_count = s.instruction_count + 1
      ∧ s'.memory = s.memory ∧ s'.call_stack = s.call_stack
      ∧ s'.stack_pointer = s.stack_pointer ∧ s'.overflow_flag = s.overflow_flag
      ∧ s'.ip = s.ip ∧ s'.stdout = s.stdout ∧ s'.stdin = s.stdin)
    ∧ (∀ mem : Nat → Fin 256, ∃ t, step { s with memory := mem } = Except.ok t
        ∧ t.running = false ∧ t.stderr = s.stderr ++ [Fault.ip_out_of_bounds]
        ∧ t.memory = mem) := by
  refine ⟨⟨_, step_ip_out_of_bounds s hc hip, rfl, rfl, rfl, rfl, rfl, rfl, rfl, rfl, rfl, rfl⟩,
    fun mem => ⟨_, step_ip_out_of_bounds { s with memory := mem } hc hip, rfl, rfl, rfl⟩⟩

/-- Witness for C25: after the `NOP` in the last byte of memory the instruction
pointer is 65536, and the next iteration faults instead of wrapping to 0. -/
theorem ip_out_of_bounds_fault_witness :
    (∃ s1, step nop_at_end = Except.ok s1 ∧ s1.ip = 65536 ∧ s1.running = true
      ∧ s1.instruction_count < 1000000
      ∧ ∃ s2, step s1 = Except.ok s2 ∧ s2.running = false
        ∧ s2.stderr = [Fault.ip_out_of_bounds] ∧ s2.ip = 65536) :=
  ⟨{ nop_at_end with instruction_count := 1, ip := 65536 }, rfl, rfl, rfl, by decide,
    (ip_out_of_bounds_fault { nop_at_end with instruction_count := 1, ip := 65536 }
      (by decide) (by decide)).1.imp fun _ h => ⟨h.1, h.2.1, h.2.2.1, h.2.2.2.2.2.2.2.2.1⟩⟩

/-! ### What a case of the switch does to the stack pointer and to the messages -/

theorem op_POKE_sp (s s' : VM) (h : op_POKE s = Except.ok s') :
    s'.stack_pointer = s.stack_pointer := by
  cases hg : ensure_operands s.ip 3
  · rw [op_POKE_truncated s hg] at h
    injection h with h
    subst h
    rfl
  · rw [op_POKE_ok s hg] at h
    injection h with h
    subst h
    rfl

theorem op_POKE_msg (s s' : VM) (h : op_POKE s = Except.ok s') :
    s'.stderr = s.stderr
    ∨ ∃ f, f ≠ Fault.invalid_address ∧ s'.stderr = s.stderr ++ [f] := by
  cases hg : ensure_operands s.ip 3
  · rw [op_POKE_truncated s hg] at h
    injection h with h
    subst h
    exact Or.inr ⟨Fault.truncated, by decide, rfl⟩
  · rw [op_POKE_ok s hg] at h
    injection h with h
    subst h
    exact Or.inl rfl

theorem op_MOVE_sp (s s' : VM) (h : op_MOVE s = Except.ok s') :
    s'.stack_pointer = s.stack_pointer := by
  cases hg : ensure_operands s.ip 3
  · rw [op_MOVE_truncated s hg] at h
    injection h with h
    subst h
    rfl
  · rw [op_MOVE_ok s hg] at h
    injection h with h
    subst h
    rfl

theorem op_MOVE_msg (s s' : VM) (h : op_MOVE s = Except.ok s') :
    s'.stderr = s.stderr
    ∨ ∃ f, f ≠ Fault.invalid_address ∧ s'.stderr = s.stderr ++ [f] := by
  cases hg : ensure_operands s.ip 3
  · rw [op_MOVE_truncated s hg] at h
    injection h with h
    subst h
    exact Or.inr ⟨Fault.truncated, by decide, rfl⟩
  · rw [op_MOVE_ok s hg] at h
    injection h with h
    subst h
    exact Or.inl rfl

theorem op_NOT_sp (s s' : VM) (h : op_NOT s = Except.ok s') :
    s'.stack_pointer = s.stack_pointer := by
  cases hg : ensure_operands s.ip 2
  · rw [op_NOT_truncated s hg] at h
    injection h with h
    subst h
    rfl
  · rw [op_NOT_ok s hg] at h
    injection h with h
    subst h
    rfl

theorem op_NOT_msg (s s' : VM) (h : op_NOT s = Except.ok s') :
    s'.stderr = s.stderr
    ∨ ∃ f, f ≠ Fault.invalid_address ∧ s'.stderr = s.stderr ++ [f] := by
  cases hg : ensure_operands s.ip 2
  · rw [op_NOT_truncated s hg] at h
    injection h with h
    subst h
    exact Or.inr ⟨Fault.truncated, by decide, rfl⟩
  · rw [op_NOT_ok s hg] at h
    injection h with h
    subst h
    exact Or.inl rfl

theorem op_NAND_sp (s s' : VM) (h : op_NAND s = Except.ok s') :
    s'.stack_pointer = s.stack_pointer := by
  cases hg : ensure_operands s.ip 4
  · rw [op_NAND_truncated s hg] at h
    injection h with h
    subst h
    rfl
  · rw [op_NAND_ok s hg] at h
    injection h with h
    subst h
    rfl

theorem op_NAND_msg (s s' : VM) (h : op_NAND s = Except.ok s') :
    s'.stderr = s.stderr
    ∨ ∃ f, f ≠ Fault.invalid_address ∧ s'.stderr = s.stderr ++ [f] := by
  cases hg : ensure_operands s.ip 4
  · rw [op_NAND_truncated s hg] at h
    injection h with h
    subst h
    exact Or.inr ⟨Fault.truncated, by decide, rfl⟩
  · rw [op_NAND_ok s hg] at h
    injection h with h
    subst h
    exact Or.inl rfl

theorem op_JMP_sp (s s' : VM) (h : op_JMP s = Except.ok s') :
    s'.stack_pointer = s.stack_pointer := by
  cases hg : ensure_operands s.ip 2
  · rw [op_JMP_truncated s hg] at h
    injection h with h
    subst h
    rfl
  · rw [op_JMP_ok s hg] at h
    injection h with h
    subst h
    rfl

theorem op_JMP_msg (s s' : VM) (h : op_JMP s = Except.ok s') :
    s'.stderr = s.stderr
    ∨ ∃ f, f ≠ Fault.invalid_address ∧ s'.stderr = s.stderr ++ [f] := by
  cases hg : ensure_operands s.ip 2
  · rw [op_JMP_truncated s hg] at h
    injection h with h
    subst h
    exact Or.inr ⟨Fault.truncated, by decide, rfl⟩
  · rw [op_JMP_ok s hg] at h
    injection h with h
    subst h
    exact Or.inl rfl

theorem op_JZ_sp (s s' : VM) (h : op_JZ s = Except.ok s') :
    s'.stack_pointer = s.stack_pointer := by
  cases hg : ensure_operands s.ip 3
  · rw [op_JZ_truncated s hg] at h
    injection h with h
    subst h
    rfl
  · rw [op_JZ_ok s hg] at h
    injection h with h
    subst h
    rfl

theorem op_JZ_msg (s s' : VM) (h : op_JZ s = Except.ok s') :
    s'.stderr = s.stderr
    ∨ ∃ f, f ≠ Fault.invalid_address ∧ s'.stderr = s.stderr ++ [f] := by
  cases hg : ensure_operands s.ip 3
  · rw [op_JZ_truncated s hg] at h
    injection h with h
    subst h
    exact Or.inr ⟨Fault.truncated, by decide, rfl⟩
  · rw [op_JZ_ok s hg] at h
    injection h with h
    subst h
    exact Or.inl rfl

theorem op_RUN_sp (s s' : VM) (h : op_RUN s = Except.ok s') :
    s'.stack_pointer = s.stack_pointer
    ∨ (s'.stack_pointer = s.stack_pointer + 1 ∧ s.stack_pointer < 64) := by
  cases hg : ensure_operands s.ip 2
  · rw [op_RUN_truncated s hg] at h
    injection h with h
    subst h
    exact Or.inl rfl
  · rw [op_RUN_ok s hg] at h
    injection h with h
    subst h
    split
    · rename_i hlt
      exact Or.inr ⟨rfl, hlt⟩
    · exact Or.inl rfl

theorem op_RUN_msg (s s' : VM) (h : op_RUN s = Except.ok s') :
    s'.stderr = s.stderr
    ∨ ∃ f, f ≠ Fault.invalid_address ∧ s'.stderr = s.stderr ++ [f] := by
  cases hg : ensure_operands s.ip 2
  · rw [op_RUN_truncated s hg] at h
    injection h with h
    subst h
    exact Or.inr ⟨Fault.truncated, by decide, rfl⟩
  · rw [op_RUN_ok s hg] at h
    injection h with h
    subst h
    split <;> first | exact Or.inl rfl | exact Or.inr ⟨_, by decide, rfl⟩

theorem op_AND_sp (s s' : VM) (h : op_AND s = Except.ok s') :
    s'.stack_pointer = s.stack_pointer := by
  cases hg : ensure_operands s.ip 4
  · rw [op_AND_truncated s hg] at h
    injection h with h
    subst h
    rfl
  · rw [op_AND_ok s hg] at h
    injection h with h
    subst h
    rfl

theorem op_AND_msg (s s' : VM) (h : op_AND s = Except.ok s') :
    s'.stderr = s.stderr
    ∨ ∃ f, f ≠ Fault.invalid_address ∧ s'.stderr = s.stderr ++ [f] := by
  cases hg : ensure_operands s.ip 4
  · rw [op_AND_truncated s hg] at h
    injection h with h
    subst h
    exact Or.inr ⟨Fault.truncated, by decide, rfl⟩
  · rw [op_AND_ok s hg] at h
    injection h with h
    subst h
    exact Or.inl rfl

theorem op_OR_sp (s s' : VM) (h : op_OR s = Except.ok s') :
    s'.stack_pointer = s.stack_pointer := by
  cases hg : ensure_operands s.ip 4
  · rw [op_OR_truncated s hg] at h
    injection h with h
    subst h
    rfl
  · rw [op_OR_ok s hg] at h
    injection h with h
    subst h
    rfl

theorem op_OR_msg (s s' : VM) (h : op_OR s = Except.ok s') :
    s'.stderr = s.stderr
    ∨ ∃ f, f ≠ Fault.invalid_address ∧ s'.stderr = s.stderr ++ [f] := by
  cases hg : ensure_operands s.ip 4
  · rw [op_OR_truncated s hg] at h
    injection h with h
    subst h
    exact Or.inr ⟨Fault.truncated, by decide, rfl⟩
  · rw [op_OR_ok s hg] at h
    injection h with h
    subst h
    exact Or.inl rfl

theorem op_XOR_sp (s s' : VM) (h : op_XOR s = Except.ok s') :
    s'.stack_pointer = s.stack_pointer := by
  cases hg : ensure_operands s.ip 4
  · rw [op_XOR_truncated s hg] at h
    injection h with h
    subst h
    rfl
  · rw [op_XOR_ok s hg] at h
    injection h with h
    subst h
    rfl

theorem op_XOR_msg (s s' : VM) (h : op_XOR s = Except.ok s') :
    s'.stderr = s.stderr
    ∨ ∃ f, f ≠ Fault.invalid_address ∧ s'.stderr = s.stderr ++ [f] := by
  cases hg : ensure_operands s.ip 4
  · rw [op_XOR_truncated s hg] at h
    injection h with h
    subst h
    exact Or.inr ⟨Fault.truncated, by decide, rfl⟩
  · rw [op_XOR_ok s hg] at h
    injection h with h
    subst h
    exact Or.inl rfl

theorem op_INC_sp (s s' : VM) (h : op_INC s = Except.ok s') :
    s'.stack_pointer = s.stack_pointer := by
  cases hg : ensure_operands s.ip 2
  · rw [op_INC_truncated s hg] at h
    injection h with h
    subst h
    rfl
  · rw [op_INC_ok s hg] at h
    injection h with h
    subst h
    rfl

theorem op_INC_msg (s s' : VM) (h : op_INC s = Except.ok s') :
    s'.stderr = s.stderr
    ∨ ∃ f, f ≠ Fault.invalid_address ∧ s'.stderr = s.stderr ++ [f] := by
  cases hg : ensure_operands s.ip 2
  · rw [op_INC_truncated s hg] at h
    injection h with h
    subst h
    exact Or.inr ⟨Fault.truncated, by decide, rfl⟩
  · rw [op_INC_ok s hg] at h
    injection h with h
    subst h
    exact Or.inl rfl

theorem op_DEC_sp (s s' : VM) (h : op_DEC s = Except.ok s') :
    s'.stack_pointer = s.stack_pointer := by
  cases hg : ensure_operands s.ip 2
  · rw [op_DEC_truncated s hg] at h
    injection h with h
    subst h
    rfl
  · rw [op_DEC_ok s hg] at h
    injection h with h
    subst h
    rfl

theorem op_DEC_msg (s s' : VM) (h : op_DEC s = Except.ok s') :
    s'.stderr = s.stderr
    ∨ ∃ f, f ≠ Fault.invalid_address ∧ s'.stderr = s.stderr ++ [f] := by
  cases hg : ensure_operands s.ip 2
  · rw [op_DEC_truncated s hg] at h
    injection h with h
    subst h
    exact Or.inr ⟨Fault.truncated, by decide, rfl⟩
  · rw [op_DEC_ok s hg] at h
    injection h with h
    subst h
    exact Or.inl rfl

theorem op_CMP_sp (s s' : VM) (h : op_CMP s = Except.ok s') :
    s'.stack_pointer = s.stack_pointer := by
  cases hg : ensure_operands s.ip 4
  · rw [op_CMP_truncated s hg] at h
    injection h with h
    subst h
    rfl
  · rw [op_CMP_ok s hg] at h
    injection h with h
    subst h
    rfl

theorem op_CMP_msg (s s' : VM) (h : op_CMP s = Except.ok s') :
    s'.stderr = s.stderr
    ∨ ∃ f, f ≠ Fault.invalid_address ∧ s'.stderr = s.stderr ++ [f] := by
  cases hg : ensure_operands s.ip 4
  · rw [op_CMP_truncated s hg] at h
    injection h with h
    subst h
    exact Or.inr ⟨Fault.truncated, by decide, rfl⟩
  · rw [op_CMP_ok s hg] at h
    injection h with h
    subst h
    exact Or.inl rfl

theorem op_COMMENT_sp (s s' : VM) (h : op_COMMENT s = Except.ok s') :
    s'.stack_pointer = s.stack_pointer := by
  cases hg : ensure_operands s.ip 2
  · rw [op_COMMENT_truncated s hg] at h
    injection h with h
    subst h
    rfl
  · rw [op_COMMENT_ok s hg] at h
    injection h with h
    subst h
    split <;> rfl

theorem op_COMMENT_msg (s s' : VM) (h : op_COMMENT s = Except.ok s') :
    s'.stderr = s.stderr
    ∨ ∃ f, f ≠ Fault.invalid_address ∧ s'.stderr = s.stderr ++ [f] := by
  cases hg : ensure_operands s.ip 2
  · rw [op_COMMENT_truncated s hg] at h
    injection h with h
    subst h
    exact Or.inr ⟨Fault.truncated, by decide, rfl⟩
  · rw [op_COMMENT_ok s hg] at h
    injection h with h
    subst h
    split <;> first | exact Or.inl rfl | exact Or.inr ⟨_, by decide, rfl⟩

theorem op_PUTC_sp (s s' : VM) (h : op_PUTC s = Except.ok s') :
    s'.stack_pointer = s.stack_pointer := by
  cases hg : ensure_operands s.ip 2
  · rw [op_PUTC_truncated s hg] at h
    injection h with h
    subst h
    rfl
  · rw [op_PUTC_ok s hg] at h
    injection h with h
    subst h
    rfl

theorem op_PUTC_msg (s s' : VM) (h : op_PUTC s = Except.ok s') :
    s'.stderr = s.stderr
    ∨ ∃ f, f ≠ Fault.invalid_address ∧ s'.stderr = s.stderr ++ [f] := by
  cases hg : ensure_operands s.ip 2
  · rw [op_PUTC_truncated s hg] at h
    injection h with h
    subst h
    exact Or.inr ⟨Fault.truncated, by decide, rfl⟩
  · rw [op_PUTC_ok s hg] at h
    injection h with h
    subst h
    exact Or.inl rfl

theorem op_PUTN_sp (s s' : VM) (h : op_PUTN s = Except.ok s') :
    s'.stack_pointer = s.stack_pointer := by
  cases hg : ensure_operands s.ip 2
  · rw [op_PUTN_truncated s hg] at h
    injection h with h
    subst h
    rfl
  · rw [op_PUTN_ok s hg] at h
    injection h with h
    subst h
    rfl

theorem op_PUTN_msg (s s' : VM) (h : op_PUTN s = Except.ok s') :
    s'.stderr = s.stderr
    ∨ ∃ f, f ≠ Fault.invalid_address ∧ s'.stderr = s.stderr ++ [f] := by
  cases hg : ensure_operands s.ip 2
  · rw [op_PUTN_truncated s hg] at h
    injection h with h
    subst h
    exact Or.inr ⟨Fault.truncated, by decide, rfl⟩
  · rw [op_PUTN_ok s hg] at h
    injection h with h
    subst h
    exact Or.inl rfl

theorem op_GETC_sp (s s' : VM) (h : op_GETC s = Except.ok s') :
    s'.stack_pointer = s.stack_pointer := by
  cases hg : ensure_operands s.ip 2
  · rw [op_GETC_truncated s hg] at h
    injection h with h
    subst h
    rfl
  · rw [op_GETC_ok s hg] at h
    injection h with h
    subst h
    rfl

theorem op_GETC_msg (s s' : VM) (h : op_GETC s = Except.ok s') :
    s'.stderr = s.stderr
    ∨ ∃ f, f ≠ Fault.invalid_address ∧ s'.stderr = s.stderr ++ [f] := by
  cases hg : ensure_operands s.ip 2
  · rw [op_GETC_truncated s hg] at h
    injection h with h
    subst h
    exact Or.inr ⟨Fault.truncated, by decide, rfl⟩
  · rw [op_GETC_ok s hg] at h
    injection h with h
    subst h
    exact Or.inl rfl

theorem op_ADD_sp (s s' : VM) (h : op_ADD s = Except.ok s') :
    s'.stack_pointer = s.stack_pointer := by
  cases hg : ensure_operands s.ip 4
  · rw [op_ADD_truncated s hg] at h
    injection h with h
    subst h
    rfl
  · rw [op_ADD_ok s hg] at h
    injection h with h
    subst h
    rfl

theorem op_ADD_msg (s s' : VM) (h : op_ADD s = Except.ok s') :
    s'.stderr = s.stderr
    ∨ ∃ f, f ≠ Fault.invalid_address ∧ s'.stderr = s.stderr ++ [f] := by
  cases hg : ensure_operands s.ip 4
  · rw [op_ADD_truncated s hg] at h
    injection h with h
    subst h
    exact Or.inr ⟨Fault.truncated, by decide, rfl⟩
  · rw [op_ADD_ok s hg] at h
    injection h with h
    subst h
    exact Or.inl rfl

theorem op_SUB_sp (s s' : VM) (h : op_SUB s = Except.ok s') :
    s'.stack_pointer = s.stack_pointer := by
  cases hg : ensure_operands s.ip 4
  · rw [op_SUB_truncated s hg] at h
    injection h with h
    subst h
    rfl
  · rw [op_SUB_ok s hg] at h
    injection h with h
    subst h
    rfl

theorem op_SUB_msg (s s' : VM) (h : op_SUB s = Except.ok s') :
    s'.stderr = s.stderr
    ∨ ∃ f, f ≠ Fault.invalid_address ∧ s'.stderr = s.stderr ++ [f] := by
  cases hg : ensure_operands s.ip 4
  · rw [op_SUB_truncated s hg] at h
    injection h with h
    subst h
    exact Or.inr ⟨Fault.truncated, by decide, rfl⟩
  · rw [op_SUB_ok s hg] at h
    injection h with h
    subst h
    exact Or.inl rfl

theorem op_MUL_sp (s s' : VM) (h : op_MUL s = Except.ok s') :
    s'.stack_pointer = s.stack_pointer := by
  cases hg : ensure_operands s.ip 4
  · rw [op_MUL_truncated s hg] at h
    injection h with h
    subst h
    rfl
  · rw [op_MUL_ok s hg] at h
    injection h with h
    subst h
    rfl

theorem op_MUL_msg (s s' : VM) (h : op_MUL s = Except.ok s') :
    s'.stderr = s.stderr
    ∨ ∃ f, f ≠ Fault.invalid_address ∧ s'.stderr = s.stderr ++ [f] := by
  cases hg : ensure_operands s.ip 4
  · rw [op_MUL_truncated s hg] at h
    injection h with h
    subst h
    exact Or.inr ⟨Fault.truncated, by decide, rfl⟩
  · rw [op_MUL_ok s hg] at h
    injection h with h
    subst h
    exact Or.inl rfl

theorem op_DIV_sp (s s' : VM) (h : op_DIV s = Except.ok s') :
    s'.stack_pointer = s.stack_pointer := by
  cases hg : ensure_operands s.ip 4
  · rw [op_DIV_truncated s hg] at h
    injection h with h
    subst h
    rfl
  · rw [op_DIV_ok s hg] at h
    injection h with h
    subst h
    split <;> rfl

theorem op_DIV_msg (s s' : VM) (h : op_DIV s = Except.ok s') :
    s'.stderr = s.stderr
    ∨ ∃ f, f ≠ Fault.invalid_address ∧ s'.stderr = s.stderr ++ [f] := by
  cases hg : ensure_operands s.ip 4
  · rw [op_DIV_truncated s hg] at h
    injection h with h
    subst h
    exact Or.inr ⟨Fault.truncated, by decide, rfl⟩
  · rw [op_DIV_ok s hg] at h
    injection h with h
    subst h
    split <;> first | exact Or.inl rfl | exact Or.inr ⟨_, by decide, rfl⟩

theorem op_SHL_sp (s s' : VM) (h : op_SHL s = Except.ok s') :
    s'.stack_pointer = s.stack_pointer := by
  cases hg : ensure_operands s.ip 4
  · rw [op_SHL_truncated s hg] at h
    injection h with h
    subst h
    rfl
  · rw [op_SHL_ok s hg] at h
    injection h with h
    subst h
    rfl

theorem op_SHL_msg (s s' : VM) (h : op_SHL s = Except.ok s') :
    s'.stderr = s.stderr
    ∨ ∃ f, f ≠ Fault.invalid_address ∧ s'.stderr = s.stderr ++ [f] := by
  cases hg : ensure_operands s.ip 4
  · rw [op_SHL_truncated s hg] at h
    injection h with h
    subst h
    exact Or.inr ⟨Fault.truncated, by decide, rfl⟩
  · rw [op_SHL_ok s hg] at h
    injection h with h
    subst h
    exact Or.inl rfl

theorem op_SHR_sp (s s' : VM) (h : op_SHR s = Except.ok s') :
    s'.stack_pointer = s.stack_pointer := by
  cases hg : ensure_operands s.ip 4
  · rw [op_SHR_truncated s hg] at h
    injection h with h
    subst h
    rfl
  · rw [op_SHR_ok s hg] at h
    injection h with h
    subst h
    rfl

theorem op_SHR_msg (s s' : VM) (h : op_SHR s = Except.ok s') :
    s'.stderr = s.stderr
    ∨ ∃ f, f ≠ Fault.invalid_address ∧ s'.stderr = s.stderr ++ [f] := by
  cases hg : ensure_operands s.ip 4
  · rw [op_SHR_truncated s hg] at h
    injection h with h
    subst h
    exact Or.inr ⟨Fault.truncated, by decide, rfl⟩
  · rw [op_SHR_ok s hg] at h
    injection h with h
    subst h
    exact Or.inl rfl

theorem op_POKE16_sp (s s' : VM) (h : op_POKE16 s = Except.ok s') :
    s'.stack_pointer = s.stack_pointer := by
  cases hg : ensure_operands s.ip 4
  · rw [op_POKE16_truncated s hg] at h
    injection h with h
    subst h
    rfl
  · rw [op_POKE16_ok s hg] at h
    injection h with h
    subst h
    rfl

theorem op_POKE16_msg (s s' : VM) (h : op_POKE16 s = Except.ok s') :
    s'.stderr = s.stderr
    ∨ ∃ f, f ≠ Fault.invalid_address ∧ s'.stderr = s.stderr ++ [f] := by
  cases hg : ensure_operands s.ip 4
  · rw [op_POKE16_truncated s hg] at h
    injection h with h
    subst h
    exact Or.inr ⟨Fault.truncated, by decide, rfl⟩
  · rw [op_POKE16_ok s hg] at h
    injection h with h
    subst h
    exact Or.inl rfl

theorem op_MOVE16_sp (s s' : VM) (h : op_MOVE16 s = Except.ok s') :
    s'.stack_pointer = s.stack_pointer := by
  cases hg : ensure_operands s.ip 5
  · rw [op_MOVE16_truncated s hg] at h
    injection h with h
    subst h
    rfl
  · rw [op_MOVE16_ok s hg] at h
    injection h with h
    subst h
    rfl

theorem op_MOVE16_msg (s s' : VM) (h : op_MOVE16 s = Except.ok s') :
    s'.stderr = s.stderr
    ∨ ∃ f, f ≠ Fault.invalid_address ∧ s'.stderr = s.stderr ++ [f] := by
  cases hg : ensure_operands s.ip 5
  · rw [op_MOVE16_truncated s hg] at h
    injection h with h
    subst h
    exact Or.inr ⟨Fault.truncated, by decide, rfl⟩
  · rw [op_MOVE16_ok s hg] at h
    injection h with h
    subst h
    exact Or.inl rfl

theorem op_JMP16_sp (s s' : VM) (h : op_JMP16 s = Except.ok s') :
    s'.stack_pointer = s.stack_pointer := by
  cases hg : ensure_operands s.ip 3
  · rw [op_JMP16_truncated s hg] at h
    injection h with h
    subst h
    rfl
  · rw [op_JMP16_ok s hg] at h
    injection h with h
    subst h
    rfl

theorem op_JMP16_msg (s s' : VM) (h : op_JMP16 s = Except.ok s') :
    s'.stderr = s.stderr
    ∨ ∃ f, f ≠ Fault.invalid_address ∧ s'.stderr = s.stderr ++ [f] := by
  cases hg : ensure_operands s.ip 3
  · rw [op_JMP16_truncated s hg] at h
    injection h with h
    subst h
    exact Or.inr ⟨Fault.truncated, by decide, rfl⟩
  · rw [op_JMP16_ok s hg] at h
    injection h with h
    subst h
    exact Or.inl rfl

theorem op_JZ16_sp (s s' : VM) (h : op_JZ16 s = Except.ok s') :
    s'.stack_pointer = s.stack_pointer := by
  cases hg : ensure_operands s.ip 4
  · rw [op_JZ16_truncated s hg] at h
    injection h with h
    subst h
    rfl
  · rw [op_JZ16_ok s hg] at h
    injection h with h
    subst h
    rfl

theorem op_JZ16_msg (s s' : VM) (h : op_JZ16 s = Except.ok s') :
    s'.stderr = s.stderr
    ∨ ∃ f, f ≠ Fault.invalid_address ∧ s'.stderr = s.stderr ++ [f] := by
  cases hg : ensure_operands s.ip 4
  · rw [op_JZ16_truncated s hg] at h
    injection h with h
    subst h
    exact Or.inr ⟨Fault.truncated, by decide, rfl⟩
  · rw [op_JZ16_ok s hg] at h
    injection h with h
    subst h
    exact Or.inl rfl

theorem op_RUN16_sp (s s' : VM) (h : op_RUN16 s = Except.ok s') :
    s'.stack_pointer = s.stack_pointer
    ∨ (s'.stack_pointer = s.stack_pointer + 1 ∧ s.stack_pointer < 64) := by
  cases hg : ensure_operands s.ip 3
  · rw [op_RUN16_truncated s hg] at h
    injection h with h
    subst h
    exact Or.inl rfl
  · rw [op_RUN16_ok s hg] at h
    injection h with h
    subst h
    split
    · rename_i hlt
      exact Or.inr ⟨rfl, hlt⟩
    · exact Or.inl rfl

theorem op_RUN16_msg (s s' : VM) (h : op_RUN16 s = Except.ok s') :
    s'.stderr = s.stderr
    ∨ ∃ f, f ≠ Fault.invalid_address ∧ s'.stderr = s.stderr ++ [f] := by
  cases hg : ensure_operands s.ip 3
  · rw [op_RUN16_truncated s hg] at h
    injection h with h
    subst h
    exact Or.inr ⟨Fault.truncated, by decide, rfl⟩
  · rw [op_RUN16_ok s hg] at h
    injection h with h
    subst h
    split <;> first | exact Or.inl rfl | exact Or.inr ⟨_, by decide, rfl⟩

theorem op_HALT_sp (s s' : VM) (h : op_HALT s = Except.ok s') (hsp : s.stack_pointer ≤ 64) :
    s'.stack_pointer = s.stack_pointer ∨ s'.stack_pointer + 1 = s.stack_pointer := by
  by_cases h0 : s.stack_pointer = 0
  · rw [op_HALT_empty s h0] at h
    injection h with h
    subst h
    exact Or.inl rfl
  · rw [op_HALT_live s (by omega) hsp] at h
    injection h with h
    subst h
    right
    show s.stack_pointer - 1 + 1 = s.stack_pointer
    omega

theorem op_HALT_msg (s s' : VM) (h : op_HALT s = Except.ok s') :
    s'.stderr = s.stderr
    ∨ ∃ f, f ≠ Fault.invalid_address ∧ s'.stderr = s.stderr ++ [f] := by
  unfold op_HALT pop_stack stack_read at h
  by_cases h0 : s.stack_pointer = 0
  · simp [h0, pure, Except.pure] at h
    subst h
    exact Or.inl rfl
  · by_cases h1 : (s.stack_pointer + 65535) % 65536 < STACK_SIZE
    · simp [h0, h1, Nat.pos_of_ne_zero h0, bind, Except.bind, pure, Except.pure] at h
      subst h
      exact Or.inl rfl
    · simp [h0, h1, Nat.pos_of_ne_zero h0, bind, Except.bind] at h

theorem op_RET_sp (s s' : VM) (h : op_RET s = Except.ok s') (hsp : s.stack_pointer ≤ 64) :
    s'.stack_pointer = s.stack_pointer ∨ s'.stack_pointer + 1 = s.stack_pointer := by
  by_cases h0 : s.stack_pointer = 0
  · rw [op_RET_empty s h0] at h
    injection h with h
    subst h
    exact Or.inl rfl
  · rw [op_RET_live s (by omega) hsp] at h
    injection h with h
    subst h
    right
    show s.stack_pointer - 1 + 1 = s.stack_pointer
    omega

theorem op_RET_msg (s s' : VM) (h : op_RET s = Except.ok s') :
    s'.stderr = s.stderr
    ∨ ∃ f, f ≠ Fault.invalid_address ∧ s'.stderr = s.stderr ++ [f] := by
  unfold op_RET pop_stack stack_read at h
  by_cases h0 : s.stack_pointer = 0
  · simp [h0, pure, Except.pure] at h
    subst h
    exact Or.inr ⟨Fault.ret_empty_stack, by decide, rfl⟩
  · by_cases h1 : (s.stack_pointer + 65535) % 65536 < STACK_SIZE
    · simp [h0, h1, Nat.pos_of_ne_zero h0, bind, Except.bind, pure, Except.pure] at h
      subst h
      exact Or.inl rfl
    · simp [h0, h1, Nat.pos_of_ne_zero h0, bind, Except.bind] at h

theorem exec_opcode_sp (opcode : Nat) (s s' : VM) (h : exec_opcode opcode s = Except.ok s')
    (hsp : s.stack_pointer ≤ 64) :
    s'.stack_pointer ≤ 64
    ∧ (s'.stack_pointer = s.stack_pointer
      ∨ (s'.stack_pointer = s.stack_pointer + 1 ∧ (opcode = OP_RUN ∨ opcode = OP_RUN16))
      ∨ (s'.stack_pointer + 1 = s.stack_pointer ∧ (opcode = OP_HALT ∨ opcode = OP_RET))) := by
  unfold exec_opcode at h
  split at h
  · injection h with h
    subst h
    exact ⟨hsp, Or.inl rfl⟩
  · have h1 := op_POKE_sp s s' h
    exact ⟨by omega, Or.inl h1⟩
  · have h1 := op_MOVE_sp s s' h
    exact ⟨by omega, Or.inl h1⟩
  · have h1 := op_NOT_sp s s' h
    exact ⟨by omega, Or.inl h1⟩
  · have h1 := op_NAND_sp s s' h
    exact ⟨by omega, Or.inl h1⟩
  · have h1 := op_JMP_sp s s' h
    exact ⟨by omega, Or.inl h1⟩
  · have h1 := op_JZ_sp s s' h
    exact ⟨by omega, Or.inl h1⟩
  · rcases op_RUN_sp s s' h with h1 | ⟨h1, h2⟩
    · exact ⟨by omega, Or.inl h1⟩
    · exact ⟨by omega, Or.inr (Or.inl ⟨h1, Or.inl rfl⟩)⟩
  · rcases op_HALT_sp s s' h hsp with h1 | h1
    · exact ⟨by omega, Or.inl h1⟩
    · exact ⟨by omega, Or.inr (Or.inr ⟨h1, Or.inl rfl⟩)⟩
  · have h1 := op_AND_sp s s' h
    exact ⟨by omega, Or.inl h1⟩
  · have h1 := op_OR_sp s s' h
    exact ⟨by omega, Or.inl h1⟩
  · have h1 := op_XOR_sp s s' h
    exact ⟨by omega, Or.inl h1⟩
  · have h1 := op_INC_sp s s' h
    exact ⟨by omega, Or.inl h1⟩
  · have h1 := op_DEC_sp s s' h
    exact ⟨by omega, Or.inl h1⟩
  · have h1 := op_CMP_sp s s' h
    exact ⟨by omega, Or.inl h1⟩
  · have h1 := op_COMMENT_sp s s' h
    exact ⟨by omega, Or.inl h1⟩
  · have h1 := op_PUTC_sp s s' h
    exact ⟨by omega, Or.inl h1⟩
  · have h1 := op_PUTN_sp s s' h
    exact ⟨by omega, Or.inl h1⟩
  · have h1 := op_GETC_sp s s' h
    exact ⟨by omega, Or.inl h1⟩
  · rcases op_RET_sp s s' h hsp with h1 | h1
    · exact ⟨by omega, Or.inl h1⟩
    · exact ⟨by omega, Or.inr (Or.inr ⟨h1, Or.inr rfl⟩)⟩
  · have h1 := op_ADD_sp s s' h
    exact ⟨by omega, Or.inl h1⟩
  · have h1 := op_SUB_sp s s' h
    exact ⟨by omega, Or.inl h1⟩
  · have h1 := op_MUL_sp s s' h
    exact ⟨by omega, Or.inl h1⟩
  · have h1 := op_DIV_sp s s' h
    exact ⟨by omega, Or.inl h1⟩
  · have h1 := op_SHL_sp s s' h
    exact ⟨by omega, Or.inl h1⟩
  · have h1 := op_SHR_sp s s' h
    exact ⟨by omega, Or.inl h1⟩
  · have h1 := op_POKE16_sp s s' h
    exact ⟨by omega, Or.inl h1⟩
  · have h1 := op_MOVE16_sp s s' h
    exact ⟨by omega, Or.inl h1⟩
  · have h1 := op_JMP16_sp s s' h
    exact ⟨by omega, Or.inl h1⟩
  · have h1 := op_JZ16_sp s s' h
    exact ⟨by omega, Or.inl h1⟩
  · rcases op_RUN16_sp s s' h with h1 | ⟨h1, h2⟩
    · exact ⟨by omega, Or.inl h1⟩
    · exact ⟨by omega, Or.inr (Or.inl ⟨h1, Or.inr rfl⟩)⟩
  · injection h with h
    subst h
    exact ⟨hsp, Or.inl rfl⟩

theorem exec_opcode_msg (opcode : Nat) (s s' : VM) (h : exec_opcode opcode s = Except.ok s') :
    s'.stderr = s.stderr
    ∨ ∃ f, f ≠ Fault.invalid_address ∧ s'.stderr = s.stderr ++ [f] := by
  unfold exec_opcode at h
  split at h
  · injection h with h
    subst h
    exact Or.inl rfl
  · exact op_POKE_msg s s' h
  · exact op_MOVE_msg s s' h
  · exact op_NOT_msg s s' h
  · exact op_NAND_msg s s' h
  · exact op_JMP_msg s s' h
  · exact op_JZ_msg s s' h
  · exact op_RUN_msg s s' h
  · exact op_HALT_msg s s' h
  · exact op_AND_msg s s' h
  · exact op_OR_msg s s' h
  · exact op_XOR_msg s s' h
  · exact op_INC_msg s s' h
  · exact op_DEC_msg s s' h
  · exact op_CMP_msg s s' h
  · exact op_COMMENT_msg s s' h
  · exact op_PUTC_msg s s' h
  · exact op_PUTN_msg s s' h
  · exact op_GETC_msg s s' h
  · exact op_RET_msg s s' h
  · exact op_ADD_msg s s' h
  · exact op_SUB_msg s s' h
  · exact op_MUL_msg s s' h
  · exact op_DIV_msg s s' h
  · exact op_SHL_msg s s' h
  · exact op_SHR_msg s s' h
  · exact op_POKE16_msg s s' h
  · exact op_MOVE16_msg s s' h
  · exact op_JMP16_msg s s' h
  · exact op_JZ16_msg s s' h
  · exact op_RUN16_msg s s' h
  · injection h with h
    subst h
    exact Or.inr ⟨Fault.unknown_opcode, by decide, rfl⟩

theorem step_cases (s t : VM) (h : step s = Except.ok t) :
    t = fault { s with instruction_count := u32 (s.instruction_count + 1) } Fault.instruction_limit
    ∨ t = fault { s with instruction_count := u32 (s.instruction_count + 1) } Fault.ip_out_of_bounds
    ∨ (s.ip < 65536
      ∧ exec_opcode (s.memory s.ip).val
          { s with instruction_count := u32 (s.instruction_count + 1) } = Except.ok t) := by
  unfold step at h
  simp only [] at h
  split at h
  · injection h with h
    exact Or.inl h.symm
  · split at h
    · injection h with h
      exact Or.inr (Or.inl h.symm)
    · rename_i _ hv
      have hip : s.ip < 65536 := by
        simpa [is_valid_address, MEMORY_SIZE] using hv
      simp only [mem_read, MEMORY_SIZE, hip, if_true, bind, Except.bind] at h
      exact Or.inr (Or.inr ⟨hip, h⟩)

theorem step_sp (s t : VM) (h : step s = Except.ok t) (hsp : s.stack_pointer ≤ 64) :
    t.stack_pointer ≤ 64
    ∧ (t.stack_pointer = s.stack_pointer
      ∨ (t.stack_pointer = s.stack_pointer + 1
          ∧ ((s.memory s.ip).val = OP_RUN ∨ (s.memory s.ip).val = OP_RUN16))
      ∨ (t.stack_pointer + 1 = s.stack_pointer
          ∧ ((s.memory s.ip).val = OP_HALT ∨ (s.memory s.ip).val = OP_RET))) := by
  rcases step_cases s t h with rfl | rfl | ⟨_, hcase⟩
  · exact ⟨hsp, Or.inl rfl⟩
  · exact ⟨hsp, Or.inl rfl⟩
  · exact exec_opcode_sp _ { s with instruction_count := u32 (s.instruction_count + 1) } t
      hcase hsp

theorem step_msg (s t : VM) (h : step s = Except.ok t) :
    t.stderr = s.stderr
    ∨ ∃ f, f ≠ Fault.invalid_address ∧ t.stderr = s.stderr ++ [f] := by
  rcases step_cases s t h with rfl | rfl | ⟨_, hcase⟩
  · exact Or.inr ⟨Fault.instruction_limit, by decide, rfl⟩
  · exact Or.inr ⟨Fault.ip_out_of_bounds, by decide, rfl⟩
  · exact exec_opcode_msg _ { s with instruction_count := u32 (s.instruction_count + 1) } t
      hcase

theorem run_steps_sp (n : Nat) :
    ∀ s : VM, s.stack_pointer ≤ 64 →
      ∃ t, run_steps n s = Except.ok t ∧ t.stack_pointer ≤ 64 := by
  induction n with
  | zero => intro s hsp; exact ⟨s, rfl, hsp⟩
  | succ n ih =>
    intro s hsp
    by_cases hs : s.running = true
    · obtain ⟨t, ht⟩ := step_returns s hsp
      rw [run_steps_succ n ht hs]
      exact ih t (step_sp s t ht hsp).1
    · have hs' : s.running = false := by simpa using hs
      exact ⟨s, run_steps_stopped _ s hs', hsp⟩

theorem run_steps_msg (n : Nat) :
    ∀ s t : VM, run_steps n s = Except.ok t →
      Fault.invalid_address ∈ t.stderr → Fault.invalid_address ∈ s.stderr := by
  induction n with
  | zero =>
    intro s t h hin
    simp only [run_steps, pure, Except.pure] at h
    injection h with h
    subst h
    exact hin
  | succ n ih =>
    intro s t h hin
    by_cases hs : s.running = true
    · cases hstep : step s with
      | error e => simp [run_steps, hs, hstep, bind, Except.bind] at h
      | ok u =>
        rw [run_steps_succ n hstep hs] at h
        have hu := ih u t h hin
        rcases step_msg s u hstep with he | ⟨f, hf, he⟩
        · rwa [he] at hu
        · rw [he, List.mem_append, List.mem_singleton] at hu
          rcases hu with hu | hu
          · exact hu
          · exact absurd hu.symm hf
    · have hs' : s.running = false := by simpa using hs
      rw [run_steps_stopped _ s hs'] at h
      injection h with h
      subst h
      exact hin

theorem run_loop_some (fuel : Nat) :
    ∀ (s : VM) (r : Except Undefined VM), run_loop fuel s = some r → run_steps fuel s = r := by
  induction fuel with
  | zero =>
    intro s r h
    by_cases hs : s.running = true
    · simp [run_loop, hs] at h
    · have hs' : s.running = false := by simpa using hs
      rw [run_loop_stopped _ s hs'] at h
      simp only [Option.some.injEq] at h
      subst h
      rfl
  | succ n ih =>
    intro s r h
    by_cases hs : s.running = true
    · cases hstep : step s with
      | error e =>
        simp only [run_loop, hs, hstep, if_true, Option.some.injEq] at h
        subst h
        simp [run_steps, hs, hstep, bind, Except.bind]
      | ok t =>
        rw [run_loop_succ n hstep hs] at h
        rw [run_steps_succ n hstep hs]
        exact ih t r h
    · have hs' : s.running = false := by simpa using hs
      rw [run_loop_stopped _ s hs'] at h
      simp only [Option.some.injEq] at h
      subst h
      exact run_steps_stopped _ s hs'

/-- C24: for a machine state with stack pointer in 0..64: every case of the
switch and every loop iteration that returns a state leaves the stack pointer
in 0..64 and changes it by at most one, upward only for `RUN` / `RUN16` and
downward only for `HALT` / `RET`; a loop iteration always returns a state; and
every run of the loop, of any length, returns a state with stack pointer in
0..64, so no subscript of `call_stack` ever leaves its 64 slots. -/
theorem stack_pointer_invariant (s : VM) (hsp : s.stack_pointer ≤ 64) :
    (∀ opcode, ∃ s', exec_opcode opcode s = Except.ok s')
    ∧ (∀ opcode s', exec_opcode opcode s = Except.ok s' →
        s'.stack_pointer ≤ 64
        ∧ (s'.stack_pointer = s.stack_pointer
          ∨ (s'.stack_pointer = s.stack_pointer + 1 ∧ (opcode = OP_RUN ∨ opcode = OP_RUN16))
          ∨ (s'.stack_pointer + 1 = s.stack_pointer ∧ (opcode = OP_HALT ∨ opcode = OP_RET))))
    ∧ (∃ t, step s = Except.ok t)
    ∧ (∀ t, step s = Except.ok t →
        t.stack_pointer ≤ 64
        ∧ (t.stack_pointer = s.stack_pointer
          ∨ (t.stack_pointer = s.stack_pointer + 1
              ∧ ((s.memory s.ip).val = OP_RUN ∨ (s.memory s.ip).val = OP_RUN16))
          ∨ (t.stack_pointer + 1 = s.stack_pointer
              ∧ ((s.memory s.ip).val = OP_HALT ∨ (s.memory s.ip).val = OP_RET))))
    ∧ (∀ n, ∃ t, run_steps n s = Except.ok t ∧ t.stack_pointer ≤ 64)
    ∧ (∀ fuel start r, execute fuel start s = some r →
        ∃ t, r = Except.ok t ∧ t.stack_pointer ≤ 64) := by
  refine ⟨fun opcode => ?_, fun opcode s' h => exec_opcode_sp opcode s s' h hsp,
    step_returns s hsp, fun t h => step_sp s t h hsp, fun n => run_steps_sp n s hsp,
    fun fuel start r h => ?_⟩
  · rcases exec_opcode_total opcode s with ⟨s', h, _⟩ | ⟨j, _, h⟩
    · exact ⟨s', h⟩
    · omega
  · rw [execute_eq_run_loop] at h
    have hr := run_loop_some fuel _ r h
    obtain ⟨t, ht, htsp⟩ := run_steps_sp fuel { s with ip := start.val, running := true } hsp
    rw [ht] at hr
    exact ⟨t, hr.symm, htsp⟩

/-- Witness for C24: the reset machine running `JMP 0x00`. -/
theorem stack_pointer_invariant_witness :
    jmp_forever.stack_pointer ≤ 64
    ∧ (∃ t, step jmp_forever = Except.ok t)
    ∧ ∃ t, run_steps 1000 jmp_forever = Except.ok t ∧ t.stack_pointer ≤ 64 :=
  ⟨by decide, (stack_pointer_invariant jmp_forever (by decide)).2.2.1,
    (stack_pointer_invariant jmp_forever (by decide)).2.2.2.2.1 1000⟩

/-! ### 16-bit addresses -/

theorem addr16_val (hi lo : Fin 256) : (addr16 hi lo).val = 256 * hi.val + lo.val := by
  have h1 : hi.val <<< 8 = 2 ^ 8 * hi.val := by rw [Nat.shiftLeft_eq, Nat.mul_comm]
  have h2 : 2 ^ 8 * hi.val + lo.val = 2 ^ 8 * hi.val ||| lo.val :=
    Nat.mul_add_lt_is_or (by have := lo.isLt; omega) hi.val
  have hh := hi.isLt
  have hl := lo.isLt
  simp only [addr16, u16, h1, ← h2]
  omega

/-- C26: a `MOVE16` at `ip` with `ip + 5 <= 65536` and operand bytes
`s_hi s_lo d_hi d_lo` never faults: the case writes no message and keeps the
machine running, stores at address `256 * d_hi + d_lo` the byte that address
`256 * s_hi + s_lo` held before, leaves every other byte of memory unchanged
and moves the instruction pointer to `ip + 5`; a loop iteration fetching
`MOVE16` returns the same state with the counter incremented. -/
theorem move16_copies (s : VM) (hfit : s.ip + 5 ≤ 65536) :
    ∃ s', exec_opcode OP_MOVE16 s = Except.ok s'
      ∧ s'.running = s.running ∧ s'.stderr = s.stderr
      ∧ s'.memory (256 * (s.memory (s.ip + 3)).val + (s.memory (s.ip + 4)).val)
          = s.memory (256 * (s.memory (s.ip + 1)).val + (s.memory (s.ip + 2)).val)
      ∧ (∀ i, i ≠ 256 * (s.memory (s.ip + 3)).val + (s.memory (s.ip + 4)).val →
          s'.memory i = s.memory i)
      ∧ s'.ip = s.ip + 5
      ∧ ((s.memory s.ip).val = OP_MOVE16 → s.instruction_count < 1000000 →
          step s = Except.ok { s' with instruction_count := s.instruction_count + 1 }) := by
  have hg : ensure_operands s.ip 5 = true := ensure_operands_fits hfit (by decide)
  have hd := addr16_val (s.memory (s.ip + 3)) (s.memory (s.ip + 4))
  have hs := addr16_val (s.memory (s.ip + 1)) (s.memory (s.ip + 2))
  refine ⟨_, op_MOVE16_ok s hg, rfl, rfl, ?_, fun i hi => ?_, ?_, fun hfetch hc => ?_⟩
  · show Function.update s.memory _ _ _ = _
    rw [hd, hs, Function.update_same]
  · show Function.update s.memory _ _ _ = _
    rw [hd]
    exact Function.update_noteq hi _ _
  · simp only [u32]
    omega
  · rw [step_dispatch s hc (by omega), hfetch]
    exact op_MOVE16_ok { s with instruction_count := s.instruction_count + 1 } hg

/-- Witness for C26: `MOVE16 00 10 01 00` copies the byte 0x5A from address
0x0010 to address 0x0100. -/
theorem move16_copies_witness :
    move16_machine.ip + 5 ≤ 65536
    ∧ ∃ s', exec_opcode OP_MOVE16 move16_machine = Except.ok s'
        ∧ s'.memory (256 * 1 + 0) = move16_machine.memory (256 * 0 + 0x10)
        ∧ (s'.memory 0x100).val = 0x5A ∧ s'.ip = 5 :=
  ⟨by decide,
    (move16_copies move16_machine (by decide)).imp fun _ h =>
      ⟨h.1, h.2.2.2.1, (congrArg Fin.val h.2.2.2.1).trans (by decide), h.2.2.2.2.2.1⟩⟩

/-- C27: `is_valid_address` is true of every 16-bit address, so the start
address check of `execute` never fires and, from a state whose messages do not
already contain one, no run of the loop and no run of `execute` ever writes the
invalid-address message. A `POKE16`, `MOVE16`, `JMP16`, `JZ16` or `RUN16` whose
operand bytes lie inside memory writes no message and keeps the machine
running, except `RUN16` on a full stack, which stops with the stack-overflow
message. -/
theorem invalid_address_unreachable (s : VM) (start : Fin 65536)
    (hclean : Fault.invalid_address ∉ s.stderr) :
    (∀ a : Fin 65536, is_valid_address a.val = true)
    ∧ (∀ fuel, execute fuel start s
        = run_loop fuel { s with ip := start.val, running := true })
    ∧ (∀ n t, run_steps n s = Except.ok t → Fault.invalid_address ∉ t.stderr)
    ∧ (∀ fuel t, execute fuel start s = some (Except.ok t) →
        Fault.invalid_address ∉ t.stderr)
    ∧ (∀ opcode, opcode ∈ wide_opcodes → s.ip + operand_width opcode ≤ 65536 →
        ∃ s', exec_opcode opcode s = Except.ok s'
          ∧ ((s'.stderr = s.stderr ∧ s'.running = s.running)
            ∨ (opcode = OP_RUN16 ∧ 64 ≤ s.stack_pointer
                ∧ s'.stderr = s.stderr ++ [Fault.stack_overflow] ∧ s'.running = false))) := by
  refine ⟨is_valid_address_addr, fun fuel => execute_eq_run_loop fuel start s,
    fun n t h hin => hclean (run_steps_msg n s t h hin), fun fuel t h hin => ?_,
    fun opcode hop hfit => ?_⟩
  · rw [execute_eq_run_loop] at h
    exact hclean (run_steps_msg fuel { s with ip := start.val, running := true } t
      (run_loop_run_steps fuel _ t h).1 hin)
  · simp only [wide_opcodes, List.mem_cons, List.mem_singleton, List.not_mem_nil, or_false,
      OP_POKE16, OP_MOVE16, OP_JMP16, OP_JZ16, OP_RUN16] at hop
    rcases hop with rfl | rfl | rfl | rfl | rfl
    · exact ⟨_, op_POKE16_ok s (ensure_operands_fits hfit (by decide)), Or.inl ⟨rfl, rfl⟩⟩
    · exact ⟨_, op_MOVE16_ok s (ensure_operands_fits hfit (by decide)), Or.inl ⟨rfl, rfl⟩⟩
    · exact ⟨_, op_JMP16_ok s (ensure_operands_fits hfit (by decide)), Or.inl ⟨rfl, rfl⟩⟩
    · exact ⟨_, op_JZ16_ok s (ensure_operands_fits hfit (by decide)), Or.inl ⟨rfl, rfl⟩⟩
    · refine ⟨_, op_RUN16_ok s (ensure_operands_fits hfit (by decide)), ?_⟩
      by_cases hsp : s.stack_pointer < 64
      · rw [if_pos hsp]
        exact Or.inl ⟨rfl, rfl⟩
      · rw [if_neg hsp]
        exact Or.inr ⟨rfl, by omega, rfl, rfl⟩

/-- Witness for C27: `JMP16 FF FF` at address 0 of the reset machine. -/
theorem invalid_address_unreachable_witness :
    Fault.invalid_address ∉ (boot (image 0 [OP_JMP16, 0xFF, 0xFF])).stderr
    ∧ is_valid_address (0xFFFF : Fin 65536).val = true
    ∧ ∃ s', exec_opcode OP_JMP16 (boot (image 0 [OP_JMP16, 0xFF, 0xFF])) = Except.ok s'
        ∧ s'.stderr = [] :=
  ⟨by decide,
    (invalid_address_unreachable (boot (image 0 [OP_JMP16, 0xFF, 0xFF])) 0 (by decide)).1 0xFFFF,
    ((invalid_address_unreachable (boot (image 0 [OP_JMP16, 0xFF, 0xFF])) 0
      (by decide)).2.2.2.2 OP_JMP16 (by decide) (by decide)).imp
        fun _ h => ⟨h.1, h.2.elim (fun h2 => h2.1) (fun h2 => absurd h2.1 (by decide))⟩⟩

/-! ### Termination -/

theorem run_loop_terminates (n : Nat) :
    ∀ s : VM, (s.running = true → s.instruction_count ≤ 1000000
        ∧ 1000001 ≤ s.instruction_count + n) →
      ∃ r, run_loop n s = some r := by
  induction n with
  | zero =>
    intro s h
    by_cases hs : s.running = true
    · have := h hs
      omega
    · exact ⟨_, run_loop_stopped 0 s (by simpa using hs)⟩
  | succ n ih =>
    intro s h
    by_cases hs : s.running = true
    · obtain ⟨hle, hge⟩ := h hs
      cases hstep : step s with
      | error e => exact ⟨Except.error e, by simp [run_loop, hs, hstep]⟩
      | ok t =>
        rw [run_loop_succ n hstep hs]
        have hc := step_count s t hle hstep
        refine ih t (fun ht => ?_)
        have hne : s.instruction_count ≠ 1000000 := by
          intro heq
          rw [hc.2 heq] at ht
          cases ht
        omega
    · exact ⟨_, run_loop_stopped _ s (by simpa using hs)⟩

/-- C28: started with the instruction counter at 0, `execute` terminates
within 1,000,001 iterations of its loop: with that fuel or more it returns a
result for every memory image, start address and input stream. Every iteration
entered with a counter of at most 1,000,000 increments the counter by one, and
the iteration entered at exactly 1,000,000 stops the run. With a stack pointer
in 0..64 (as after reset) the result is a stopped state whose counter is at
most 1,000,001. -/
theorem execute_terminates (s : VM) (start : Fin 65536) (fuel : Nat)
    (h0 : s.instruction_count = 0) (hf : 1000001 ≤ fuel) :
    (∃ r, execute fuel start s = some r)
    ∧ (∃ r, execute 1000001 start s = some r)
    ∧ (∀ u t : VM, u.instruction_count ≤ 1000000 → step u = Except.ok t →
        t.instruction_count = u.instruction_count + 1
        ∧ (u.instruction_count = 1000000 → t.running = false))
    ∧ (s.stack_pointer ≤ 64 →
        ∃ t, execute fuel start s = some (Except.ok t) ∧ t.running = false
          ∧ t.instruction_count ≤ 1000001) := by
  have hterm : ∀ k, 1000001 ≤ k → ∃ r, execute k start s = some r := by
    intro k hk
    rw [execute_eq_run_loop]
    refine run_loop_terminates k _ (fun _ => ?_)
    show s.instruction_count ≤ 1000000 ∧ 1000001 ≤ s.instruction_count + k
    omega
  refine ⟨hterm fuel hf, hterm 1000001 (Nat.le_refl _), fun u t hle hstep => ?_, fun hsp => ?_⟩
  · have hc := step_count u t hle hstep
    refine ⟨hc.1, fun heq => ?_⟩
    rw [hc.2 heq]
    rfl
  · obtain ⟨r, hr⟩ := hterm fuel hf
    have hr' := hr
    rw [execute_eq_run_loop] at hr'
    have hsteps := run_loop_some fuel _ r hr'
    obtain ⟨t, ht, _⟩ := run_steps_sp fuel { s with ip := start.val, running := true } hsp
    rw [ht] at hsteps
    subst hsteps
    have hstop := (run_loop_run_steps fuel _ t hr').2
    have hb := run_steps_bound fuel { s with ip := start.val, running := true } t ht
      (fun _ => by show s.instruction_count ≤ 1000000; omega)
      (fun hrun => by cases hrun)
    refine ⟨t, hr, hstop, ?_⟩
    rcases hb.2 hstop with h1 | ⟨h1, _⟩ <;> omega

/-- Witness for C28: the endless program `JMP 0x00` is stopped by the watchdog. -/
theorem execute_terminates_witness :
    jmp_forever.instruction_count = 0 ∧ 1000001 ≤ 1000001
    ∧ ∃ r, execute 1000001 0 jmp_forever = some r :=
  ⟨rfl, by decide, (execute_terminates jmp_forever 0 1000001 rfl (by decide)).1⟩

/-! ### The loader: one character -/

theorem hex_digit_of_isxdigit {ch : Nat} (h : isxdigit ch = true) :
    ∃ v, hex_digit ch = some v ∧ v ≤ 15 := by
  simp only [isxdigit, Bool.or_eq_true, Bool.and_eq_true, decide_eq_true_eq] at h
  unfold hex_digit
  split
  · exact ⟨_, rfl, by omega⟩
  · split
    · exact ⟨_, rfl, by omega⟩
    · split
      · exact ⟨_, rfl, by omega⟩
      · omega

theorem hex_value_le (ch : Nat) : hex_value ch ≤ 15 := by
  unfold hex_value hex_digit
  split
  · show ch - 48 ≤ 15
    omega
  · split
    · show ch - 55 ≤ 15
      omega
    · split
      · show ch - 87 ≤ 15
        omega
      · exact Nat.zero_le _

theorem sscanf_hex_digits {c0 c1 : Nat} (h0 : isxdigit c0 = true) (h1 : isxdigit c1 = true) :
    sscanf_hex c0 c1 = some (16 * hex_value c0 + hex_value c1) := by
  obtain ⟨v0, e0, _⟩ := hex_digit_of_isxdigit h0
  obtain ⟨v1, e1, _⟩ := hex_digit_of_isxdigit h1
  simp [sscanf_hex, hex_value, e0, e1]

theorem isspace_not_isxdigit {ch : Nat} (h : isxdigit ch = true) : isspace ch = false := by
  simp only [isxdigit, Bool.or_eq_true, Bool.and_eq_true, decide_eq_true_eq] at h
  simp only [isspace, Bool.or_eq_false_iff, Bool.and_eq_false_iff, decide_eq_false_iff_not]
  omega

theorem load_char_comment (ch : Nat) (l : LoadState) (s : VM)
    (h : (ch = 59 || ch = 35) = true) :
    load_char ch l s = Except.ok (LoadStep.next { l with in_comment := true } s) := by
  simp only [load_char, h, if_true]
  rfl

theorem load_char_newline (l : LoadState) (s : VM) :
    load_char 10 l s = Except.ok (LoadStep.next { l with in_comment := false } s) := by
  simp [load_char, pure, Except.pure]

theorem load_char_skipped (ch : Nat) (l : LoadState) (s : VM)
    (h1 : (ch = 59 || ch = 35) = false) (h2 : ch ≠ 10)
    (h : l.in_comment = true ∨ isspace ch = true) :
    load_char ch l s = Except.ok (LoadStep.next l s) := by
  rcases h with h | h
  · simp [load_char, h1, h2, h, pure, Except.pure]
  · cases hc : l.in_comment <;> simp [load_char, h1, h2, h, hc, pure, Except.pure]

theorem load_char_first_digit (ch : Nat) (l : LoadState) (s : VM)
    (h1 : (ch = 59 || ch = 35) = false) (h2 : ch ≠ 10) (h3 : l.in_comment = false)
    (h4 : isxdigit ch = true) (hpos : l.hex_pos = 0) :
    load_char ch l s = Except.ok (LoadStep.next
      { l with hex_buf := Function.update l.hex_buf 0 ch, hex_pos := 1 } s) := by
  simp [load_char, h1, h2, h3, h4, isspace_not_isxdigit h4, hpos, pure, Except.pure]

theorem load_char_second_digit (ch : Nat) (l : LoadState) (s : VM)
    (h1 : (ch = 59 || ch = 35) = false) (h2 : ch ≠ 10) (h3 : l.in_comment = false)
    (h4 : isxdigit ch = true) (hpos : l.hex_pos = 1) (hbuf : isxdigit (l.hex_buf 0) = true)
    (haddr : l.addr < 65536) :
    load_char ch l s = Except.ok (LoadStep.next
      { l with hex_buf := Function.update l.hex_buf 1 ch, addr := l.addr + 1, hex_pos := 0 }
      { s with memory := Function.update s.memory l.addr
                 (u8 (16 * hex_value (l.hex_buf 0) + hex_value ch)) }) := by
  have hv0 := hex_value_le (l.hex_buf 0)
  have hv1 := hex_value_le ch
  have hle : ¬ (255 < 16 * hex_value (l.hex_buf 0) + hex_value ch) := by omega
  have hfull : ¬ (MEMORY_SIZE ≤ l.addr) := by unfold MEMORY_SIZE; omega
  have hu : u32 (l.addr + 1) = l.addr + 1 := by unfold u32; omega
  have hs := sscanf_hex_digits hbuf h4
  obtain ⟨addr, ic, buf, pos⟩ := l
  simp only [] at h3 hpos hbuf haddr hle hfull hu hs
  subst hpos
  subst h3
  simp [load_char, h1, h2, h4, isspace_not_isxdigit h4, hs, hle, hfull, hu,
    mem_write_eq _ _ _ haddr, bind, Except.bind, pure, Except.pure]

theorem load_char_memory_full (ch : Nat) (l : LoadState) (s : VM)
    (h1 : (ch = 59 || ch = 35) = false) (h2 : ch ≠ 10) (h3 : l.in_comment = false)
    (h4 : isxdigit ch = true) (hpos : l.hex_pos = 1) (hbuf : isxdigit (l.hex_buf 0) = true)
    (haddr : 65536 ≤ l.addr) :
    load_char ch l s = Except.ok (LoadStep.stop
      { l with hex_buf := Function.update l.hex_buf 1 ch, hex_pos := 2 }
      (report s Fault.memory_full)) := by
  have hv0 := hex_value_le (l.hex_buf 0)
  have hv1 := hex_value_le ch
  have hle : ¬ (255 < 16 * hex_value (l.hex_buf 0) + hex_value ch) := by omega
  have hfull : MEMORY_SIZE ≤ l.addr := by unfold MEMORY_SIZE; omega
  have hs := sscanf_hex_digits hbuf h4
  obtain ⟨addr, ic, buf, pos⟩ := l
  simp only [] at h3 hpos hbuf haddr hle hfull hs
  subst hpos
  subst h3
  simp [load_char, h1, h2, h4, isspace_not_isxdigit h4, hs, hle, hfull,
    pure, Except.pure]

theorem outside_comments_comment (c : Bool) (ch : Nat) (rest : List Nat)
    (h : (ch = 59 || ch = 35) = true) :
    outside_comments c (ch :: rest) = outside_comments true rest := by
  simp only [outside_comments, h, if_true]

theorem outside_comments_newline (c : Bool) (rest : List Nat) :
    outside_comments c (10 :: rest) = 10 :: outside_comments false rest := by
  simp [outside_comments]

theorem outside_comments_inside (ch : Nat) (rest : List Nat)
    (h1 : (ch = 59 || ch = 35) = false) (h2 : ch ≠ 10) :
    outside_comments true (ch :: rest) = outside_comments true rest := by
  simp [outside_comments, h1, h2]

theorem outside_comments_outside (ch : Nat) (rest : List Nat)
    (h1 : (ch = 59 || ch = 35) = false) (h2 : ch ≠ 10) :
    outside_comments false (ch :: rest) = ch :: outside_comments false rest := by
  simp [outside_comments, h1, h2]

theorem load_loop_next (ch : Nat) (rest : List Nat) {l l1 : LoadState} {s s1 : VM}
    (h : load_char ch l s = Except.ok (LoadStep.next l1 s1)) :
    load_loop (ch :: rest) l s = load_loop rest l1 s1 := by
  simp [load_loop, h, bind, Except.bind]

theorem load_loop_stop (ch : Nat) (rest : List Nat) {l l1 : LoadState} {s s1 : VM}
    (h : load_char ch l s = Except.ok (LoadStep.stop l1 s1)) :
    load_loop (ch :: rest) l s = Except.ok (some l1, s1) := by
  simp [load_loop, h, bind, Except.bind, pure, Except.pure]

theorem store_pairs_below : ∀ (ds : List Nat) (addr : Nat) (m : Nat → Fin 256) (i : Nat),
    i < addr → store_pairs addr ds m i = m i
  | [], _, _, _, _ => rfl
  | [_], _, _, _, _ => rfl
  | a :: b :: rest, addr, m, i, h => by
    rw [store_pairs, store_pairs_below rest (addr + 1) _ i (by omega)]
    exact Function.update_noteq (by omega) _ _

theorem store_pairs_value : ∀ (ds : List Nat) (addr : Nat) (m : Nat → Fin 256) (i : Nat),
    store_pairs addr ds m i
      = if addr ≤ i ∧ i < addr + ds.length / 2 then u8 ((decode_pairs ds).getD (i - addr) 0)
        else m i
  | [], addr, _, i => by
    rw [if_neg (fun h => absurd h.2 (by simp; omega))]
    rfl
  | [_], addr, _, i => by
    rw [if_neg (fun h => absurd h.2 (by simp; omega))]
    rfl
  | a :: b :: rest, addr, m, i => by
    rw [store_pairs, store_pairs_value rest (addr + 1) _ i]
    have hlen : (a :: b :: rest).length / 2 = rest.length / 2 + 1 := by
      simp only [List.length_cons]
      omega
    rw [hlen]
    by_cases h1 : addr + 1 ≤ i
    · by_cases h2 : i < addr + 1 + rest.length / 2
      · have e : i - addr = (i - (addr + 1)) + 1 := by omega
        rw [if_pos ⟨h1, h2⟩, if_pos ⟨by omega, by omega⟩, e]
        simp [decode_pairs]
      · rw [if_neg (fun h => h2 h.2), if_neg (fun h => h2 (by omega))]
        exact Function.update_noteq (by omega) _ _
    · rw [if_neg (fun h => h1 h.1)]
      by_cases h3 : i = addr
      · subst h3
        rw [if_pos ⟨le_refl _, by omega⟩, Function.update_same]
        simp [decode_pairs]
      · rw [if_neg (fun h => h3 (by omega))]
        exact Function.update_noteq h3 _ _

theorem decode_pairs_lt : ∀ (ds : List Nat) (i : Nat), (decode_pairs ds).getD i 0 < 256
  | [], i => by simp [decode_pairs]
  | [_], i => by simp [decode_pairs]
  | a :: b :: rest, 0 => by
    have ha := hex_value_le a
    have hb := hex_value_le b
    simp only [decode_pairs, List.getD_cons_zero]
    omega
  | a :: b :: rest, i + 1 => by
    simp only [decode_pairs, List.getD_cons_succ]
    exact decode_pairs_lt rest i

theorem load_loop_memory_full (text : List Nat) :
    ∀ (l : LoadState) (s : VM) (P : List Nat),
      ((l.hex_pos = 0 ∧ P = [])
        ∨ (l.hex_pos = 1 ∧ P = [l.hex_buf 0] ∧ isxdigit (l.hex_buf 0) = true)) →
      l.addr ≤ 65536 →
      well_formed_from l.in_comment text →
      131074 ≤ 2 * l.addr + P.length + (digits_from l.in_comment text).length →
      ∃ l' m', load_loop text l s
          = Except.ok (some l', report { s with memory := m' } Fault.memory_full)
        ∧ l'.hex_pos = 2
        ∧ ∀ i, i < 65536 →
            m' i = store_pairs l.addr (P ++ digits_from l.in_comment text) s.memory i := by
  induction text with
  | nil =>
    intro l s P hP hle _ hbound
    have hlen : P.length ≤ 1 := by
      rcases hP with ⟨_, rfl⟩ | ⟨_, rfl, _⟩ <;> simp
    simp [digits_from, outside_comments] at hbound
    omega
  | cons ch rest ih =>
    intro l s P hP hle hwf hbound
    by_cases hc : (ch = 59 || ch = 35) = true
    · have hoc := outside_comments_comment l.in_comment ch rest hc
      have hd : digits_from l.in_comment (ch :: rest) = digits_from true rest := by
        simp only [digits_from, hoc]
      have hw : well_formed_from l.in_comment (ch :: rest) ↔ well_formed_from true rest := by
        simp only [well_formed_from, hoc]
      rw [hd] at hbound ⊢
      rw [load_loop_next ch rest (load_char_comment ch l s hc)]
      exact ih { l with in_comment := true } s P hP hle (hw.1 hwf) hbound
    · have hc' : (ch = 59 || ch = 35) = false := by simpa using hc
      by_cases hn : ch = 10
      · subst hn
        have hoc := outside_comments_newline l.in_comment rest
        have hd : digits_from l.in_comment (10 :: rest) = digits_from false rest := by
          simp [digits_from, hoc, isxdigit]
        have hw : well_formed_from l.in_comment (10 :: rest) ↔ well_formed_from false rest := by
          simp [well_formed_from, hoc, isspace]
        rw [hd] at hbound ⊢
        rw [load_loop_next 10 rest (load_char_newline l s)]
        exact ih { l with in_comment := false } s P hP hle (hw.1 hwf) hbound
      · cases hin : l.in_comment with
        | true =>
          rw [hin] at hbound hwf
          have hoc := outside_comments_inside ch rest hc' hn
          have hd : digits_from true (ch :: rest) = digits_from true rest := by
            simp only [digits_from, hoc]
          have hw : well_formed_from true (ch :: rest) ↔ well_formed_from true rest := by
            simp only [well_formed_from, hoc]
          rw [hd] at hbound ⊢
          rw [load_loop_next ch rest (load_char_skipped ch l s hc' hn (Or.inl hin))]
          have := ih l s P hP hle (by rw [hin]; exact hw.1 hwf) (by rw [hin]; exact hbound)
          rw [hin] at this
          exact this
        | false =>
          rw [hin] at hbound hwf
          have hoc := outside_comments_outside ch rest hc' hn
          cases hx : isxdigit ch with
          | false =>
            have hd : digits_from false (ch :: rest) = digits_from false rest := by
              simp [digits_from, hoc, hx]
            have hsp : isspace ch = true := by
              have := hwf ch (by rw [hoc]; exact List.mem_cons_self _ _)
              rw [hx] at this
              simpa using this
            have hw : well_formed_from false (ch :: rest) ↔ well_formed_from false rest := by
              simp [well_formed_from, hoc, hsp]
            rw [hd] at hbound ⊢
            rw [load_loop_next ch rest (load_char_skipped ch l s hc' hn (Or.inr hsp))]
            have := ih l s P hP hle (by rw [hin]; exact hw.1 hwf) (by rw [hin]; exact hbound)
            rw [hin] at this
            exact this
          | true =>
            have hd : digits_from false (ch :: rest) = ch :: digits_from false rest := by
              simp [digits_from, hoc, hx]
            have hw : well_formed_from false (ch :: rest) ↔ well_formed_from false rest := by
              simp [well_formed_from, hoc, hx]
            rw [hd] at hbound ⊢
            simp only [List.length_cons] at hbound
            rcases hP with ⟨h0, rfl⟩ | ⟨h1, rfl, hbuf⟩
            · rw [load_loop_next ch rest (load_char_first_digit ch l s hc' hn hin hx h0)]
              have := ih { l with hex_buf := Function.update l.hex_buf 0 ch, hex_pos := 1 } s [ch]
                (Or.inr ⟨rfl, by simp, by simpa using hx⟩) hle
                (by simp only [hin]; exact hw.1 hwf)
                (by simp only [hin, List.length_singleton]; simp at hbound; omega)
              simp only [hin] at this
              simp only [hin, List.nil_append]
              simp only [List.singleton_append] at this
              exact this
            · by_cases haddr : l.addr < 65536
              · rw [load_loop_next ch rest
                  (load_char_second_digit ch l s hc' hn hin hx h1 hbuf haddr)]
                have := ih
                  { l with hex_buf := Function.update l.hex_buf 1 ch, addr := l.addr + 1,
                           hex_pos := 0 }
                  { s with memory := Function.update s.memory l.addr
                             (u8 (16 * hex_value (l.hex_buf 0) + hex_value ch)) } []
                  (Or.inl ⟨rfl, rfl⟩) (by show l.addr + 1 ≤ 65536; omega)
                  (by simp only [hin]; exact hw.1 hwf)
                  (by simp only [hin, List.length_nil, List.length_singleton] at hbound ⊢; omega)
                simp only [hin, List.nil_append] at this
                simp only [hin, List.singleton_append, store_pairs]
                exact this
              · rw [load_loop_stop ch rest
                  (load_char_memory_full ch l s hc' hn hin hx h1 hbuf (by omega))]
                refine ⟨_, s.memory, rfl, rfl, fun i hi => ?_⟩
                exact (store_pairs_below _ _ _ _ (by omega)).symm

theorem outside_comments_zeros (n : Nat) :
    outside_comments false (List.replicate n 48) = List.replicate n 48 := by
  induction n with
  | zero => rfl
  | succ n ih =>
    rw [List.replicate_succ, outside_comments_outside 48 _ (by decide) (by decide), ih]

theorem source_digits_zeros (n : Nat) :
    source_digits (List.replicate n 48) = List.replicate n 48 := by
  unfold source_digits digits_from
  rw [outside_comments_zeros]
  exact List.filter_eq_self.2 fun a ha => by
    rw [List.eq_of_mem_replicate ha]
    decide

theorem well_formed_zeros (n : Nat) : well_formed (List.replicate n 48) := by
  intro ch hch
  rw [outside_comments_zeros] at hch
  rw [List.eq_of_mem_replicate hch]
  decide

/-! ### The loader as a whole -/

/-- C22: for a file that opens and whose text is well formed with at least
131074 hex digits outside comments (more than 65536 bytes), `load_program`
writes the first 65536 bytes to memory in order and prints the truncation
warning, but then also prints `Incomplete hex byte` and returns -1, not 0. -/
theorem load_program_memory_full (filename : List Nat) (fopen : List Nat → Option (List Nat))
    (s : VM) (text : List Nat) (hname : filename.length < 256)
    (hopen : fopen filename = some text) (hwf : well_formed text)
    (hcount : 131074 ≤ (source_digits text).length) :
    ∃ s', load_program filename fopen s = Except.ok (-1, s')
      ∧ s'.stderr = s.stderr ++ [Fault.memory_full, Fault.incomplete_hex]
      ∧ ∀ i, i < 65536 → (s'.memory i).val = (decode_pairs (source_digits text)).getD i 0 := by
  have hlen : ¬ (filename.length ≥ MAX_FILENAME_LEN) := by
    unfold MAX_FILENAME_LEN
    omega
  obtain ⟨l', m', hl, hpos, hmem⟩ := load_loop_memory_full text
    { addr := 0, in_comment := false, hex_buf := fun _ => 0, hex_pos := 0 }
    { s with memory := fun i => if i < MEMORY_SIZE then u8 0 else s.memory i } []
    (Or.inl ⟨rfl, rfl⟩) (Nat.zero_le _) hwf
    (by
      show 131074 ≤ 2 * 0 + 0 + (source_digits text).length
      omega)
  simp only [List.nil_append] at hmem
  unfold load_program
  rw [if_neg hlen, hopen]
  simp only [hl, bind, Except.bind]
  have h0 : l'.hex_pos ≠ 0 := by
    rw [hpos]
    decide
  rw [if_pos h0]
  refine ⟨_, rfl, ?_, fun i hi => ?_⟩
  · simp [report]
  · show (m' i).val = _
    rw [hmem i hi]
    show (store_pairs 0 (source_digits text) _ i).val = _
    rw [store_pairs_value]
    simp only [Nat.zero_le, true_and, Nat.zero_add, Nat.sub_zero]
    rw [if_pos (by omega)]
    exact Nat.mod_eq_of_lt (decode_pairs_lt _ _)

/-- Failing input for C22: the file `a` holding the digit `0` 131074 times
(65537 zero bytes), loaded into the reset machine: the result is -1, with the
truncation warning followed by `Incomplete hex byte`. -/
theorem load_program_memory_full_witness :
    [97].length < 256
    ∧ (fun _ : List Nat => some source_too_long) [97] = some source_too_long
    ∧ well_formed source_too_long
    ∧ 131074 ≤ (source_digits source_too_long).length
    ∧ ∃ s', load_program [97] (fun _ => some source_too_long) (reset []) = Except.ok (-1, s')
        ∧ s'.stderr = [Fault.memory_full, Fault.incomplete_hex] :=
  ⟨by decide, rfl, well_formed_zeros 131074,
    by rw [source_too_long, source_digits_zeros, List.length_replicate],
    (load_program_memory_full [97] (fun _ => some source_too_long) (reset []) source_too_long
      (by decide) rfl (well_formed_zeros 131074)
      (by rw [source_too_long, source_digits_zeros, List.length_replicate])).imp
        fun _ h => ⟨h.1, h.2.1⟩⟩

/-! ### Instructions that run past the end of memory -/

theorem exec_opcode_past_end (opcode : Nat) (s : VM) (hop : opcode ∈ operand_opcodes)
    (hw : s.ip + table_width opcode s > 65536) :
    exec_opcode opcode s = Except.ok (fault s
        (if s.ip + operand_width opcode > 65536 then Fault.truncated
         else Fault.comment_overflow))
    ∧ (s.ip + operand_width opcode ≤ 65536 → opcode = OP_COMMENT) := by
  by_cases h : s.ip + operand_width opcode > 65536
  · rw [if_pos h]
    exact ⟨exec_opcode_truncated opcode s hop h, fun h2 => by omega⟩
  · have hc : opcode = OP_COMMENT := by
      by_contra hne
      rw [table_width, if_neg hne] at hw
      exact h hw
    subst hc
    rw [if_neg h]
    refine ⟨?_, fun _ => rfl⟩
    have h2 : s.ip + 2 ≤ 65536 := Nat.le_of_not_lt h
    rw [table_width, if_pos rfl] at hw
    have hlen := (s.memory (s.ip + 1)).isLt
    have hu : u32 (s.ip + 2 + (s.memory (s.ip + 1)).val) = s.ip + 2 + (s.memory (s.ip + 1)).val := by
      unfold u32
      omega
    show op_COMMENT s = _
    rw [op_COMMENT_ok s (ensure_operands_fits h2 (by decide)), hu, if_pos]
    show s.ip + 2 + (s.memory (s.ip + 1)).val > 65536
    omega

/-- Counterexample to C2 as stated: `COMMENT 1` in the last two bytes of memory
has table width `2 + 1`, so `ip < 65536` and `ip + w > 65536`; the step ends the
run, but with the message `COMMENT overflows memory`, not with the
truncated-instruction message. -/
theorem comment_overflow_not_truncated :
    OP_COMMENT ∈ operand_opcodes ∧ (comment_at_end 1).ip < 65536
    ∧ table_width OP_COMMENT (comment_at_end 1) = 3
    ∧ (comment_at_end 1).ip + table_width OP_COMMENT (comment_at_end 1) > 65536
    ∧ ((comment_at_end 1).memory (comment_at_end 1).ip).val = OP_COMMENT
    ∧ ∃ s', step (comment_at_end 1) = Except.ok s' ∧ s'.running = false
        ∧ s'.stderr = [Fault.comment_overflow] ∧ Fault.truncated ∉ s'.stderr := by
  refine ⟨by decide, by decide, by decide, by decide, by decide, _, rfl, rfl, rfl, by decide⟩

/-- C2 (amended): for each of the 28 opcodes with operand bytes and its width
`w` in the opcode table (`2 + len` for `COMMENT len`), when `ip < 65536` and
`ip + w > 65536` the case of the switch stops the run with one message and
leaves memory, call stack, stack pointer, overflow flag, instruction pointer
and standard output unchanged. The message is the truncated-instruction one
when the fixed part of the instruction (the bytes its case checks, 2 for
`COMMENT`) runs past the end of memory; otherwise the opcode is `COMMENT`, its
two bytes lie inside memory and only its skipped bytes run past the end, and
the message is `COMMENT overflows memory`. The same holds for a whole loop
iteration that fetches this opcode at `ip` while the instruction counter is
below its ceiling. -/
theorem truncated_instruction_fault (opcode : Nat) (s : VM) (hop : opcode ∈ operand_opcodes)
    (hip : s.ip < 65536) (hw : s.ip + table_width opcode s > 65536) :
    (∃ s', exec_opcode opcode s = Except.ok s'
      ∧ s'.running = false
      ∧ (s.ip + operand_width opcode > 65536 → s'.stderr = s.stderr ++ [Fault.truncated])
      ∧ (s.ip + operand_width opcode ≤ 65536 →
          opcode = OP_COMMENT ∧ s'.stderr = s.stderr ++ [Fault.comment_overflow])
      ∧ s'.memory = s.memory ∧ s'.call_stack = s.call_stack
      ∧ s'.stack_pointer = s.stack_pointer ∧ s'.overflow_flag = s.overflow_flag
      ∧ s'.stdout = s.stdout ∧ s'.ip = s.ip)
    ∧ ((s.memory s.ip).val = opcode → s.instruction_count < 1000000 →
        ∃ s', step s = Except.ok s'
          ∧ s'.running = false
          ∧ (s.ip + operand_width opcode > 65536 → s'.stderr = s.stderr ++ [Fault.truncated])
          ∧ (s.ip + operand_width opcode ≤ 65536 →
              opcode = OP_COMMENT ∧ s'.stderr = s.stderr ++ [Fault.comment_overflow])
          ∧ s'.memory = s.memory ∧ s'.call_stack = s.call_stack
          ∧ s'.stack_pointer = s.stack_pointer ∧ s'.overflow_flag = s.overflow_flag
          ∧ s'.stdout = s.stdout ∧ s'.ip = s.ip) := by
  constructor
  · obtain ⟨he, hc⟩ := exec_opcode_past_end opcode s hop hw
    refine ⟨_, he, rfl, fun h => ?_, fun h => ⟨hc h, ?_⟩, rfl, rfl, rfl, rfl, rfl, rfl⟩
    · rw [if_pos h]
      rfl
    · rw [if_neg (Nat.not_lt.2 h)]
      rfl
  · intro hfetch hcount
    rw [step_dispatch s hcount hip, hfetch]
    obtain ⟨he, hc⟩ := exec_opcode_past_end opcode
      { s with instruction_count := s.instruction_count + 1 } hop hw
    refine ⟨_, he, rfl, fun h => ?_, fun h => ⟨hc h, ?_⟩, rfl, rfl, rfl, rfl, rfl, rfl⟩
    · show s.stderr ++ [if s.ip + operand_width opcode > 65536 then Fault.truncated
        else Fault.comment_overflow] = _
      rw [if_pos h]
    · show s.stderr ++ [if s.ip + operand_width opcode > 65536 then Fault.truncated
        else Fault.comment_overflow] = _
      rw [if_neg (Nat.not_lt.2 h)]

/-- Witness for C2 (amended): a `POKE` opcode in the last byte of memory. -/
theorem truncated_instruction_fault_witness :
    OP_POKE ∈ operand_opcodes ∧ poke_at_end.ip < 65536
    ∧ poke_at_end.ip + table_width OP_POKE poke_at_end > 65536
    ∧ (poke_at_end.memory poke_at_end.ip).val = OP_POKE
    ∧ poke_at_end.instruction_count < 1000000
    ∧ poke_at_end.ip + operand_width OP_POKE > 65536
    ∧ ∃ s', step poke_at_end = Except.ok s' ∧ s'.running = false
        ∧ s'.stderr = poke_at_end.stderr ++ [Fault.truncated] :=
  ⟨by decide, by decide, by decide, by decide, by decide, by decide,
    ((truncated_instruction_fault OP_POKE poke_at_end (by decide) (by decide) (by decide)).2
      (by decide) (by decide)).imp fun _ h => ⟨h.1, h.2.1, h.2.2.1 (by decide)⟩⟩

end Shredder
